import Mathlib

/-!
Chat support backend: session lifecycle, agent matching and message relay.

Shallow embedding of the in-process ("in-memory") record store
(`src/models/InMemoryModels.js`), of the agent methods of the durable model
(`src/models/Agent.js`), of `SessionService` (`src/services/sessionService.js`, the branch
taken when `isInMemoryMode()` holds, and both branches of `getSessionMessages`), of
`ChatController.getMessages` (`src/controllers/chatController.js`) and of the `join_session`
handler (`src/sockets/chatSocket.js`).

Modelling conventions.

* The three module-level `Map`s become lists in insertion order; `Map.set` is `mapSet`
  (replace the entry stored under the key, else append at the end).
* JavaScript objects are held by reference.  A mutation of an object that a map holds is
  written back with `mapSet` under the object's own key, which replaces the entry in place.
* `uuidv4()` returns a value never returned before: the store carries the number of values
  handed out so far, and `Id.uuid n` is the `n`-th of them.
* `new Date()` is the argument `now` of the operation that reads the clock.
* A rejected promise / thrown error is `Except.error` with the state reached at the throw.
-/

namespace ChatSupport

/-! ## Data model -/

/-- Identifier strings: `uuid n` is the `n`-th value returned by `uuidv4()`, `lit s` is any
other string (a user id sent by a client, the literal `'agent_001'`, ...). -/
inductive Id where
  | uuid (n : Nat)
  | lit (s : String)
  deriving DecidableEq

/-- The `status` field of a session. -/
inductive Status where
  | waiting
  | active
  | ended
  deriving DecidableEq

/-- Values held by `session.agentId`: `null` from the constructor, afterwards the argument
of `assignAgent`, which `createSession` takes from `agent._id`: a uuid for an
`InMemoryAgent` instance, `undefined` for an object that has no `_id` property. -/
inductive AgentRef where
  | null
  | undefined
  | id (n : Nat)
  deriving DecidableEq

/-- JavaScript truthiness of `session.agentId` (a uuid string is non-empty). -/
def AgentRef.truthy : AgentRef → Bool
  | .null => false
  | .undefined => false
  | .id _ => true

/-- Fields of an `InMemorySession` object; `_id` is the uuid drawn by the constructor. -/
structure Session where
  _id : Nat
  userId : Id
  userType : String
  agentId : AgentRef
  status : Status
  createdAt : Nat
  updatedAt : Nat
  endedAt : Option Nat
  endReason : Option String
  deriving DecidableEq

/-- Fields of an `InMemoryMessage` object. -/
structure Message where
  _id : Nat
  sessionId : Id
  senderId : Id
  senderType : String
  message : String
  timestamp : Nat
  createdAt : Nat
  updatedAt : Nat
  deriving DecidableEq

/-- An entry of the `agents` map.  `key` is the key it is stored under.  Objects built by
`new InMemoryAgent` are stored under their `_id` (a uuid) and carry the prototype methods;
the object literals stored by `initializeDefaultAgents` are stored under their literal `id`,
have no `_id` property and no methods. -/
structure Agent where
  key : Id
  name : String
  maxUsers : Nat
  activeUsers : List Id
  isOnline : Bool
  createdAt : Nat
  updatedAt : Nat
  deriving DecidableEq

/-- The expression `agent._id`. -/
def Agent._id (a : Agent) : AgentRef :=
  match a.key with
  | .uuid n => .id n
  | .lit _ => .undefined

/-- Whether the object has `InMemoryAgent.prototype` (so that `agent.assignUser` and
`agent.removeUser` are functions). -/
def Agent.isInstance (a : Agent) : Bool :=
  match a.key with
  | .uuid _ => true
  | .lit _ => false

/-- The getter `currentLoad`. -/
def Agent.currentLoad (a : Agent) : Nat := a.activeUsers.length

/-- The module state of `InMemoryModels.js`, with the count of uuids handed out. -/
structure Store where
  sessions : List Session
  messages : List Message
  agents : List Agent
  nextUuid : Nat
  deriving DecidableEq

/-- The module state right after loading: three empty maps. -/
def emptyStore : Store := { sessions := [], messages := [], agents := [], nextUuid := 0 }

/-- The call `uuidv4()`. -/
def uuidv4 (st : Store) : Nat × Store := (st.nextUuid, { st with nextUuid := st.nextUuid + 1 })

/-- The call `map.set(key v, v)` on a map held as a list in insertion order. -/
def mapSet {α κ : Type} [DecidableEq κ] (key : α → κ) (m : List α) (v : α) : List α :=
  if m.any (fun e => decide (key e = key v)) then
    m.map (fun e => if key e = key v then v else e)
  else m ++ [v]

/-- The call `map.get(k)`. -/
def mapGet {α κ : Type} [DecidableEq κ] (key : α → κ) (m : List α) (k : κ) : Option α :=
  m.find? (fun e => decide (key e = k))

/-- The call `array.reduce(f)` without an initial value, on a non-empty array. -/
def reduce {α : Type} (f : α → α → α) : List α → Option α
  | [] => none
  | a :: rest => some (rest.foldl f a)

/-! ## InMemorySession -/

/-- The constructor `new InMemorySession(userId, userType = 'user')`, `id` being the uuid
it draws. -/
def InMemorySession.new (id : Nat) (userId : Id) (userType : Option String) (now : Nat) :
    Session :=
  { _id := id, userId := userId, userType := userType.getD "user", agentId := .null,
    status := .waiting, createdAt := now, updatedAt := now, endedAt := none,
    endReason := none }

/-- The static `InMemorySession.create(userId, userType)`. -/
def InMemorySession.create (st : Store) (userId : Id) (userType : Option String)
    (now : Nat) : Session × Store :=
  let (id, st1) := uuidv4 st
  let session := InMemorySession.new id userId userType now
  (session, { st1 with sessions := mapSet Session._id st1.sessions session })

/-- The static `InMemorySession.findById(sessionId)`: only uuids are keys of `sessions`. -/
def InMemorySession.findById (st : Store) (sessionId : Id) : Option Session :=
  match sessionId with
  | .uuid n => mapGet Session._id st.sessions n
  | .lit _ => none

/-- The static `InMemorySession.findActiveByUserId(userId)`. -/
def InMemorySession.findActiveByUserId (st : Store) (userId : Id) : Option Session :=
  st.sessions.find? (fun session => decide (session.userId = userId) &&
    decide (session.status ≠ Status.ended))

/-- The method `assignAgent(agentId)`: the object after the call. -/
def Session.assignAgent (s : Session) (agentId : AgentRef) (now : Nat) : Session :=
  { s with agentId := agentId, status := .active, updatedAt := now }

/-- The method `endSession(reason = 'Session ended')`: the object after the call. -/
def Session.endSession (s : Session) (reason : Option String) (now : Nat) : Session :=
  { s with status := .ended, endedAt := some now,
           endReason := some (reason.getD "Session ended"), updatedAt := now }

/-- A session object held by `sessions` has been mutated into `s`. -/
def Store.writeSession (st : Store) (s : Session) : Store :=
  { st with sessions := mapSet Session._id st.sessions s }

/-! ## InMemoryAgent -/

/-- The constructor `new InMemoryAgent(name, maxUsers = 2)`, `id` being the uuid it draws. -/
def InMemoryAgent.new (id : Nat) (name : String) (maxUsers : Option Nat) (now : Nat) :
    Agent :=
  { key := .uuid id, name := name, maxUsers := maxUsers.getD 2, activeUsers := [],
    isOnline := true, createdAt := now, updatedAt := now }

/-- The static `InMemoryAgent.create(data)` with `data = {name, maxUsers}`. -/
def InMemoryAgent.create (st : Store) (name : String) (maxUsers : Option Nat) (now : Nat) :
    Agent × Store :=
  let (id, st1) := uuidv4 st
  let agent := InMemoryAgent.new id name maxUsers now
  (agent, { st1 with agents := mapSet Agent.key st1.agents agent })

/-- The static `InMemoryAgent.findById(agentId)` applied to the value of a session's
`agentId` field; `null` and `undefined` are keys of no entry. -/
def InMemoryAgent.findById (st : Store) (agentId : AgentRef) : Option Agent :=
  match agentId with
  | .id n => mapGet Agent.key st.agents (Id.uuid n)
  | .null => none
  | .undefined => none

/-- The static `InMemoryAgent.getAvailable()`. -/
def InMemoryAgent.getAvailable (st : Store) : List Agent :=
  st.agents.filter (fun agent => agent.isOnline &&
    decide (agent.activeUsers.length < agent.maxUsers))

/-- The callback `(prev, current) => prev.activeUsers.length <= current.activeUsers.length ?
prev : current` of `getLeastLoaded`. -/
def lessLoaded (prev current : Agent) : Agent :=
  if prev.activeUsers.length ≤ current.activeUsers.length then prev else current

/-- The static `InMemoryAgent.getLeastLoaded()`. -/
def InMemoryAgent.getLeastLoaded (st : Store) : Option Agent :=
  let availableAgents := InMemoryAgent.getAvailable st
  if availableAgents.length = 0 then none
  else reduce lessLoaded availableAgents

/-- The three object literals of `initializeDefaultAgents`. -/
def defaultAgents : List (String × String × Nat) :=
  [("agent_001", "Aatish Support", 2),
   ("agent_002", "Sanjay Support", 2),
   ("agent_003", "Ganesh Support", 2)]

/-- The object stored for one literal: `{...agent, activeUsers: [], isOnline: true,
createdAt: new Date(), updatedAt: new Date()}`, under the key `agent.id`. -/
def seedAgent (agent : String × String × Nat) (now : Nat) : Agent :=
  { key := .lit agent.1, name := agent.2.1, maxUsers := agent.2.2, activeUsers := [],
    isOnline := true, createdAt := now, updatedAt := now }

/-- The function `initializeDefaultAgents` (also the static of that name). -/
def initializeDefaultAgents (st : Store) (now : Nat) : Store :=
  if st.agents.length = 0 then
    defaultAgents.foldl (fun acc agent =>
      { acc with agents := mapSet Agent.key acc.agents (seedAgent agent now) }) st
  else st

/-- The guard of `assignUser`. -/
def Agent.canAssign (a : Agent) (userId : Id) : Bool :=
  decide (a.activeUsers.length < a.maxUsers) && !(a.activeUsers.contains userId)

/-- The method `assignUser(userId)`: the object after the call (`push`, then `updatedAt`,
then `save()` which sets `updatedAt` once more). -/
def Agent.assignUser (a : Agent) (userId : Id) (now : Nat) : Agent :=
  if a.canAssign userId then
    { a with activeUsers := a.activeUsers ++ [userId], updatedAt := now }
  else a

/-- The method `removeUser(userId)`: the object after the call. -/
def Agent.removeUser (a : Agent) (userId : Id) (now : Nat) : Agent :=
  { a with activeUsers := a.activeUsers.filter (fun id => decide (id ≠ userId)),
           updatedAt := now }

/-- The method `save()` of an agent: `agents.set(this._id, this)`. -/
def InMemoryAgent.save (st : Store) (a : Agent) (now : Nat) : Store :=
  let saved : Agent := { a with updatedAt := now }
  { st with agents := mapSet Agent.key st.agents saved }

/-- The call `agent.assignUser(userId)` on an instance held by `agents`: the store after. -/
def InMemoryAgent.assignUser (st : Store) (agent : Agent) (userId : Id) (now : Nat) :
    Store :=
  if agent.canAssign userId then InMemoryAgent.save st (agent.assignUser userId now) now
  else st

/-- The call `agent.removeUser(userId)` on an instance held by `agents`: the store after. -/
def InMemoryAgent.removeUser (st : Store) (agent : Agent) (userId : Id) (now : Nat) :
    Store :=
  InMemoryAgent.save st (agent.removeUser userId now) now

/-! ## Agent.js (durable model): the two document methods -/

/-- Fields of an `Agent` document of the durable model. -/
structure AgentDoc where
  name : String
  maxUsers : Nat
  activeUsers : List Id
  isOnline : Bool
  deriving DecidableEq

/-- The guard of `agentSchema.methods.assignUser`. -/
def AgentDoc.canAssign (a : AgentDoc) (userId : Id) : Bool :=
  decide (a.activeUsers.length < a.maxUsers) && !(a.activeUsers.contains userId)

/-- The method `agentSchema.methods.assignUser`: the document after the call. -/
def AgentDoc.assignUser (a : AgentDoc) (userId : Id) : AgentDoc :=
  if a.canAssign userId then
    { a with activeUsers := a.activeUsers ++ [userId] }
  else a

/-- The method `agentSchema.methods.removeUser`: the document after the call. -/
def AgentDoc.removeUser (a : AgentDoc) (userId : Id) : AgentDoc :=
  { a with activeUsers := a.activeUsers.filter (fun id => decide (id ≠ userId)) }

/-! ## SessionService (in-memory branch) -/

/-- The static `SessionService.getSessionById(sessionId)`. -/
def SessionService.getSessionById (st : Store) (sessionId : Id) : Except String Session :=
  match InMemorySession.findById st sessionId with
  | none => .error "Session not found"
  | some session => .ok session

/-- The static `SessionService.createSession(userId, userType = 'user')`: the outcome and
the store it leaves. -/
def SessionService.createSession (st : Store) (userId : Id) (userType : Option String)
    (now : Nat) : Except String Session × Store :=
  let userType := userType.getD "user"
  match InMemorySession.findActiveByUserId st userId with
  | some existingSession => (.ok existingSession, st)
  | none =>
    let (session, st1) := InMemorySession.create st userId (some userType) now
    match InMemoryAgent.getLeastLoaded st1 with
    | none => (.ok session, st1)
    | some agent =>
      let session1 := session.assignAgent agent._id now
      let st2 := st1.writeSession session1
      if agent.isInstance then
        (.ok session1, InMemoryAgent.assignUser st2 agent userId now)
      else (.error "agent.assignUser is not a function", st2)

/-- The static `SessionService.endSession(sessionId, reason = 'Session ended')`: the outcome
and the store it leaves. -/
def SessionService.endSession (st : Store) (sessionId : Id) (reason : Option String)
    (now : Nat) : Except String Session × Store :=
  let reason := reason.getD "Session ended"
  match SessionService.getSessionById st sessionId with
  | .error e => (.error e, st)
  | .ok session =>
    let session1 := session.endSession (some reason) now
    let st1 := st.writeSession session1
    if session1.agentId.truthy then
      match InMemoryAgent.findById st1 session1.agentId with
      | some agent =>
        if agent.isInstance then
          (.ok session1, InMemoryAgent.removeUser st1 agent session1.userId now)
        else (.error "agent.removeUser is not a function", st1)
      | none => (.ok session1, st1)
    else (.ok session1, st1)

/-! ## Call sequences -/

/-- One call of a method of an agent object (reserve / release). -/
inductive AgentCall where
  | assignUser (userId : Id) (now : Nat)
  | removeUser (userId : Id) (now : Nat)

/-- The in-memory agent object after one method call. -/
def AgentCall.run (a : Agent) : AgentCall → Agent
  | .assignUser userId now => a.assignUser userId now
  | .removeUser userId now => a.removeUser userId now

/-- The durable agent document after one method call. -/
def AgentCall.runDoc (a : AgentDoc) : AgentCall → AgentDoc
  | .assignUser userId _ => a.assignUser userId
  | .removeUser userId _ => a.removeUser userId

/-- The predicate of `getAvailable`. -/
def Agent.available (a : Agent) : Prop :=
  a.isOnline = true ∧ a.activeUsers.length < a.maxUsers

instance (a : Agent) : Decidable a.available := by
  unfold Agent.available; infer_instance

/-- Whether `agents.get(agentId)` returns this entry, for the value `agentId` of a session's
field: the entry is stored under that uuid. -/
def Agent.referredBy (a : Agent) (agentId : AgentRef) : Bool :=
  match agentId with
  | .id n => decide (a.key = Id.uuid n)
  | .null => false
  | .undefined => false

/-- One call of the session service. -/
inductive ServiceCall where
  | createSession (userId : Id) (userType : Option String) (now : Nat)
  | endSession (sessionId : Id) (reason : Option String) (now : Nat)

/-- The store left by one call of the session service (whether it returned or threw). -/
def ServiceCall.run (st : Store) : ServiceCall → Store
  | .createSession userId userType now =>
      (SessionService.createSession st userId userType now).2
  | .endSession sessionId reason now => (SessionService.endSession st sessionId reason now).2

/-- The predicate of `findActiveByUserId`: the session belongs to `userId` and is not
ended. -/
def Session.openFor (userId : Id) (s : Session) : Bool :=
  decide (s.userId = userId) && decide (s.status ≠ Status.ended)

/-- Whether a key is one of the first `n` uuids (literal keys are not uuids at all). -/
def Id.below (k : Id) (n : Nat) : Bool :=
  match k with
  | .uuid m => decide (m < n)
  | .lit _ => true

/-- What the three maps guarantee by construction: the keys of a map are pairwise distinct,
and every uuid in use has been handed out by `uuidv4()` already. -/
def Store.WF (st : Store) : Prop :=
  (st.sessions.map Session._id).Nodup ∧ (st.agents.map Agent.key).Nodup ∧
  (st.messages.map Message._id).Nodup ∧
  (∀ k ∈ st.sessions.map Session._id, k < st.nextUuid) ∧
  (∀ k ∈ st.agents.map Agent.key, k.below st.nextUuid = true) ∧
  (∀ k ∈ st.messages.map Message._id, k < st.nextUuid)

instance (st : Store) : Decidable st.WF := by
  unfold Store.WF; infer_instance

/-- Consecutive `createSession(userId, userType)` calls, one per request: the outcomes in
order and the store left by the last call. -/
def createSessions (st : Store) :
    List (Id × Option String × Nat) → List (Except String Session) × Store
  | [] => ([], st)
  | (userId, userType, now) :: rest =>
    let r := SessionService.createSession st userId userType now
    let rs := createSessions r.2 rest
    (r.1 :: rs.1, rs.2)

/-- Number of users the directory can still take: the sum of `maxUsers - currentLoad`. -/
def freeCapacity (ags : List Agent) : Nat :=
  (ags.map (fun a => a.maxUsers - a.activeUsers.length)).sum

/-- Invariant of a run of requests by users who are not yet known to the store: the maps are
well formed, each agent is an online `InMemoryAgent` instance within capacity, and no pending
user occurs in an active set or owns a session. -/
structure Fresh (st : Store) (pending : List Id) : Prop where
  wf : st.WF
  inst : ∀ a ∈ st.agents, a.isInstance = true ∧ a.isOnline = true ∧
    a.activeUsers.length ≤ a.maxUsers
  agentsFresh : ∀ a ∈ st.agents, ∀ u ∈ a.activeUsers, u ∉ pending
  sessionsFresh : ∀ s ∈ st.sessions, s.userId ∉ pending

/-! ## InMemoryMessage -/

/-- The constructor `new InMemoryMessage(sessionId, senderId, senderType, message)`, `id`
being the uuid it draws. -/
def InMemoryMessage.new (id : Nat) (sessionId senderId : Id) (senderType message : String)
    (now : Nat) : Message :=
  { _id := id, sessionId := sessionId, senderId := senderId, senderType := senderType,
    message := message, timestamp := now, createdAt := now, updatedAt := now }

/-- The static `InMemoryMessage.create(data)` with
`data = {sessionId, senderId, senderType, message}`. -/
def InMemoryMessage.create (st : Store) (sessionId senderId : Id)
    (senderType message : String) (now : Nat) : Message × Store :=
  let (id, st1) := uuidv4 st
  let m := InMemoryMessage.new id sessionId senderId senderType message now
  (m, { st1 with messages := mapSet Message._id st1.messages m })

/-- JavaScript truthiness of an identifier string: only the empty string is falsy. -/
def Id.truthy : Id → Bool
  | .uuid _ => true
  | .lit s => decide (s ≠ "")

/-- The order `a.timestamp - b.timestamp <= 0` behind the comparator
`(a, b) => a.timestamp - b.timestamp`. -/
def byTimestamp (a b : Message) : Prop := a.timestamp ≤ b.timestamp

instance : DecidableRel byTimestamp := fun a b => by
  unfold byTimestamp; infer_instance

instance : IsTotal Message byTimestamp := ⟨fun a b => Nat.le_total a.timestamp b.timestamp⟩

instance : IsTrans Message byTimestamp := ⟨fun _ _ _ h1 h2 => Nat.le_trans h1 h2⟩

/-- The call `messagesArray.sort((a, b) => a.timestamp - b.timestamp)`:
`Array.prototype.sort` is a stable sort, here insertion sort. -/
def sortAscending (l : List Message) : List Message := l.insertionSort byTimestamp

/-- The call `array.slice(start, end)` for `0 ≤ start`, `0 ≤ end`. -/
def slice {α : Type} (l : List α) (start stop : Nat) : List α :=
  (l.drop start).take (stop - start)

/-- The array `messagesArray` of `InMemoryMessage.find(query)` for `query = {sessionId}`,
at the point where the object with `sort` and `lean` is returned: the values of `messages`,
filtered when `query.sessionId` is truthy, then sorted by timestamp. -/
def InMemoryMessage.find (st : Store) (sessionId : Id) : List Message :=
  let messagesArray := st.messages
  let messagesArray :=
    if sessionId.truthy then messagesArray.filter (fun m => decide (m.sessionId = sessionId))
    else messagesArray
  sortAscending messagesArray

/-- The value of `InMemoryMessage.find({sessionId}).sort({timestamp: 1}).skip(offset)
.limit(limit)`: `sort` sorts the array once more, `skip` and `limit` only build closures,
and `limit` returns `messagesArray.slice(offset, offset + limit)`, a plain array. -/
def InMemoryMessage.findSortSkipLimit (st : Store) (sessionId : Id) (offset limit : Nat) :
    List Message :=
  slice (sortAscending (InMemoryMessage.find st sessionId)) offset (offset + limit)

/-- The static `InMemoryMessage.countDocuments(query)` for `query = {sessionId}`. -/
def InMemoryMessage.countDocuments (st : Store) (sessionId : Id) : Nat :=
  (if sessionId.truthy then st.messages.filter (fun m => decide (m.sessionId = sessionId))
   else st.messages).length

/-- The object literal that `getSessionMessages` and `addMessage` build from a message
(`formattedTime`, a locale rendering of `timestamp`, is left out). -/
structure MessageView where
  id : Nat
  senderId : Id
  senderType : String
  message : String
  timestamp : Nat
  deriving DecidableEq

/-- The fields copied from a stored message. -/
def Message.view (m : Message) : MessageView :=
  { id := m._id, senderId := m.senderId, senderType := m.senderType, message := m.message,
    timestamp := m.timestamp }

/-- The static `SessionService.addMessage(sessionId, senderId, senderType, message)`
(in-memory branch): the outcome `{session, message}` and the store it leaves. -/
def SessionService.addMessage (st : Store) (sessionId senderId : Id)
    (senderType message : String) (now : Nat) :
    Except String (Session × MessageView) × Store :=
  match SessionService.getSessionById st sessionId with
  | .error e => (.error e, st)
  | .ok session =>
    let (messageObj, st1) := InMemoryMessage.create st sessionId senderId senderType message now
    (.ok (session, messageObj.view), st1)

/-- One call of the session service or of the message relay. -/
inductive RelayCall where
  | createSession (userId : Id) (userType : Option String) (now : Nat)
  | endSession (sessionId : Id) (reason : Option String) (now : Nat)
  | addMessage (sessionId senderId : Id) (senderType message : String) (now : Nat)

/-- The store left by one call (whether it returned or threw). -/
def RelayCall.run (st : Store) : RelayCall → Store
  | .createSession userId userType now =>
      (SessionService.createSession st userId userType now).2
  | .endSession sessionId reason now => (SessionService.endSession st sessionId reason now).2
  | .addMessage sessionId senderId senderType message now =>
      (SessionService.addMessage st sessionId senderId senderType message now).2

/-- The allowed status changes: none, `waiting → active`, `waiting → ended`,
`active → ended`. -/
def Status.mayBecome (before after : Status) : Prop :=
  before = after ∨ (before = .waiting ∧ after = .active) ∨
    (before = .waiting ∧ after = .ended) ∨ (before = .active ∧ after = .ended)

instance (a b : Status) : Decidable (a.mayBecome b) := by
  unfold Status.mayBecome; infer_instance

/-- Every member of an active set is backed by a non-ended session of that user which is
assigned to that agent. -/
def Store.Backed (st : Store) : Prop :=
  ∀ b ∈ st.agents, ∀ V ∈ b.activeUsers,
    ∃ s ∈ st.sessions, s.status ≠ Status.ended ∧ s.userId = V ∧ b.referredBy s.agentId = true

/-- How often a user id occurs in the active sets of the whole directory. -/
def Store.served (st : Store) (U : Id) : Nat :=
  (st.agents.map (fun a => a.activeUsers.count U)).sum

/-! ## Reading the message log -/

/-- The record store behind the service: the in-process maps (`isInMemoryMode()`), or the
Mongoose models.  In the durable case the lists of `Store` stand for the collections, in
insertion order. -/
inductive Backend where
  | memory
  | durable
  deriving DecidableEq

/-- What the chain `find(..).sort(..).skip(..).limit(..)` evaluates to: for
`InMemoryMessage` the plain array returned by `slice`, for the Mongoose model a `Query`. -/
inductive Chained where
  | array (page : List Message)
  | query (page : List Message)

/-- The call `.lean()` at the end of the chain: a Mongoose `Query` has the method and
resolves to its documents; an `Array` has no property `lean`, so the call throws a
`TypeError`. -/
def Chained.leanCall : Chained → Except String (List Message)
  | .array _ =>
      .error "InMemoryMessage.find(...).sort(...).skip(...).limit(...).lean is not a function"
  | .query page => .ok page

/-- The Mongoose query `Message.find({ sessionId }).sort({ timestamp: 1 }).skip(offset)
.limit(limit)`, modelled on the library's documented meaning: the documents of the
collection whose `sessionId` equals the argument, ascending by `timestamp`, without the first
`offset`, cut to `limit` (a limit of 0 means no limit). -/
def MessageModel.findSortSkipLimit (st : Store) (sessionId : Id) (offset limit : Nat) :
    List Message :=
  let docs := sortAscending (st.messages.filter (fun m => decide (m.sessionId = sessionId)))
  if limit = 0 then docs.drop offset else (docs.drop offset).take limit

/-- The static `SessionService.getSessionMessages(sessionId, limit, offset)`; `limit` and
`offset` are the values of `parseInt(limit)` and `parseInt(offset)`. -/
def SessionService.getSessionMessages (b : Backend) (st : Store) (sessionId : Id)
    (limit offset : Nat) : Except String (List MessageView) :=
  let chained :=
    match b with
    | .memory => Chained.array (InMemoryMessage.findSortSkipLimit st sessionId offset limit)
    | .durable => Chained.query (MessageModel.findSortSkipLimit st sessionId offset limit)
  match chained.leanCall with
  | .error e => .error e
  | .ok messages => .ok (messages.map Message.view)

/-! ## ChatController.getMessages -/

/-- The `data` object of a successful `GET /chat/messages/:sessionId` response. -/
structure MessagesPage where
  sessionId : Id
  messages : List MessageView
  total : Nat
  limit : Nat
  offset : Nat
  hasMore : Bool
  deriving DecidableEq

/-- What `ChatController.getMessages` does with the response: `res.json(..)` (status 200),
`res.status(404).json(..)`, or `next(error)`, which hands the error to the error-handling
middleware. -/
inductive MessagesResponse where
  | ok (data : MessagesPage)
  | notFound
  | next (error : String)
  deriving DecidableEq

/-- The `catch` block of `getMessages`. -/
def ChatController.getMessagesCatch (error : String) : MessagesResponse :=
  if error = "Session not found" then .notFound else .next error

/-- The handler `ChatController.getMessages`, with `req.params.sessionId` and the query
parameters `limit` and `offset` (`none` when absent, else the value of `parseInt`). -/
def ChatController.getMessages (b : Backend) (st : Store) (sessionId : Id)
    (limit offset : Option Nat) : MessagesResponse :=
  let limit := limit.getD 50
  let offset := offset.getD 0
  match SessionService.getSessionMessages b st sessionId limit offset with
  | .error e => ChatController.getMessagesCatch e
  | .ok messages =>
    match SessionService.getSessionMessages b st sessionId 10000 0 with
    | .error e => ChatController.getMessagesCatch e
    | .ok totalMessages =>
      .ok { sessionId := sessionId, messages := messages, total := totalMessages.length,
            limit := limit, offset := offset,
            hasMore := decide (offset + limit < totalMessages.length) }

/-! ## chatSocket: `join_session` -/

/-- A value received from a client or held by a socket property: `undefined`, `null` or a
string. -/
inductive JsValue where
  | undefined
  | null
  | str (s : Id)
  deriving DecidableEq

/-- JavaScript truthiness. -/
def JsValue.truthy : JsValue → Bool
  | .undefined => false
  | .null => false
  | .str s => s.truthy

/-- The value of `session.agentId` as a JavaScript value. -/
def AgentRef.toJs : AgentRef → JsValue
  | .null => .null
  | .undefined => .undefined
  | .id n => .str (.uuid n)

/-- The state of a connection: the properties `sessionId`, `userId`, `userType` set by
`join_session` (absent before) and the rooms the socket has joined. -/
structure Socket where
  sessionId : JsValue
  userId : JsValue
  userType : Option String
  rooms : List Id
  deriving DecidableEq

/-- The events of the `join_session` and `send_message` handlers and of
`ChatController.sendMessage`, with their payloads. -/
inductive Event where
  | error (message : String)
  | user_joined (userId : JsValue) (userType : String) (timestamp : Nat)
  | session_joined (sessionId : Id) (status : Status) (agentId : AgentRef)
      (messages : List MessageView)
  | new_message (message : MessageView)
  deriving DecidableEq

/-- The receivers of an emit: `socket.emit` reaches the connection itself,
`socket.to(room).emit` the other members of the room, `io.to(room).emit` every member of
the room. -/
inductive Target where
  | self
  | others (room : Id)
  | room (room : Id)
  deriving DecidableEq

/-- One emitted event. -/
structure Emitted where
  target : Target
  event : Event
  deriving DecidableEq

/-- The payload of `join_session`: `userType` is `none` when the property is absent. -/
structure JoinData where
  sessionId : JsValue
  userId : JsValue
  userType : Option String

/-- The call `socket.join(room)`: the rooms of a socket form a set. -/
def Socket.join (socket : Socket) (room : Id) : Socket :=
  { socket with rooms := if room ∈ socket.rooms then socket.rooms else socket.rooms ++ [room] }

/-- The handler of `join_session`: the connection afterwards and the events emitted, in
order.  The handler only reads the store. -/
def joinSession (b : Backend) (st : Store) (socket : Socket) (data : JoinData) (now : Nat) :
    Socket × List Emitted :=
  let userType := data.userType.getD "user"
  match data.sessionId with
  | .undefined => (socket, [⟨.self, .error "SessionId is required"⟩])
  | .null => (socket, [⟨.self, .error "SessionId is required"⟩])
  | .str sessionId =>
    if !sessionId.truthy then (socket, [⟨.self, .error "SessionId is required"⟩])
    else
      match SessionService.getSessionById st sessionId with
      | .error _ => (socket, [⟨.self, .error "Failed to join session"⟩])
      | .ok session =>
        if userType = "user" ∧ JsValue.str session.userId ≠ data.userId then
          (socket, [⟨.self, .error "Unauthorized to join this session"⟩])
        else if userType = "agent" ∧ session.agentId.toJs ≠ data.userId then
          (socket, [⟨.self, .error "Agent not assigned to this session"⟩])
        else
          let joined : Socket :=
            { sessionId := .str sessionId, userId := data.userId, userType := some userType,
              rooms := (socket.join sessionId).rooms }
          let notice : Emitted := ⟨.others sessionId, .user_joined data.userId userType now⟩
          match SessionService.getSessionMessages b st sessionId 50 0 with
          | .error _ => (joined, [notice, ⟨.self, .error "Failed to join session"⟩])
          | .ok messages =>
            (joined, [notice,
              ⟨.self, .session_joined sessionId session.status session.agentId messages⟩])

/-- The history carried by an event: the `messages` of `session_joined`, nothing
otherwise. -/
def Event.history : Event → List MessageView
  | .session_joined _ _ _ messages => messages
  | _ => []

/-! ## chatSocket: `send_message` -/

/-- The payload of `send_message`: `message` is `none` when the property is absent. -/
structure SendData where
  sessionId : JsValue
  message : Option String

/-- JavaScript truthiness of an optional string: absent and empty are falsy. -/
def truthyString : Option String → Bool
  | none => false
  | some s => decide (s ≠ "")

/-- The handler of `send_message` (in-memory store): the store afterwards and the events
emitted, in order.  On success it calls `io.to(sessionId).emit('new_message', ..)` with an
object built field by field from `result.message`. -/
def sendMessageSocket (st : Store) (socket : Socket) (data : SendData) (now : Nat) :
    Store × List Emitted :=
  let senderId := socket.userId
  let senderType := socket.userType
  if !data.sessionId.truthy || !truthyString data.message || !senderId.truthy ||
      !truthyString senderType then
    (st, [⟨.self, .error "Invalid message data"⟩])
  else if socket.sessionId ≠ data.sessionId then
    (st, [⟨.self, .error "Not authorized for this session"⟩])
  else
    match data.sessionId, senderId, senderType, data.message with
    | .str sessionId, .str sender, some role, some message =>
      match SessionService.addMessage st sessionId sender role message now with
      | (.error _, st1) => (st1, [⟨.self, .error "Failed to send message"⟩])
      | (.ok result, st1) =>
        (st1, [⟨.room sessionId, .new_message
          { id := result.2.id, senderId := result.2.senderId,
            senderType := result.2.senderType, message := result.2.message,
            timestamp := result.2.timestamp }⟩])
    | _, _, _, _ => (st, [⟨.self, .error "Invalid message data"⟩])

/-! ## validateMessage and ChatController.sendMessage -/

/-- The value of `s.length` in JavaScript: the number of UTF-16 code units. -/
def jsLength (s : String) : Nat :=
  (s.data.map (fun c => if c.toNat < 65536 then 1 else 2)).sum

/-- The characters that `String.prototype.trim` strips: the ECMAScript `WhiteSpace` and
`LineTerminator` code points. -/
def isJsWhitespace (c : Char) : Bool :=
  c.toNat ∈ [0x09, 0x0A, 0x0B, 0x0C, 0x0D, 0x20, 0xA0, 0x1680, 0x2028, 0x2029, 0x202F,
    0x205F, 0x3000, 0xFEFF] || (decide (0x2000 ≤ c.toNat) && decide (c.toNat ≤ 0x200A))

/-- The method `String.prototype.trim`. -/
def jsTrim (s : String) : String :=
  String.mk ((s.data.dropWhile isJsWhitespace).reverse.dropWhile isJsWhitespace).reverse

/-- The body of `POST /chat/send-message/:sessionId`: `message` is `none` when the property
is absent or not a string, `senderType` is `none` when absent. -/
structure SendBody where
  message : Option String
  senderId : JsValue
  senderType : Option String

/-- The responses of the send path. -/
inductive SendResponse where
  | badRequest (code : String)
  | created (messageId : Nat) (sessionId : Nat) (message : MessageView)
      (sessionStatus : Status)
  | notFound
  | next (error : String)
  deriving DecidableEq

/-- The middleware `validateMessage`; `trim` is `String.prototype.trim`.  It answers 400
(`Except.error`) or calls `next()` with the trimmed message in the body (`Except.ok`).
A `senderId` of `SendBody` is `undefined`, `null` or a string, so the branch
`senderId && typeof senderId !== 'string'` (400 `INVALID_SENDER_ID`) is never taken. -/
def validateMessage (trim : String → String) (body : SendBody) :
    Except SendResponse SendBody :=
  match body.message with
  | none => .error (.badRequest "INVALID_MESSAGE")
  | some message =>
    if message = "" ∨ jsLength (trim message) = 0 then .error (.badRequest "INVALID_MESSAGE")
    else if jsLength message > 1000 then .error (.badRequest "MESSAGE_TOO_LONG")
    else if truthyString body.senderType = true ∧ body.senderType ≠ some "user" ∧
        body.senderType ≠ some "agent" ∧ body.senderType ≠ some "system" then
      .error (.badRequest "INVALID_SENDER_TYPE")
    else .ok { body with message := some (trim message) }

/-- The value of `senderId || authenticatedUser.id || 'anonymous'`. -/
def actualSenderId (senderId userId : JsValue) : Id :=
  match senderId, userId with
  | .str s, .str u => if s.truthy then s else if u.truthy then u else .lit "anonymous"
  | .str s, _ => if s.truthy then s else .lit "anonymous"
  | _, .str u => if u.truthy then u else .lit "anonymous"
  | _, _ => .lit "anonymous"

/-- The handler `ChatController.sendMessage` (in-memory store) on a body that has passed
`validateMessage`, so that `message` is a string; `io` tells whether `req.app.get('io')` is
set (`server.js` sets it), `userId` is `req.user.id`.  The response, the store afterwards
and the events emitted. -/
def ChatController.sendMessage (st : Store) (io : Bool) (userId : JsValue) (sessionId : Id)
    (message : String) (senderId : JsValue) (senderType : Option String) (now : Nat) :
    SendResponse × Store × List Emitted :=
  let senderType := senderType.getD "user"
  let sender := actualSenderId senderId userId
  match SessionService.addMessage st sessionId sender senderType message now with
  | (.error e, st1) =>
    (if e = "Session not found" then .notFound else .next e, st1, [])
  | (.ok result, st1) =>
    (.created result.2.id result.1._id
        { id := result.2.id, senderId := result.2.senderId,
          senderType := result.2.senderType, message := result.2.message,
          timestamp := result.2.timestamp } result.1.status,
      st1,
      if io then
        [⟨.room sessionId, .new_message
          { id := result.2.id, senderId := result.2.senderId,
            senderType := result.2.senderType, message := result.2.message,
            timestamp := result.2.timestamp }⟩]
      else [])

/-- The route `POST /chat/send-message/:sessionId` after authentication: `validateMessage`,
then `ChatController.sendMessage`. -/
def postSendMessage (trim : String → String) (st : Store) (io : Bool) (userId : JsValue)
    (sessionId : Id) (body : SendBody) (now : Nat) : SendResponse × Store × List Emitted :=
  match validateMessage trim body with
  | .error response => (response, st, [])
  | .ok body1 =>
    match body1.message with
    | none => (.badRequest "INVALID_MESSAGE", st, [])
    | some message =>
      ChatController.sendMessage st io userId sessionId message body1.senderId
        body1.senderType now

/-! ## authenticateToken -/

/-- The headers that `authenticateToken` reads (`none` when the header is absent). -/
structure AuthRequest where
  authorization : Option String
  xApiKey : Option String

/-- The payload of a verified token, as far as the handlers read it. -/
structure TokenUser where
  id : JsValue
  deriving DecidableEq

/-- The value assigned to `req.user`. -/
inductive ReqUser where
  | api (apiKey : String)
  | token (user : TokenUser)
  deriving DecidableEq

/-- What `authenticateToken` does: `next()`, or a 403 or a 401 response. -/
inductive AuthResult where
  | next (user : ReqUser)
  | forbidden
  | unauthorized
  deriving DecidableEq

/-- The pieces of a list of characters between its spaces. -/
def splitSpaces : List Char → List (List Char)
  | [] => [[]]
  | c :: cs =>
    match splitSpaces cs with
    | [] => [[]]
    | w :: ws => if c = ' ' then [] :: w :: ws else (c :: w) :: ws

/-- The call `s.split(' ')`. -/
def jsSplitSpace (s : String) : List String := (splitSpaces s.data).map String.mk

/-- The value of `authHeader && authHeader.split(' ')[1]`, up to truthiness. -/
def bearerToken (authHeader : Option String) : Option String :=
  match authHeader with
  | none => none
  | some h => (jsSplitSpace h)[1]?

/-- The condition `apiKey && apiKey === process.env.API_KEY`. -/
def AuthRequest.apiKeyOk (envApiKey : Option String) (req : AuthRequest) : Bool :=
  match req.xApiKey with
  | some apiKey => decide (apiKey ≠ "") && decide (some apiKey = envApiKey)
  | none => false

/-- The token of the request when `token` is truthy, else `none`. -/
def AuthRequest.token (req : AuthRequest) : Option String :=
  match bearerToken req.authorization with
  | some t => if t ≠ "" then some t else none
  | none => none

/-- The middleware `authenticateToken`; `envApiKey` is `process.env.API_KEY` and `verify`
is `jwt.verify(token, process.env.JWT_SECRET, ..)`: the payload, or `none` for an error. -/
def authenticateToken (envApiKey : Option String) (verify : String → Option TokenUser)
    (req : AuthRequest) : AuthResult :=
  if req.apiKeyOk envApiKey then .next (.api (req.xApiKey.getD ""))
  else
    match req.token with
    | some t =>
      match verify t with
      | none => .forbidden
      | some user => .next (.token user)
    | none => .unauthorized

/-! ## AgentService.getAgentStats -/

/-- The static `InMemoryAgent.find(query)`: `query` is `none` when the argument is missing,
and then reading `query.isOnline` throws; `some q` carries the value of `query.isOnline`. -/
def InMemoryAgent.find (st : Store) (query : Option (Option Bool)) :
    Except String (List Agent) :=
  match query with
  | none => .error "Cannot read properties of undefined (reading 'isOnline')"
  | some none => .ok st.agents
  | some (some isOnline) => .ok (st.agents.filter (fun a => a.isOnline = isOnline))

/-- One entry of the result of `getAgentStats`. -/
structure AgentStat where
  id : AgentRef
  name : String
  activeUsers : Nat
  maxUsers : Nat
  isOnline : Bool
  utilizationRate : String
  deriving DecidableEq

/-- The entry built for an agent; `rate load maxUsers` is the rendering of
`Math.round((load / maxUsers) * 100)`, a floating-point computation; an object without the
getter `utilizationRate` (a seed object) yields `'undefined%'`. -/
def Agent.stat (rate : Nat → Nat → String) (a : Agent) : AgentStat :=
  { id := a._id, name := a.name, activeUsers := a.activeUsers.length, maxUsers := a.maxUsers,
    isOnline := a.isOnline,
    utilizationRate :=
      (if a.isInstance then rate a.activeUsers.length a.maxUsers else "undefined") ++ "%" }

/-- The entry built for a document of the durable model, which has the virtual
`utilizationRate`. -/
def Agent.docStat (rate : Nat → Nat → String) (a : Agent) : AgentStat :=
  { id := a._id, name := a.name, activeUsers := a.activeUsers.length, maxUsers := a.maxUsers,
    isOnline := a.isOnline, utilizationRate := rate a.activeUsers.length a.maxUsers ++ "%" }

/-- The static `AgentService.getAgentStats()`: the in-memory branch calls
`InMemoryAgent.find()` without an argument inside `try`, and `catch` returns `[]`; the
durable branch maps the documents of `Agent.find()`. -/
def AgentService.getAgentStats (rate : Nat → Nat → String) (b : Backend) (st : Store) :
    List AgentStat :=
  match b with
  | .memory =>
    match InMemoryAgent.find st none with
    | .error _ => []
    | .ok agents => agents.map (Agent.stat rate)
  | .durable => st.agents.map (Agent.docStat rate)

/-- The fields of an in-memory agent that the durable document has too. -/
def Agent.toDoc (a : Agent) : AgentDoc :=
  { name := a.name, maxUsers := a.maxUsers, activeUsers := a.activeUsers,
    isOnline := a.isOnline }

/-! ## Concrete stores and objects used as instances -/

/-- An in-memory agent of capacity 1 serving nobody. -/
def agentCap1 : Agent :=
  { key := .uuid 0, name := "A", maxUsers := 1, activeUsers := [], isOnline := true,
    createdAt := 0, updatedAt := 0 }

/-- A durable agent document of capacity 1 serving nobody. -/
def docCap1 : AgentDoc :=
  { name := "A", maxUsers := 1, activeUsers := [], isOnline := true }

/-- Two reservations, a release and a third reservation. -/
def sampleCalls : List AgentCall :=
  [.assignUser (.lit "u1") 1, .assignUser (.lit "u2") 2, .removeUser (.lit "u1") 3,
   .assignUser (.lit "u3") 4]

/-- The directory after `InMemoryAgent.create({name: 'A', maxUsers: 2})` and
`InMemoryAgent.create({name: 'B'})` on the empty store: two agents of capacity 2. -/
def twoAgents : Store :=
  (InMemoryAgent.create (InMemoryAgent.create emptyStore "A" (some 2) 0).2 "B" none 0).2

/-- Two requests of one user, the end of that user's session, a request of a second user
and a new request of the first. -/
def sampleServiceCalls : List ServiceCall :=
  [.createSession (.lit "u1") none 1, .createSession (.lit "u1") (some "user") 2,
   .endSession (.uuid 2) none 3, .createSession (.lit "u2") none 4,
   .createSession (.lit "u1") none 5]

/-- The session that `createSession('u1')` returns on `twoAgents` at time 1: it carries the
third uuid and is assigned to the first agent. -/
def sessionU1 : Session :=
  { _id := 2, userId := .lit "u1", userType := "user", agentId := .id 0, status := .active,
    createdAt := 1, updatedAt := 1, endedAt := none, endReason := none }

/-- Five requests by five distinct users. -/
def fiveRequests : List (Id × Option String × Nat) :=
  [(.lit "u1", none, 1), (.lit "u2", none, 2), (.lit "u3", some "user", 3),
   (.lit "u4", none, 4), (.lit "u5", none, 5)]

/-- The store after `initializeDefaultAgents()` on the empty store. -/
def seeded : Store := initializeDefaultAgents emptyStore 0

/-- The store after the five requests on `twoAgents`: both agents full, `u5` waiting. -/
def filledStore : Store := (createSessions twoAgents fiveRequests).2

/-- The first agent of `filledStore`, serving `u1` and `u3`. -/
def agentA : Agent := filledStore.agents.headD agentCap1

/-- The end of the session of `u1`, a new request of `u1` and a message to the old
session. -/
def sampleRelayCalls : List RelayCall :=
  [.endSession (.uuid 2) (some "done") 6, .createSession (.lit "u1") none 7,
   .addMessage (.uuid 2) (.lit "u1") "user" "hello" 8]

/-- A connection that has joined nothing yet. -/
def freshSocket : Socket :=
  { sessionId := .undefined, userId := .undefined, userType := none, rooms := [] }

/-- The store after the first request of `u1` on `twoAgents`: `sessionU1` is stored. -/
def storeU1 : Store := (SessionService.createSession twoAgents (.lit "u1") none 1).2

/-- The store after 51 messages of `u1` to `sessionU1`, sent at the times 0, 1, ..., 50. -/
def longLog : Store :=
  (List.range 51).foldl
    (fun st i => (SessionService.addMessage st (.uuid 2) (.lit "u1") "user" "m" i).2) storeU1

/-- A connection bound to `sessionU1` as its owner `u1`. -/
def boundSocket : Socket :=
  { sessionId := .str (.uuid 2), userId := .str (.lit "u1"), userType := some "user",
    rooms := [.uuid 2] }

/-- A message body of 1001 characters. -/
def longBody : String := String.mk (List.replicate 1001 'a')

/-- The store after `u1` has sent `hello` to `sessionU1`. -/
def storeHello : Store :=
  (SessionService.addMessage storeU1 (.uuid 2) (.lit "u1") "user" "hello" 8).2

/-- A directory of one agent of capacity 1. -/
def oneAgent : Store := (InMemoryAgent.create emptyStore "A" (some 1) 0).2

/-- The session of `u1` is created and ended, `u1` asks again, the first session is ended a
second time, and `u2` asks. -/
def doubleEnd : List ServiceCall :=
  [.createSession (.lit "u1") none 1, .endSession (.uuid 1) none 2,
   .createSession (.lit "u1") none 3, .endSession (.uuid 1) none 4,
   .createSession (.lit "u2") none 5]

/-! # Theorems -/

/-! ## Agent methods -/

theorem Agent.assignUser_maxUsers (a : Agent) (u : Id) (now : Nat) :
    (a.assignUser u now).maxUsers = a.maxUsers := by
  unfold Agent.assignUser; split <;> rfl

theorem Agent.assignUser_length_le (a : Agent) (u : Id) (now : Nat)
    (h : a.activeUsers.length ≤ a.maxUsers) :
    (a.assignUser u now).activeUsers.length ≤ a.maxUsers := by
  unfold Agent.assignUser
  split
  · rename_i hc
    simp only [Agent.canAssign, Bool.and_eq_true, decide_eq_true_eq] at hc
    simp only [List.length_append, List.length_singleton]
    omega
  · exact h

theorem Agent.removeUser_length_le (a : Agent) (u : Id) (now : Nat) :
    (a.removeUser u now).activeUsers.length ≤ a.activeUsers.length := by
  simp only [Agent.removeUser]
  exact List.length_filter_le _ _

theorem AgentCall.run_bound (a : Agent) (c : AgentCall)
    (h : a.activeUsers.length ≤ a.maxUsers) :
    (c.run a).activeUsers.length ≤ (c.run a).maxUsers := by
  cases c with
  | assignUser u now =>
    simp only [AgentCall.run, Agent.assignUser_maxUsers]
    exact Agent.assignUser_length_le a u now h
  | removeUser u now =>
    exact le_trans (Agent.removeUser_length_le a u now) h

theorem AgentCall.runDoc_bound (a : AgentDoc) (c : AgentCall)
    (h : a.activeUsers.length ≤ a.maxUsers) :
    (c.runDoc a).activeUsers.length ≤ (c.runDoc a).maxUsers := by
  cases c with
  | assignUser u now =>
    simp only [AgentCall.runDoc, AgentDoc.assignUser]
    split
    · rename_i hc
      simp only [AgentDoc.canAssign, Bool.and_eq_true, decide_eq_true_eq] at hc
      simp only [List.length_append, List.length_singleton]
      omega
    · exact h
  | removeUser u now =>
    simp only [AgentCall.runDoc, AgentDoc.removeUser]
    exact le_trans (List.length_filter_le _ _) h

theorem AgentCall.foldl_run_bound (calls : List AgentCall) (a : Agent)
    (h : a.activeUsers.length ≤ a.maxUsers) :
    (calls.foldl AgentCall.run a).activeUsers.length ≤
      (calls.foldl AgentCall.run a).maxUsers := by
  induction calls generalizing a with
  | nil => exact h
  | cons c cs ih => exact ih (c.run a) (AgentCall.run_bound a c h)

theorem AgentCall.foldl_runDoc_bound (calls : List AgentCall) (a : AgentDoc)
    (h : a.activeUsers.length ≤ a.maxUsers) :
    (calls.foldl AgentCall.runDoc a).activeUsers.length ≤
      (calls.foldl AgentCall.runDoc a).maxUsers := by
  induction calls generalizing a with
  | nil => exact h
  | cons c cs ih => exact ih (c.runDoc a) (AgentCall.runDoc_bound a c h)

/-- C3: an agent whose active set is within capacity stays within capacity after any finite
sequence of `assignUser` and `removeUser` calls with arbitrary user ids, for the in-memory
agent object and for the durable agent document alike. -/
theorem capacity_invariant (a : Agent) (d : AgentDoc) (calls : List AgentCall)
    (ha : a.activeUsers.length ≤ a.maxUsers) (hd : d.activeUsers.length ≤ d.maxUsers) :
    (calls.foldl AgentCall.run a).activeUsers.length ≤
        (calls.foldl AgentCall.run a).maxUsers ∧
      (calls.foldl AgentCall.runDoc d).activeUsers.length ≤
        (calls.foldl AgentCall.runDoc d).maxUsers :=
  ⟨AgentCall.foldl_run_bound calls a ha, AgentCall.foldl_runDoc_bound calls d hd⟩

/-- Witness of C3: capacity 1, two reservations, a release, a third reservation. -/
theorem capacity_invariant_witness :
    (agentCap1.activeUsers.length ≤ agentCap1.maxUsers ∧
      docCap1.activeUsers.length ≤ docCap1.maxUsers) ∧
    ((sampleCalls.foldl AgentCall.run agentCap1).activeUsers.length ≤
        (sampleCalls.foldl AgentCall.run agentCap1).maxUsers ∧
      (sampleCalls.foldl AgentCall.runDoc docCap1).activeUsers.length ≤
        (sampleCalls.foldl AgentCall.runDoc docCap1).maxUsers) :=
  ⟨⟨by decide, by decide⟩,
   capacity_invariant agentCap1 docCap1 sampleCalls (by decide) (by decide)⟩

theorem Agent.canAssign_iff (a : Agent) (u : Id) :
    a.canAssign u = true ↔ a.activeUsers.length < a.maxUsers ∧ u ∉ a.activeUsers := by
  simp [Agent.canAssign]

theorem Agent.canAssign_assignUser (a : Agent) (u : Id) (now : Nat) :
    (a.assignUser u now).canAssign u = false := by
  unfold Agent.assignUser
  split
  · simp [Agent.canAssign]
  · rename_i h
    simpa using h

theorem AgentDoc.doc_canAssign_iff (a : AgentDoc) (u : Id) :
    a.canAssign u = true ↔ a.activeUsers.length < a.maxUsers ∧ u ∉ a.activeUsers := by
  simp [AgentDoc.canAssign]

theorem AgentDoc.doc_canAssign_assignUser (a : AgentDoc) (u : Id) :
    (a.assignUser u).canAssign u = false := by
  unfold AgentDoc.assignUser
  split
  · simp [AgentDoc.canAssign]
  · rename_i h
    simpa using h

/-- C4: `assignUser(u)` appends `u` to the active set exactly when the set is below capacity
and does not hold `u`; otherwise the agent object (and, for the in-memory store, the whole
store) is left as it was; the method is a total function (it never throws), and a second
`assignUser(u)` right after the first changes nothing.  Stated for the in-memory object and
for the durable document. -/
theorem assignUser_spec (st : Store) (a : Agent) (d : AgentDoc) (u : Id) (now now2 : Nat) :
    ((a.assignUser u now).activeUsers = a.activeUsers ++ [u] ↔
        (a.activeUsers.length < a.maxUsers ∧ u ∉ a.activeUsers)) ∧
    (¬ (a.activeUsers.length < a.maxUsers ∧ u ∉ a.activeUsers) →
        a.assignUser u now = a ∧ InMemoryAgent.assignUser st a u now = st) ∧
    (a.assignUser u now).assignUser u now2 = a.assignUser u now ∧
    ((d.assignUser u).activeUsers = d.activeUsers ++ [u] ↔
        (d.activeUsers.length < d.maxUsers ∧ u ∉ d.activeUsers)) ∧
    (¬ (d.activeUsers.length < d.maxUsers ∧ u ∉ d.activeUsers) → d.assignUser u = d) ∧
    (d.assignUser u).assignUser u = d.assignUser u := by
  refine ⟨?_, ?_, ?_, ?_, ?_, ?_⟩
  · by_cases h : a.canAssign u = true
    · have h2 := (Agent.canAssign_iff a u).1 h
      simp [Agent.assignUser, h, h2]
    · have h2 : ¬ (a.activeUsers.length < a.maxUsers ∧ u ∉ a.activeUsers) :=
        fun hc => h ((Agent.canAssign_iff a u).2 hc)
      simp only [Agent.assignUser, h, if_false, h2, iff_false]
      intro he
      have := congrArg List.length he
      simp at this
  · intro h
    have h2 : ¬ a.canAssign u = true := fun hc => h ((Agent.canAssign_iff a u).1 hc)
    simp [Agent.assignUser, InMemoryAgent.assignUser, h2]
  · have h := Agent.canAssign_assignUser a u now
    generalize a.assignUser u now = b at h
    simp [Agent.assignUser, h]
  · by_cases h : d.canAssign u = true
    · have h2 := (AgentDoc.doc_canAssign_iff d u).1 h
      simp [AgentDoc.assignUser, h, h2]
    · have h2 : ¬ (d.activeUsers.length < d.maxUsers ∧ u ∉ d.activeUsers) :=
        fun hc => h ((AgentDoc.doc_canAssign_iff d u).2 hc)
      simp only [AgentDoc.assignUser, h, if_false, h2, iff_false]
      intro he
      have := congrArg List.length he
      simp at this
  · intro h
    have h2 : ¬ d.canAssign u = true := fun hc => h ((AgentDoc.doc_canAssign_iff d u).1 hc)
    simp [AgentDoc.assignUser, h2]
  · have h := AgentDoc.doc_canAssign_assignUser d u
    generalize d.assignUser u = b at h
    simp [AgentDoc.assignUser, h]

/-- C5: `removeUser(u)` leaves an active set without `u` that is the original one with the
occurrences of `u` struck out (a sublist, so the order is kept, holding every other member
as often as before); an absent `u` leaves the set unchanged; a second `removeUser(u)` gives
the same active set and the same `currentLoad` as the first.  Stated for the in-memory object
and for the durable document. -/
theorem removeUser_spec (a : Agent) (d : AgentDoc) (u : Id) (now now2 : Nat) :
    (u ∉ (a.removeUser u now).activeUsers ∧
      List.Sublist (a.removeUser u now).activeUsers a.activeUsers ∧
      (∀ v, v ≠ u → (a.removeUser u now).activeUsers.count v = a.activeUsers.count v) ∧
      (u ∉ a.activeUsers → (a.removeUser u now).activeUsers = a.activeUsers) ∧
      ((a.removeUser u now).removeUser u now2).activeUsers =
        (a.removeUser u now).activeUsers ∧
      ((a.removeUser u now).removeUser u now2).currentLoad =
        (a.removeUser u now).currentLoad) ∧
    (u ∉ (d.removeUser u).activeUsers ∧
      List.Sublist (d.removeUser u).activeUsers d.activeUsers ∧
      (∀ v, v ≠ u → (d.removeUser u).activeUsers.count v = d.activeUsers.count v) ∧
      (u ∉ d.activeUsers → (d.removeUser u).activeUsers = d.activeUsers) ∧
      ((d.removeUser u).removeUser u).activeUsers = (d.removeUser u).activeUsers) := by
  have key : ∀ l : List Id,
      u ∉ l.filter (fun id => decide (id ≠ u)) ∧
      List.Sublist (l.filter (fun id => decide (id ≠ u))) l ∧
      (∀ v, v ≠ u → (l.filter (fun id => decide (id ≠ u))).count v = l.count v) ∧
      (u ∉ l → l.filter (fun id => decide (id ≠ u)) = l) ∧
      (l.filter (fun id => decide (id ≠ u))).filter (fun id => decide (id ≠ u)) =
        l.filter (fun id => decide (id ≠ u)) := by
    intro l
    refine ⟨?_, List.filter_sublist l, ?_, ?_, ?_⟩
    · simp [List.mem_filter]
    · intro v hv
      rw [List.count_filter]
      simpa using hv
    · intro hu
      rw [List.filter_eq_self]
      intro x hx
      have : x ≠ u := fun h => hu (h ▸ hx)
      simpa using this
    · rw [List.filter_filter]
      congr 1
      funext x
      simp
  obtain ⟨k1, k2, k3, k4, k5⟩ := key a.activeUsers
  obtain ⟨j1, j2, j3, j4, j5⟩ := key d.activeUsers
  refine ⟨⟨k1, k2, k3, k4, k5, ?_⟩, ⟨j1, j2, j3, j4, j5⟩⟩
  simp only [Agent.currentLoad, Agent.removeUser]
  exact congrArg List.length k5

/-- Witness of C4: a full agent ignores a further reservation, and so does the store. -/
theorem assignUser_spec_witness :
    (agentCap1.assignUser (.lit "u1") 1).assignUser (.lit "u2") 2 =
        agentCap1.assignUser (.lit "u1") 1 ∧
      InMemoryAgent.assignUser emptyStore (agentCap1.assignUser (.lit "u1") 1) (.lit "u2") 2 =
        emptyStore :=
  (assignUser_spec emptyStore (agentCap1.assignUser (.lit "u1") 1) docCap1 (.lit "u2") 2 3).2.1
    (by decide)

/-- Witness of C5: releasing a user who is not served leaves the active set as it was. -/
theorem removeUser_spec_witness :
    ((agentCap1.assignUser (.lit "u1") 1).removeUser (.lit "u2") 2).activeUsers =
      (agentCap1.assignUser (.lit "u1") 1).activeUsers :=
  (removeUser_spec (agentCap1.assignUser (.lit "u1") 1) docCap1 (.lit "u2") 2 3).1.2.2.2.1
    (by decide)

/-! ## Least-loaded selection -/

theorem foldl_lessLoaded_split (rest : List Agent) (a : Agent) :
    ∃ pre post, a :: rest = pre ++ (rest.foldl lessLoaded a) :: post ∧
      (∀ b ∈ pre, (rest.foldl lessLoaded a).activeUsers.length < b.activeUsers.length) ∧
      (∀ b ∈ post, (rest.foldl lessLoaded a).activeUsers.length ≤ b.activeUsers.length) := by
  induction rest generalizing a with
  | nil => exact ⟨[], [], rfl, by simp, by simp⟩
  | cons c cs ih =>
    simp only [List.foldl_cons]
    by_cases h : a.activeUsers.length ≤ c.activeUsers.length
    · have hf : lessLoaded a c = a := by simp [lessLoaded, h]
      rw [hf]
      obtain ⟨pre, post, heq, hpre, hpost⟩ := ih a
      cases pre with
      | nil =>
        simp only [List.nil_append, List.cons.injEq] at heq
        refine ⟨[], c :: cs, ?_, by simp, ?_⟩
        · rw [List.nil_append, ← heq.1]
        · intro b hb
          rcases List.mem_cons.1 hb with rfl | hb
          · rw [← heq.1]; exact h
          · exact hpost b (heq.2 ▸ hb)
      | cons p ps =>
        simp only [List.cons_append, List.cons.injEq] at heq
        refine ⟨a :: c :: ps, post, ?_, ?_, hpost⟩
        · exact congrArg (fun l => a :: c :: l) heq.2
        · have ha := hpre p (List.mem_cons_self _ _)
          rw [← heq.1] at ha
          intro b hb
          rcases List.mem_cons.1 hb with rfl | hb
          · exact ha
          · rcases List.mem_cons.1 hb with rfl | hb
            · omega
            · exact hpre b (List.mem_cons_of_mem _ hb)
    · have hf : lessLoaded a c = c := by simp [lessLoaded, h]
      rw [hf]
      obtain ⟨pre, post, heq, hpre, hpost⟩ := ih c
      have hc : (cs.foldl lessLoaded c).activeUsers.length ≤ c.activeUsers.length := by
        cases pre with
        | nil =>
          simp only [List.nil_append, List.cons.injEq] at heq
          rw [← heq.1]
        | cons p ps =>
          simp only [List.cons_append, List.cons.injEq] at heq
          have := hpre p (List.mem_cons_self _ _)
          rw [← heq.1] at this
          omega
      refine ⟨a :: pre, post, ?_, ?_, hpost⟩
      · exact congrArg (List.cons a) heq
      · intro b hb
        rcases List.mem_cons.1 hb with rfl | hb
        · omega
        · exact hpre b hb

theorem getLeastLoaded_eq_none_iff (st : Store) :
    InMemoryAgent.getLeastLoaded st = none ↔ ∀ a ∈ st.agents, ¬ a.available := by
  unfold InMemoryAgent.getLeastLoaded InMemoryAgent.getAvailable
  simp only [List.length_eq_zero]
  constructor
  · intro h
    by_cases he : st.agents.filter (fun agent => agent.isOnline &&
        decide (agent.activeUsers.length < agent.maxUsers)) = []
    · intro a ha hav
      have := (List.filter_eq_nil_iff.1 he) a ha
      apply this
      simpa [Agent.available] using hav
    · rw [if_neg he] at h
      cases hl : st.agents.filter (fun agent => agent.isOnline &&
          decide (agent.activeUsers.length < agent.maxUsers)) with
      | nil => exact absurd hl he
      | cons x xs => rw [hl] at h; simp [reduce] at h
  · intro h
    have he : st.agents.filter (fun agent => agent.isOnline &&
        decide (agent.activeUsers.length < agent.maxUsers)) = [] := by
      rw [List.filter_eq_nil_iff]
      intro a ha hav
      apply h a ha
      simpa [Agent.available] using hav
    rw [if_pos he]

theorem getLeastLoaded_eq_some (st : Store) (a : Agent)
    (h : InMemoryAgent.getLeastLoaded st = some a) :
    ∃ pre post, InMemoryAgent.getAvailable st = pre ++ a :: post ∧
      (∀ b ∈ pre, a.activeUsers.length < b.activeUsers.length) ∧
      (∀ b ∈ post, a.activeUsers.length ≤ b.activeUsers.length) := by
  unfold InMemoryAgent.getLeastLoaded at h
  simp only at h
  cases hl : InMemoryAgent.getAvailable st with
  | nil => rw [hl] at h; simp at h
  | cons x xs =>
    rw [hl] at h
    simp only [List.length_cons, Nat.add_one_ne_zero, if_false, reduce, Option.some.injEq] at h
    have := foldl_lessLoaded_split xs x
    rw [h] at this
    exact this

theorem getLeastLoaded_split (st : Store) (a : Agent)
    (h : InMemoryAgent.getLeastLoaded st = some a) :
    ∃ pre post, st.agents = pre ++ a :: post ∧ a.available ∧
      (∀ b ∈ pre, b.available → a.activeUsers.length < b.activeUsers.length) ∧
      (∀ b ∈ post, b.available → a.activeUsers.length ≤ b.activeUsers.length) := by
  obtain ⟨pre, post, heq, hpre, hpost⟩ := getLeastLoaded_eq_some st a h
  unfold InMemoryAgent.getAvailable at heq
  obtain ⟨l1, l2, hl, h1, h2⟩ := List.filter_eq_append_iff.1 heq
  obtain ⟨m1, m2, hm, hm1, hma, hm2⟩ := List.filter_eq_cons_iff.1 h2
  refine ⟨l1 ++ m1, m2, ?_, ?_, ?_, ?_⟩
  · rw [hl, hm, List.append_assoc]
  · simpa [Agent.available] using hma
  · intro b hb hav
    rcases List.mem_append.1 hb with hb | hb
    · apply hpre b
      rw [← h1, List.mem_filter]
      exact ⟨hb, by simpa [Agent.available] using hav⟩
    · exact absurd (by simpa [Agent.available] using hav) (hm1 b hb)
  · intro b hb hav
    apply hpost b
    rw [← hm2, List.mem_filter]
    exact ⟨hb, by simpa [Agent.available] using hav⟩

/-- C6: `getLeastLoaded` returns `null` exactly when no agent of the directory is online
with a load below its capacity; otherwise the agent it returns is available, every available
agent enumerated before it has a strictly larger load and every available agent enumerated
after it has a load at least as large: it is the first of the available agents of minimum
load. -/
theorem getLeastLoaded_spec (st : Store) :
    (InMemoryAgent.getLeastLoaded st = none ↔ ∀ a ∈ st.agents, ¬ a.available) ∧
    (∀ a, InMemoryAgent.getLeastLoaded st = some a →
      ∃ pre post, st.agents = pre ++ a :: post ∧ a.available ∧
        (∀ b ∈ pre, b.available → a.activeUsers.length < b.activeUsers.length) ∧
        (∀ b ∈ post, b.available → a.activeUsers.length ≤ b.activeUsers.length)) :=
  ⟨getLeastLoaded_eq_none_iff st, fun a h => getLeastLoaded_split st a h⟩

/-- Witness of C6: on two idle agents the first one is returned, with no agent enumerated
before it. -/
theorem getLeastLoaded_spec_witness :
    InMemoryAgent.getLeastLoaded twoAgents =
        some (InMemoryAgent.create emptyStore "A" (some 2) 0).1 ∧
    ∃ pre post, twoAgents.agents =
        pre ++ (InMemoryAgent.create emptyStore "A" (some 2) 0).1 :: post ∧
      (InMemoryAgent.create emptyStore "A" (some 2) 0).1.available ∧
      (∀ b ∈ pre, b.available →
        (InMemoryAgent.create emptyStore "A" (some 2) 0).1.activeUsers.length <
          b.activeUsers.length) ∧
      (∀ b ∈ post, b.available →
        (InMemoryAgent.create emptyStore "A" (some 2) 0).1.activeUsers.length ≤
          b.activeUsers.length) :=
  ⟨rfl, (getLeastLoaded_spec twoAgents).2 _ rfl⟩

/-! ## Maps as lists -/

theorem mapSet_of_not_mem {α κ : Type} [DecidableEq κ] (key : α → κ) (m : List α) (v : α)
    (h : ∀ e ∈ m, key e ≠ key v) : mapSet key m v = m ++ [v] := by
  unfold mapSet
  rw [if_neg]
  simp only [List.any_eq_true, decide_eq_true_eq, not_exists, not_and]
  exact h

theorem mapSet_split {α κ : Type} [DecidableEq κ] (key : α → κ) (pre post : List α)
    (e v : α) (hk : key e = key v) (hn : ((pre ++ e :: post).map key).Nodup) :
    mapSet key (pre ++ e :: post) v = pre ++ v :: post := by
  have hpre : ∀ x ∈ pre, key x ≠ key v := by
    intro x hx heq
    rw [List.map_append, List.nodup_append] at hn
    exact hn.2.2 (List.mem_map_of_mem key hx)
      (by rw [heq, ← hk]; exact List.mem_map_of_mem key (List.mem_cons_self _ _)) 
  have hpost : ∀ x ∈ post, key x ≠ key v := by
    intro x hx heq
    rw [List.map_append, List.nodup_append] at hn
    have h2 := hn.2.1
    rw [List.map_cons, List.nodup_cons] at h2
    exact h2.1 (by rw [hk, ← heq]; exact List.mem_map_of_mem key hx)
  unfold mapSet
  rw [if_pos]
  · rw [List.map_append, List.map_cons, if_pos hk]
    congr 1
    · conv_rhs => rw [← List.map_id pre]
      apply List.map_congr_left
      intro x hx
      simp [hpre x hx]
    · congr 1
      conv_rhs => rw [← List.map_id post]
      apply List.map_congr_left
      intro x hx
      simp [hpost x hx]
  · simp only [List.any_eq_true, decide_eq_true_eq]
    exact ⟨e, by simp, hk⟩

theorem mapSet_keys_of_mem {α κ : Type} [DecidableEq κ] (key : α → κ) (m : List α) (v : α)
    (h : ∃ e ∈ m, key e = key v) : (mapSet key m v).map key = m.map key := by
  unfold mapSet
  rw [if_pos]
  · rw [List.map_map]
    apply List.map_congr_left
    intro x _
    by_cases hx : key x = key v
    · simp [hx]
    · simp [hx]
  · simp only [List.any_eq_true, decide_eq_true_eq]
    exact h

theorem mapGet_split {α κ : Type} [DecidableEq κ] (key : α → κ) (m : List α) (k : κ)
    (e : α) (h : mapGet key m k = some e) :
    key e = k ∧ ∃ pre post, m = pre ++ e :: post := by
  unfold mapGet at h
  obtain ⟨hp, pre, post, heq, _⟩ := List.find?_eq_some.1 h
  exact ⟨by simpa using hp, pre, post, heq⟩

/-! ## Effect of `createSession` -/

theorem getLeastLoaded_congr (st st2 : Store) (h : st2.agents = st.agents) :
    InMemoryAgent.getLeastLoaded st2 = InMemoryAgent.getLeastLoaded st := by
  simp only [InMemoryAgent.getLeastLoaded, InMemoryAgent.getAvailable, h]

theorem getLeastLoaded_mk (ss : List Session) (ms : List Message) (ags : List Agent)
    (n : Nat) (st : Store) (h : ags = st.agents) :
    InMemoryAgent.getLeastLoaded { sessions := ss, messages := ms, agents := ags,
                                   nextUuid := n } = InMemoryAgent.getLeastLoaded st := by
  simp only [InMemoryAgent.getLeastLoaded, InMemoryAgent.getAvailable, h]

theorem getLeastLoaded_mem (st : Store) (a : Agent)
    (h : InMemoryAgent.getLeastLoaded st = some a) :
    a.available ∧ ∃ pre post, st.agents = pre ++ a :: post := by
  obtain ⟨pre, post, heq, hav, _, _⟩ := getLeastLoaded_split st a h
  exact ⟨hav, pre, post, heq⟩

theorem sessions_nodup_snoc (st : Store) (hwf : st.WF) (s : Session)
    (hs : s._id = st.nextUuid) : ((st.sessions ++ [s]).map Session._id).Nodup := by
  rw [List.map_append, List.nodup_append]
  refine ⟨hwf.1, by simp, ?_⟩
  intro k hk hk2
  simp only [List.map_cons, List.map_nil, List.mem_singleton] at hk2
  have := hwf.2.2.2.1 k hk
  omega

theorem create_eq (st : Store) (hwf : st.WF) (U : Id) (t : Option String) (now : Nat) :
    InMemorySession.create st U t now =
      (InMemorySession.new st.nextUuid U t now,
        { sessions := st.sessions ++ [InMemorySession.new st.nextUuid U t now],
          messages := st.messages, agents := st.agents, nextUuid := st.nextUuid + 1 }) := by
  simp only [InMemorySession.create, uuidv4]
  rw [mapSet_of_not_mem]
  intro e he heq
  have := hwf.2.2.2.1 e._id (List.mem_map_of_mem _ he)
  simp only [InMemorySession.new] at heq
  omega

theorem createSession_existing (st : Store) (U : Id) (t : Option String) (now : Nat)
    (e : Session) (h : InMemorySession.findActiveByUserId st U = some e) :
    SessionService.createSession st U t now = (.ok e, st) := by
  simp only [SessionService.createSession, h]

theorem createSession_waiting (st : Store) (hwf : st.WF) (U : Id) (t : Option String)
    (now : Nat) (hU : InMemorySession.findActiveByUserId st U = none)
    (hL : InMemoryAgent.getLeastLoaded st = none) :
    SessionService.createSession st U t now =
      (.ok (InMemorySession.new st.nextUuid U (some (t.getD "user")) now),
        { sessions := st.sessions ++
            [InMemorySession.new st.nextUuid U (some (t.getD "user")) now],
          messages := st.messages, agents := st.agents, nextUuid := st.nextUuid + 1 }) := by
  simp only [SessionService.createSession, hU, create_eq st hwf]
  rw [getLeastLoaded_mk _ _ _ _ st rfl, hL]

theorem writeSession_snoc (st : Store) (hwf : st.WF) (s0 s1 : Session)
    (h0 : s0._id = st.nextUuid) (h1 : s1._id = s0._id) (n : Nat) :
    Store.writeSession
        { sessions := st.sessions ++ [s0], messages := st.messages, agents := st.agents,
          nextUuid := n } s1 =
      { sessions := st.sessions ++ [s1], messages := st.messages, agents := st.agents,
        nextUuid := n } := by
  simp only [Store.writeSession]
  rw [mapSet_split Session._id st.sessions [] s0 s1 h1.symm (sessions_nodup_snoc st hwf s0 h0)]

theorem save_assignUser (a : Agent) (U : Id) (now : Nat) (h : a.canAssign U = true) :
    ({ a.assignUser U now with updatedAt := now } : Agent) = a.assignUser U now := by
  simp [Agent.assignUser, h]

theorem assignUser_key (a : Agent) (U : Id) (now : Nat) :
    (a.assignUser U now).key = a.key := by
  unfold Agent.assignUser; split <;> rfl

theorem store_assignUser_mk (ss : List Session) (ms : List Message) (n : Nat)
    (pre post : List Agent) (a : Agent) (U : Id) (now : Nat)
    (hn : ((pre ++ a :: post).map Agent.key).Nodup) :
    InMemoryAgent.assignUser
        { sessions := ss, messages := ms, agents := pre ++ a :: post, nextUuid := n }
        a U now =
      { sessions := ss, messages := ms, agents := pre ++ a.assignUser U now :: post,
        nextUuid := n } := by
  unfold InMemoryAgent.assignUser
  by_cases h : a.canAssign U = true
  · rw [if_pos h]
    simp only [InMemoryAgent.save, save_assignUser a U now h]
    rw [mapSet_split Agent.key pre post a _ (assignUser_key a U now).symm hn]
  · rw [if_neg h]
    have : a.assignUser U now = a := by simp [Agent.assignUser, h]
    rw [this]

theorem createSession_assigned (st : Store) (hwf : st.WF) (U : Id) (t : Option String)
    (now : Nat) (hU : InMemorySession.findActiveByUserId st U = none) (a : Agent)
    (pre post : List Agent) (hs : st.agents = pre ++ a :: post)
    (hL : InMemoryAgent.getLeastLoaded st = some a) (hi : a.isInstance = true) :
    SessionService.createSession st U t now =
      (.ok ((InMemorySession.new st.nextUuid U (some (t.getD "user")) now).assignAgent
          a._id now),
        { sessions := st.sessions ++
            [(InMemorySession.new st.nextUuid U (some (t.getD "user")) now).assignAgent
              a._id now],
          messages := st.messages, agents := pre ++ a.assignUser U now :: post,
          nextUuid := st.nextUuid + 1 }) := by
  simp only [SessionService.createSession, hU, create_eq st hwf]
  rw [getLeastLoaded_mk _ _ _ _ st rfl, hL]
  simp only [hi, if_true]
  rw [writeSession_snoc st hwf (InMemorySession.new st.nextUuid U (some (t.getD "user")) now)
    ((InMemorySession.new st.nextUuid U (some (t.getD "user")) now).assignAgent a._id now)
    rfl rfl (st.nextUuid + 1)]
  have hn := hwf.2.1
  rw [hs] at hn ⊢
  rw [store_assignUser_mk _ _ _ pre post a U now hn]

theorem createSession_seed (st : Store) (hwf : st.WF) (U : Id) (t : Option String)
    (now : Nat) (hU : InMemorySession.findActiveByUserId st U = none) (a : Agent)
    (hL : InMemoryAgent.getLeastLoaded st = some a) (hi : a.isInstance = false) :
    SessionService.createSession st U t now =
      (.error "agent.assignUser is not a function",
        { sessions := st.sessions ++
            [(InMemorySession.new st.nextUuid U (some (t.getD "user")) now).assignAgent
              a._id now],
          messages := st.messages, agents := st.agents, nextUuid := st.nextUuid + 1 }) := by
  simp only [SessionService.createSession, hU, create_eq st hwf]
  rw [getLeastLoaded_mk _ _ _ _ st rfl, hL]
  simp only [hi, Bool.false_eq_true, if_false]
  rw [writeSession_snoc st hwf (InMemorySession.new st.nextUuid U (some (t.getD "user")) now)
    ((InMemorySession.new st.nextUuid U (some (t.getD "user")) now).assignAgent a._id now)
    rfl rfl (st.nextUuid + 1)]

/-! ## Effect of `endSession` -/

theorem mapSet_of_mem {α κ : Type} [DecidableEq κ] (key : α → κ) (m : List α) (v : α)
    (h : ∃ e ∈ m, key e = key v) :
    mapSet key m v = m.map (fun e => if key e = key v then v else e) := by
  unfold mapSet
  rw [if_pos]
  simp only [List.any_eq_true, decide_eq_true_eq]
  exact h

theorem findById_some (st : Store) (sid : Id) (s : Session)
    (h : InMemorySession.findById st sid = some s) :
    sid = Id.uuid s._id ∧ s ∈ st.sessions := by
  unfold InMemorySession.findById at h
  cases sid with
  | lit x => simp at h
  | uuid n =>
    simp only [mapGet] at h
    have h1 := List.find?_some h
    have h2 := List.mem_of_find?_eq_some h
    simp only [decide_eq_true_eq] at h1
    exact ⟨by rw [h1], h2⟩

theorem endSession_notFound (st : Store) (sid : Id) (r : Option String) (now : Nat)
    (h : InMemorySession.findById st sid = none) :
    SessionService.endSession st sid r now = (.error "Session not found", st) := by
  simp only [SessionService.endSession, SessionService.getSessionById, h]

theorem removeUser_saved (a : Agent) (u : Id) (now : Nat) :
    ({ a.removeUser u now with updatedAt := now } : Agent) = a.removeUser u now := by
  simp [Agent.removeUser]

theorem store_removeUser_map (ss : List Session) (ms : List Message) (ags : List Agent)
    (n : Nat) (hn : (ags.map Agent.key).Nodup) (a : Agent) (ha : a ∈ ags) (u : Id)
    (now : Nat) :
    InMemoryAgent.removeUser
        { sessions := ss, messages := ms, agents := ags, nextUuid := n } a u now =
      { sessions := ss, messages := ms,
        agents := ags.map (fun b => if b.key = a.key then b.removeUser u now else b),
        nextUuid := n } := by
  simp only [InMemoryAgent.removeUser, InMemoryAgent.save, removeUser_saved]
  rw [mapSet_of_mem Agent.key ags (a.removeUser u now) ⟨a, ha, rfl⟩]
  congr 1
  apply List.map_congr_left
  intro e he
  have hk : (a.removeUser u now).key = a.key := rfl
  rw [hk]
  by_cases h : e.key = a.key
  · have : e = a := List.inj_on_of_nodup_map hn he ha h
    simp [this]
  · simp [h]

theorem endSession_effect (st : Store) (hwf : st.WF) (sid : Id) (r : Option String)
    (now : Nat) (s : Session) (h : InMemorySession.findById st sid = some s) :
    SessionService.endSession st sid r now =
      (.ok (s.endSession (some (r.getD "Session ended")) now),
        { sessions := st.sessions.map (fun x =>
            if x._id = s._id then s.endSession (some (r.getD "Session ended")) now else x),
          messages := st.messages,
          agents := st.agents.map (fun b =>
            if b.referredBy s.agentId = true then b.removeUser s.userId now else b),
          nextUuid := st.nextUuid }) := by
  obtain ⟨_, hmem⟩ := findById_some st sid s h
  simp only [SessionService.endSession, SessionService.getSessionById, h, Store.writeSession]
  rw [mapSet_of_mem Session._id st.sessions (s.endSession (some (r.getD "Session ended")) now)
    ⟨s, hmem, rfl⟩]
  have hid : (s.endSession (some (r.getD "Session ended")) now)._id = s._id := rfl
  have hag : (s.endSession (some (r.getD "Session ended")) now).agentId = s.agentId := rfl
  have hus : (s.endSession (some (r.getD "Session ended")) now).userId = s.userId := rfl
  rw [hid, hag, hus]
  cases href : s.agentId with
  | null => simp [AgentRef.truthy, Agent.referredBy]
  | undefined => simp [AgentRef.truthy, Agent.referredBy]
  | id k =>
    simp only [AgentRef.truthy, if_true, InMemoryAgent.findById]
    cases hget : mapGet Agent.key st.agents (Id.uuid k) with
    | none =>
      simp only [Prod.mk.injEq, true_and, Store.mk.injEq, and_true]
      have hnone : ∀ b ∈ st.agents, b.key ≠ Id.uuid k := by
        intro b hb
        have := (List.find?_eq_none.1 hget) b hb
        simpa using this
      conv_lhs => rw [← List.map_id st.agents]
      apply List.map_congr_left
      intro b hb
      simp [Agent.referredBy, hnone b hb]
    | some a =>
      have hk : a.key = Id.uuid k := by
        have := List.find?_some hget
        simpa using this
      have ha : a ∈ st.agents := List.mem_of_find?_eq_some hget
      have hi : a.isInstance = true := by simp [Agent.isInstance, hk]
      simp only [hi, if_true]
      rw [store_removeUser_map _ _ _ _ hwf.2.1 a ha]
      simp only [Agent.referredBy, hk, decide_eq_true_eq]

/-! ## The map invariants are kept by the session service -/

theorem Id.below_succ (k : Id) (n : Nat) (h : k.below n = true) : k.below (n + 1) = true := by
  cases k with
  | lit x => rfl
  | uuid m =>
    simp only [Id.below, decide_eq_true_eq] at h ⊢
    omega

theorem WF_of_keys (st st2 : Store) (hwf : st.WF)
    (h1 : st2.sessions.map Session._id = st.sessions.map Session._id)
    (h2 : st2.agents.map Agent.key = st.agents.map Agent.key)
    (h3 : st2.messages.map Message._id = st.messages.map Message._id)
    (h4 : st2.nextUuid = st.nextUuid) : st2.WF := by
  unfold Store.WF at hwf ⊢
  rw [h1, h2, h3, h4]
  exact hwf

theorem WF_snoc_session (st : Store) (hwf : st.WF) (s : Session) (ags : List Agent)
    (hs : s._id = st.nextUuid) (hk : ags.map Agent.key = st.agents.map Agent.key) :
    Store.WF { sessions := st.sessions ++ [s], messages := st.messages, agents := ags,
               nextUuid := st.nextUuid + 1 } := by
  refine ⟨sessions_nodup_snoc st hwf s hs, ?_, hwf.2.2.1, ?_, ?_, ?_⟩
  · show (ags.map Agent.key).Nodup
    rw [hk]; exact hwf.2.1
  · intro k hk2
    simp only [List.map_append, List.map_cons, List.map_nil, List.mem_append,
      List.mem_singleton] at hk2
    show k < st.nextUuid + 1
    rcases hk2 with hk2 | hk2
    · have := hwf.2.2.2.1 k hk2
      omega
    · omega
  · intro k hk2
    show k.below (st.nextUuid + 1) = true
    have hk3 : k ∈ ags.map Agent.key := hk2
    rw [hk] at hk3
    exact Id.below_succ k _ (hwf.2.2.2.2.1 k hk3)
  · intro k hk2
    show k < st.nextUuid + 1
    have := hwf.2.2.2.2.2 k hk2
    omega

theorem keys_split_assignUser (pre post : List Agent) (a : Agent) (U : Id) (now : Nat) :
    (pre ++ a.assignUser U now :: post).map Agent.key = (pre ++ a :: post).map Agent.key := by
  simp [assignUser_key]

/-- The shape of the store left by `createSession` for a user without an open session: one
session is appended, it carries the fresh uuid, belongs to the user and is not ended; the
directory keeps its keys and `messages` is untouched. -/
theorem createSession_shape (st : Store) (hwf : st.WF) (U : Id) (t : Option String)
    (now : Nat) (hU : InMemorySession.findActiveByUserId st U = none) :
    ∃ s ags, (SessionService.createSession st U t now).2 =
        { sessions := st.sessions ++ [s], messages := st.messages, agents := ags,
          nextUuid := st.nextUuid + 1 } ∧
      s._id = st.nextUuid ∧ s.userId = U ∧ s.status ≠ Status.ended ∧
      ags.map Agent.key = st.agents.map Agent.key := by
  cases hL : InMemoryAgent.getLeastLoaded st with
  | none =>
    rw [createSession_waiting st hwf U t now hU hL]
    exact ⟨_, _, rfl, rfl, rfl, by simp [InMemorySession.new], rfl⟩
  | some a =>
    obtain ⟨_, pre, post, hs⟩ := getLeastLoaded_mem st a hL
    cases hi : a.isInstance with
    | true =>
      rw [createSession_assigned st hwf U t now hU a pre post hs hL hi]
      refine ⟨_, _, rfl, rfl, rfl, by simp [InMemorySession.new, Session.assignAgent], ?_⟩
      rw [hs]; exact keys_split_assignUser pre post a U now
    | false =>
      rw [createSession_seed st hwf U t now hU a hL hi]
      exact ⟨_, _, rfl, rfl, rfl, by simp [InMemorySession.new, Session.assignAgent], rfl⟩

theorem createSession_WF (st : Store) (hwf : st.WF) (U : Id) (t : Option String)
    (now : Nat) : (SessionService.createSession st U t now).2.WF := by
  cases hU : InMemorySession.findActiveByUserId st U with
  | some e => rw [createSession_existing st U t now e hU]; exact hwf
  | none =>
    obtain ⟨s, ags, heq, hid, _, _, hk⟩ := createSession_shape st hwf U t now hU
    rw [heq]
    exact WF_snoc_session st hwf s ags hid hk

theorem endSession_WF (st : Store) (hwf : st.WF) (sid : Id) (r : Option String)
    (now : Nat) : (SessionService.endSession st sid r now).2.WF := by
  cases h : InMemorySession.findById st sid with
  | none => rw [endSession_notFound st sid r now h]; exact hwf
  | some s =>
    rw [endSession_effect st hwf sid r now s h]
    apply WF_of_keys st _ hwf
    · simp only [List.map_map]
      apply List.map_congr_left
      intro x _
      by_cases hx : x._id = s._id
      · simp [hx, Session.endSession]
      · simp [hx]
    · simp only [List.map_map]
      apply List.map_congr_left
      intro b _
      by_cases hb : b.referredBy s.agentId = true
      · simp [hb, Agent.removeUser]
      · simp [hb]
    · rfl
    · rfl

theorem ServiceCall.run_WF (st : Store) (hwf : st.WF) (c : ServiceCall) : (c.run st).WF := by
  cases c with
  | createSession u t now => exact createSession_WF st hwf u t now
  | endSession i r now => exact endSession_WF st hwf i r now

/-! ## At most one open session per user -/

theorem createSession_countP (st : Store) (hwf : st.WF) (U : Id) (t : Option String)
    (now : Nat) (V : Id) (h : st.sessions.countP (Session.openFor V) ≤ 1) :
    (SessionService.createSession st U t now).2.sessions.countP (Session.openFor V) ≤ 1 := by
  cases hU : InMemorySession.findActiveByUserId st U with
  | some e => rw [createSession_existing st U t now e hU]; exact h
  | none =>
    obtain ⟨s, ags, heq, _, hus, _, _⟩ := createSession_shape st hwf U t now hU
    rw [heq]
    simp only [List.countP_append, List.countP_cons, List.countP_nil, Nat.zero_add]
    by_cases hV : V = U
    · subst hV
      have h0 : st.sessions.countP (Session.openFor V) = 0 := by
        rw [List.countP_eq_zero]
        intro x hx
        have := (List.find?_eq_none.1 hU) x hx
        simpa [Session.openFor] using this
      rw [h0]
      split <;> omega
    · have : Session.openFor V s = false := by
        simp only [Session.openFor, hus, Bool.and_eq_false_imp, decide_eq_true_eq]
        intro h2
        exact absurd h2.symm hV
      simp only [this, Bool.false_eq_true, if_false]
      omega

theorem countP_map_le {α : Type} (p : α → Bool) (g : α → α) (l : List α)
    (h : ∀ x ∈ l, p (g x) = true → p x = true) : (l.map g).countP p ≤ l.countP p := by
  rw [List.countP_map]
  exact List.countP_mono_left (fun x hx hp => h x hx hp)

theorem endSession_countP (st : Store) (hwf : st.WF) (sid : Id) (r : Option String)
    (now : Nat) (V : Id) :
    (SessionService.endSession st sid r now).2.sessions.countP (Session.openFor V) ≤
      st.sessions.countP (Session.openFor V) := by
  cases h : InMemorySession.findById st sid with
  | none => rw [endSession_notFound st sid r now h]
  | some s =>
    rw [endSession_effect st hwf sid r now s h]
    apply countP_map_le
    intro x _ hp
    by_cases hx : x._id = s._id
    · simp [hx, Session.openFor, Session.endSession] at hp
    · simpa [hx] using hp

theorem runCalls_invariant (calls : List ServiceCall) (st : Store) (hwf : st.WF)
    (h : ∀ V, st.sessions.countP (Session.openFor V) ≤ 1) :
    (calls.foldl ServiceCall.run st).WF ∧
      ∀ V, (calls.foldl ServiceCall.run st).sessions.countP (Session.openFor V) ≤ 1 := by
  induction calls generalizing st with
  | nil => exact ⟨hwf, h⟩
  | cons c cs ih =>
    apply ih (c.run st) (ServiceCall.run_WF st hwf c)
    intro V
    cases c with
    | createSession u t now => exact createSession_countP st hwf u t now V (h V)
    | endSession i r now => exact le_trans (endSession_countP st hwf i r now V) (h V)

/-- C1: in every store reached from a store without sessions (the empty store, or one that
only holds agents and messages) by any finite sequence of `createSession` and `endSession`
calls, each user id has at most one stored session whose status differs from `'ended'`. -/
theorem one_open_session_per_user (st0 : Store) (calls : List ServiceCall) (U : Id)
    (hwf : st0.WF) (h0 : st0.sessions = []) :
    ((calls.foldl ServiceCall.run st0).sessions.filter
      (fun s => decide (s.userId = U) && decide (s.status ≠ Status.ended))).length ≤ 1 := by
  have h := (runCalls_invariant calls st0 hwf (by intro V; simp [h0])).2 U
  rw [List.countP_eq_length_filter] at h
  exact h

/-- Witness of C1: two agents, a user who asks twice, ends the session and asks again. -/
theorem one_open_session_per_user_witness :
    (twoAgents.WF ∧ twoAgents.sessions = []) ∧
    (((sampleServiceCalls.foldl ServiceCall.run twoAgents).sessions.filter
      (fun s => decide (s.userId = Id.lit "u1") && decide (s.status ≠ Status.ended))).length
        ≤ 1) :=
  ⟨⟨by decide, rfl⟩,
   one_open_session_per_user twoAgents sampleServiceCalls (.lit "u1") (by decide) rfl⟩

/-! ## Idempotence of `createSession` -/

theorem mem_mapSet_self {α κ : Type} [DecidableEq κ] (key : α → κ) (m : List α) (v : α) :
    v ∈ mapSet key m v := by
  unfold mapSet
  split
  · rename_i h
    simp only [List.any_eq_true, decide_eq_true_eq] at h
    obtain ⟨e, he, hk⟩ := h
    exact List.mem_map.2 ⟨e, he, by simp [hk]⟩
  · simp

theorem mem_mapSet {α κ : Type} [DecidableEq κ] (key : α → κ) (m : List α) (v x : α)
    (h : x ∈ mapSet key m v) : x = v ∨ (x ∈ m ∧ key x ≠ key v) := by
  unfold mapSet at h
  split at h
  · obtain ⟨e, he, hx⟩ := List.mem_map.1 h
    by_cases hk : key e = key v
    · left; simp only [hk, if_true] at hx; exact hx.symm
    · right; simp only [hk, if_false] at hx; rw [← hx]; exact ⟨he, hk⟩
  · rename_i hany
    simp only [List.any_eq_true, decide_eq_true_eq, not_exists, not_and] at hany
    rcases List.mem_append.1 h with h | h
    · right; exact ⟨h, hany x h⟩
    · left; simpa using h

theorem find?_map_replace {α κ : Type} [DecidableEq κ] (key : α → κ) (p : α → Bool)
    (m : List α) (v : α) (hp : p v = true) (hm : ∀ x ∈ m, p x = true → key x = key v)
    (he : ∃ e ∈ m, key e = key v) :
    (m.map (fun e => if key e = key v then v else e)).find? p = some v := by
  induction m with
  | nil => obtain ⟨e, he, _⟩ := he; simp at he
  | cons a as ih =>
    by_cases ha : key a = key v
    · simp [ha, hp]
    · have hpa : ¬ p a = true := fun h => ha (hm a (List.mem_cons_self _ _) h)
      simp only [List.map_cons, ha, if_false]
      rw [List.find?_cons_of_neg _ hpa]
      apply ih (fun x hx => hm x (List.mem_cons_of_mem _ hx))
      obtain ⟨e, he, hk⟩ := he
      rcases List.mem_cons.1 he with rfl | he
      · exact absurd hk ha
      · exact ⟨e, he, hk⟩

theorem find?_mapSet {α κ : Type} [DecidableEq κ] (key : α → κ) (p : α → Bool)
    (m : List α) (v : α) (hp : p v = true) (hm : ∀ x ∈ m, p x = true → key x = key v) :
    (mapSet key m v).find? p = some v := by
  unfold mapSet
  split
  · rename_i h
    simp only [List.any_eq_true, decide_eq_true_eq] at h
    exact find?_map_replace key p m v hp hm h
  · rename_i h
    simp only [List.any_eq_true, decide_eq_true_eq, not_exists, not_and] at h
    have hnone : m.find? p = none := by
      rw [List.find?_eq_none]
      intro x hx hpx
      exact h x hx (hm x hx hpx)
    simp [List.find?_append, hnone, hp]

theorem assignUser_sessions (st : Store) (a : Agent) (U : Id) (now : Nat) :
    (InMemoryAgent.assignUser st a U now).sessions = st.sessions := by
  unfold InMemoryAgent.assignUser
  split <;> rfl

/-- C2: when `createSession(U, t)` returns a session, a second `createSession(U, t2)` issued
right after it returns that very session (same id, same fields) and leaves the whole store
as it was: no session is added, no session field and no active-user set changes. -/
theorem createSession_idempotent (st st1 : Store) (U : Id) (t t2 : Option String)
    (now now2 : Nat) (s : Session)
    (h : SessionService.createSession st U t now = (.ok s, st1)) :
    SessionService.createSession st1 U t2 now2 = (.ok s, st1) := by
  apply createSession_existing
  cases hU : InMemorySession.findActiveByUserId st U with
  | some e =>
    rw [createSession_existing st U t now e hU] at h
    simp only [Prod.mk.injEq, Except.ok.injEq] at h
    rw [← h.1, ← h.2]; exact hU
  | none =>
    have hnone : ∀ x ∈ st.sessions, ¬ Session.openFor U x = true := by
      intro x hx
      have := (List.find?_eq_none.1 hU) x hx
      simpa [Session.openFor] using this
    simp only [SessionService.createSession, hU, InMemorySession.create, uuidv4] at h
    split at h
    · simp only [Prod.mk.injEq, Except.ok.injEq] at h
      rw [← h.1, ← h.2]
      apply find?_mapSet Session._id
      · simp [InMemorySession.new]
      · intro x hx hpx
        exact absurd hpx (by simpa [Session.openFor] using hnone x hx)
    · rename_i a _
      split at h
      · simp only [Prod.mk.injEq, Except.ok.injEq] at h
        rw [← h.1, ← h.2]
        simp only [InMemorySession.findActiveByUserId, assignUser_sessions,
          Store.writeSession]
        apply find?_mapSet Session._id
        · simp [InMemorySession.new, Session.assignAgent]
        · intro x hx hpx
          rcases mem_mapSet _ _ _ _ hx with rfl | ⟨hx2, _⟩
          · rfl
          · exact absurd hpx (by simpa [Session.openFor] using hnone x hx2)
      · simp at h

/-- Witness of C2: the first request of `u1` on two idle agents returns `sessionU1`, and so
does the second, without changing the store. -/
theorem createSession_idempotent_witness :
    SessionService.createSession twoAgents (.lit "u1") none 1 =
        (.ok sessionU1, (SessionService.createSession twoAgents (.lit "u1") none 1).2) ∧
      SessionService.createSession (SessionService.createSession twoAgents (.lit "u1") none 1).2
        (.lit "u1") (some "agent") 2 =
        (.ok sessionU1, (SessionService.createSession twoAgents (.lit "u1") none 1).2) :=
  ⟨rfl, createSession_idempotent twoAgents _ (.lit "u1") none (some "agent") 1 2 sessionU1 rfl⟩

/-! ## Filling the directory -/

theorem freeCapacity_split (pre post : List Agent) (a : Agent) :
    freeCapacity (pre ++ a :: post) =
      freeCapacity pre + (a.maxUsers - a.activeUsers.length) + freeCapacity post := by
  simp [freeCapacity, Nat.add_assoc]

theorem freeCapacity_eq_zero (ags : List Agent)
    (h : ∀ a ∈ ags, ¬ a.activeUsers.length < a.maxUsers) : freeCapacity ags = 0 := by
  induction ags with
  | nil => rfl
  | cons a as ih =>
    have ha := h a (List.mem_cons_self _ _)
    have := ih (fun b hb => h b (List.mem_cons_of_mem _ hb))
    simp only [freeCapacity, List.map_cons, List.sum_cons] at this ⊢
    omega

theorem full_of_freeCapacity_zero (ags : List Agent) (h : freeCapacity ags = 0)
    (hle : ∀ a ∈ ags, a.activeUsers.length ≤ a.maxUsers) :
    ∀ a ∈ ags, a.activeUsers.length = a.maxUsers := by
  induction ags with
  | nil => intro a ha; simp at ha
  | cons b bs ih =>
    simp only [freeCapacity, List.map_cons, List.sum_cons] at h
    have hb := hle b (List.mem_cons_self _ _)
    intro a ha
    rcases List.mem_cons.1 ha with rfl | ha
    · omega
    · exact ih (by simp only [freeCapacity]; omega)
        (fun c hc => hle c (List.mem_cons_of_mem _ hc)) a ha

theorem Fresh.findActive_none (st : Store) (U : Id) (rest : List Id)
    (hf : Fresh st (U :: rest)) : InMemorySession.findActiveByUserId st U = none := by
  unfold InMemorySession.findActiveByUserId
  rw [List.find?_eq_none]
  intro x hx
  have := hf.sessionsFresh x hx
  simp only [List.mem_cons, not_or] at this
  simp [this.1]

/-- A request by a pending user while no agent is available: the session stays `waiting`
without an agent, and the directory is left as it is. -/
theorem Fresh.step_waiting (st : Store) (U : Id) (rest : List Id) (t : Option String)
    (now : Nat) (hf : Fresh st (U :: rest)) (hd : (U :: rest).Nodup)
    (hL : InMemoryAgent.getLeastLoaded st = none) :
    (∃ s, (SessionService.createSession st U t now).1 = .ok s ∧ s.userId = U ∧
        s.status = Status.waiting ∧ s.agentId = AgentRef.null) ∧
      Fresh (SessionService.createSession st U t now).2 rest ∧
      freeCapacity st.agents = 0 ∧
      (SessionService.createSession st U t now).2.agents = st.agents := by
  have hU := Fresh.findActive_none st U rest hf
  have hwf2 := createSession_WF st hf.wf U t now
  rw [createSession_waiting st hf.wf U t now hU hL] at hwf2 ⊢
  refine ⟨⟨_, rfl, rfl, rfl, rfl⟩, ⟨hwf2, hf.inst, ?_, ?_⟩, ?_, rfl⟩
  · intro a ha u hu hr
    exact hf.agentsFresh a ha u hu (List.mem_cons_of_mem _ hr)
  · intro x hx hr
    rcases List.mem_append.1 hx with hx | hx
    · exact hf.sessionsFresh x hx (List.mem_cons_of_mem _ hr)
    · simp only [List.mem_singleton] at hx
      rw [hx] at hr
      exact (List.nodup_cons.1 hd).1 hr
  · apply freeCapacity_eq_zero
    intro a ha hlt
    exact (getLeastLoaded_eq_none_iff st).1 hL a ha ⟨(hf.inst a ha).2.1, hlt⟩

/-- A request by a pending user while an agent is available: the session is `active` with
that agent, whose load grows by one. -/
theorem Fresh.step_assigned (st : Store) (U : Id) (rest : List Id) (t : Option String)
    (now : Nat) (hf : Fresh st (U :: rest)) (hd : (U :: rest).Nodup) (a : Agent)
    (hL : InMemoryAgent.getLeastLoaded st = some a) :
    (∃ s k, (SessionService.createSession st U t now).1 = .ok s ∧ s.userId = U ∧
        s.status = Status.active ∧ s.agentId = AgentRef.id k ∧ a.key = Id.uuid k) ∧
      Fresh (SessionService.createSession st U t now).2 rest ∧
      freeCapacity (SessionService.createSession st U t now).2.agents + 1 =
        freeCapacity st.agents := by
  have hU := Fresh.findActive_none st U rest hf
  have hwf2 := createSession_WF st hf.wf U t now
  obtain ⟨hav, pre, post, hs⟩ := getLeastLoaded_mem st a hL
  have ha : a ∈ st.agents := by rw [hs]; simp
  obtain ⟨hi, hon, hle⟩ := hf.inst a ha
  have hnot : U ∉ a.activeUsers := fun hu => hf.agentsFresh a ha U hu (List.mem_cons_self _ _)
  have hcan : a.canAssign U = true := (Agent.canAssign_iff a U).2 ⟨hav.2, hnot⟩
  have hact : (a.assignUser U now).activeUsers = a.activeUsers ++ [U] := by
    simp [Agent.assignUser, hcan]
  have hmax : (a.assignUser U now).maxUsers = a.maxUsers := Agent.assignUser_maxUsers a U now
  have hkey : (a.assignUser U now).key = a.key := assignUser_key a U now
  have hon2 : (a.assignUser U now).isOnline = a.isOnline := by
    simp [Agent.assignUser, hcan]
  rw [createSession_assigned st hf.wf U t now hU a pre post hs hL hi] at hwf2 ⊢
  have hlt := hav.2
  refine ⟨?_, ⟨hwf2, ?_, ?_, ?_⟩, ?_⟩
  · cases hk : a.key with
    | lit x => simp [Agent.isInstance, hk] at hi
    | uuid k =>
      exact ⟨_, k, rfl, rfl, rfl, by simp [Session.assignAgent, Agent._id, hk], rfl⟩
  · intro b hb
    simp only [List.mem_append, List.mem_cons] at hb
    have hold : ∀ c, c ∈ pre ∨ c ∈ post → c ∈ st.agents := by
      intro c hc; rw [hs]; simp only [List.mem_append, List.mem_cons]; tauto
    rcases hb with hb | hb | hb
    · exact hf.inst b (hold b (Or.inl hb))
    · subst hb
      refine ⟨?_, ?_, ?_⟩
      · simpa [Agent.isInstance, hkey] using hi
      · rw [hon2]; exact hon
      · rw [hact, hmax, List.length_append, List.length_singleton]; omega
    · exact hf.inst b (hold b (Or.inr hb))
  · intro b hb u hu hr
    simp only [List.mem_append, List.mem_cons] at hb
    have hold : ∀ c, c ∈ pre ∨ c ∈ post → c ∈ st.agents := by
      intro c hc; rw [hs]; simp only [List.mem_append, List.mem_cons]; tauto
    rcases hb with hb | hb | hb
    · exact hf.agentsFresh b (hold b (Or.inl hb)) u hu (List.mem_cons_of_mem _ hr)
    · subst hb
      rw [hact] at hu
      rcases List.mem_append.1 hu with hu | hu
      · exact hf.agentsFresh a ha u hu (List.mem_cons_of_mem _ hr)
      · simp only [List.mem_singleton] at hu
        rw [hu] at hr
        exact (List.nodup_cons.1 hd).1 hr
    · exact hf.agentsFresh b (hold b (Or.inr hb)) u hu (List.mem_cons_of_mem _ hr)
  · intro x hx hr
    rcases List.mem_append.1 hx with hx | hx
    · exact hf.sessionsFresh x hx (List.mem_cons_of_mem _ hr)
    · simp only [List.mem_singleton] at hx
      rw [hx] at hr
      exact (List.nodup_cons.1 hd).1 hr
  · show freeCapacity (pre ++ a.assignUser U now :: post) + 1 = freeCapacity st.agents
    rw [hs, freeCapacity_split, freeCapacity_split, hact, hmax, List.length_append,
      List.length_singleton]
    omega

theorem createSessions_cons (st : Store) (U : Id) (t : Option String) (now : Nat)
    (rest : List (Id × Option String × Nat)) :
    createSessions st ((U, t, now) :: rest) =
      ((SessionService.createSession st U t now).1 ::
          (createSessions (SessionService.createSession st U t now).2 rest).1,
        (createSessions (SessionService.createSession st U t now).2 rest).2) := rfl

theorem createSessions_spec (reqs : List (Id × Option String × Nat)) (st : Store)
    (hf : Fresh st (reqs.map (fun r => r.1))) (hd : (reqs.map (fun r => r.1)).Nodup) :
    (createSessions st reqs).1.length = reqs.length ∧
    (∀ i u t now, reqs[i]? = some (u, t, now) → i < freeCapacity st.agents →
      ∃ s k, (createSessions st reqs).1[i]? = some (.ok s) ∧ s.userId = u ∧
        s.status = Status.active ∧ s.agentId = AgentRef.id k) ∧
    (∀ i u t now, reqs[i]? = some (u, t, now) → freeCapacity st.agents ≤ i →
      ∃ s, (createSessions st reqs).1[i]? = some (.ok s) ∧ s.userId = u ∧
        s.status = Status.waiting ∧ s.agentId = AgentRef.null) ∧
    freeCapacity (createSessions st reqs).2.agents = freeCapacity st.agents - reqs.length ∧
    (∀ a ∈ (createSessions st reqs).2.agents, a.activeUsers.length ≤ a.maxUsers) := by
  induction reqs generalizing st with
  | nil =>
    refine ⟨rfl, ?_, ?_, rfl, fun a ha => (hf.inst a ha).2.2⟩
    · intro i u t now h; simp at h
    · intro i u t now h; simp at h
  | cons req rest ih =>
    obtain ⟨U, t, now⟩ := req
    simp only [List.map_cons] at hf hd
    rw [createSessions_cons]
    cases hL : InMemoryAgent.getLeastLoaded st with
    | none =>
      obtain ⟨⟨s0, hr, hu0, hst0, hag0⟩, hf2, hfree, hags⟩ :=
        Fresh.step_waiting st U (rest.map (fun r => r.1)) t now hf hd hL
      obtain ⟨i1, _, i3, i4, i5⟩ :=
        ih (SessionService.createSession st U t now).2 hf2 (List.nodup_cons.1 hd).2
      rw [hags] at i3 i4
      refine ⟨by simp [i1], ?_, ?_, ?_, i5⟩
      · intro i u t2 now2 _ hi
        omega
      · intro i u t2 now2 hreq _
        cases i with
        | zero =>
          simp only [List.getElem?_cons_zero, Option.some.injEq, Prod.mk.injEq] at hreq
          exact ⟨s0, by simp [hr], by rw [hu0]; exact hreq.1, hst0, hag0⟩
        | succ j =>
          simp only [List.getElem?_cons_succ] at hreq ⊢
          exact i3 j u t2 now2 hreq (by omega)
      · rw [i4, hfree]; simp
    | some a =>
      obtain ⟨⟨s1, k, hr, hu1, hst1, hag1, _⟩, hf2, hfree⟩ :=
        Fresh.step_assigned st U (rest.map (fun r => r.1)) t now hf hd a hL
      obtain ⟨i1, i2, i3, i4, i5⟩ :=
        ih (SessionService.createSession st U t now).2 hf2 (List.nodup_cons.1 hd).2
      refine ⟨by simp [i1], ?_, ?_, ?_, i5⟩
      · intro i u t2 now2 hreq hi
        cases i with
        | zero =>
          simp only [List.getElem?_cons_zero, Option.some.injEq, Prod.mk.injEq] at hreq
          exact ⟨s1, k, by simp [hr], by rw [hu1]; exact hreq.1, hst1, hag1⟩
        | succ j =>
          simp only [List.getElem?_cons_succ] at hreq ⊢
          exact i2 j u t2 now2 hreq (by omega)
      · intro i u t2 now2 hreq hi
        cases i with
        | zero => omega
        | succ j =>
          simp only [List.getElem?_cons_succ] at hreq ⊢
          exact i3 j u t2 now2 hreq (by omega)
      · rw [i4, List.length_cons]; omega

theorem freeCapacity_idle (ags : List Agent) (h : ∀ a ∈ ags, a.activeUsers = []) :
    freeCapacity ags = (ags.map Agent.maxUsers).sum := by
  unfold freeCapacity
  congr 1
  apply List.map_congr_left
  intro a ha
  simp [h a ha]

/-- C7: on a store without sessions whose agents are `InMemoryAgent` instances, all online
and idle, with total capacity `K` (the sum of `maxUsers`), requests by pairwise distinct
users, served in sequence, all return a session: request number `i` (from 0) gets a session
of that user that is `'active'` with a non-null `agentId` when `i < K`, and `'waiting'` with
`agentId = null` when `i ≥ K`; when there are at least `K` requests every agent ends with
`activeUsers.length = maxUsers`. -/
theorem fill_directory (st0 : Store) (reqs : List (Id × Option String × Nat))
    (hwf : st0.WF) (hs : st0.sessions = [])
    (hag : ∀ a ∈ st0.agents, a.isInstance = true ∧ a.isOnline = true ∧ a.activeUsers = [])
    (hd : (reqs.map (fun r => r.1)).Nodup) :
    (createSessions st0 reqs).1.length = reqs.length ∧
    (∀ i u t now, reqs[i]? = some (u, t, now) → i < (st0.agents.map Agent.maxUsers).sum →
      ∃ s k, (createSessions st0 reqs).1[i]? = some (.ok s) ∧ s.userId = u ∧
        s.status = Status.active ∧ s.agentId = AgentRef.id k) ∧
    (∀ i u t now, reqs[i]? = some (u, t, now) → (st0.agents.map Agent.maxUsers).sum ≤ i →
      ∃ s, (createSessions st0 reqs).1[i]? = some (.ok s) ∧ s.userId = u ∧
        s.status = Status.waiting ∧ s.agentId = AgentRef.null) ∧
    ((st0.agents.map Agent.maxUsers).sum ≤ reqs.length →
      ∀ a ∈ (createSessions st0 reqs).2.agents, a.activeUsers.length = a.maxUsers) := by
  have hf : Fresh st0 (reqs.map (fun r => r.1)) :=
    ⟨hwf, fun a ha => ⟨(hag a ha).1, (hag a ha).2.1, by simp [(hag a ha).2.2]⟩,
      fun a ha u hu => by simp [(hag a ha).2.2] at hu,
      fun s h => by simp [hs] at h⟩
  obtain ⟨h1, h2, h3, h4, h5⟩ := createSessions_spec reqs st0 hf hd
  rw [freeCapacity_idle st0.agents (fun a ha => (hag a ha).2.2)] at h2 h3 h4
  refine ⟨h1, h2, h3, ?_⟩
  intro hK
  apply full_of_freeCapacity_zero _ _ h5
  rw [h4]
  omega

/-- Witness of C7 (the scenario of the specification): two agents of capacity 2 and five
users; the fifth request is left waiting without an agent and both agents end full. -/
theorem fill_directory_witness :
    (twoAgents.WF ∧ twoAgents.sessions = [] ∧
      (∀ a ∈ twoAgents.agents,
        a.isInstance = true ∧ a.isOnline = true ∧ a.activeUsers = []) ∧
      (fiveRequests.map (fun r => r.1)).Nodup) ∧
    (∃ s k, (createSessions twoAgents fiveRequests).1[3]? = some (.ok s) ∧
      s.userId = Id.lit "u4" ∧ s.status = Status.active ∧ s.agentId = AgentRef.id k) ∧
    (∃ s, (createSessions twoAgents fiveRequests).1[4]? = some (.ok s) ∧
      s.userId = Id.lit "u5" ∧ s.status = Status.waiting ∧ s.agentId = AgentRef.null) ∧
    (∀ a ∈ (createSessions twoAgents fiveRequests).2.agents,
      a.activeUsers.length = a.maxUsers) :=
  ⟨⟨by decide, rfl, by decide, by decide⟩,
   (fill_directory twoAgents fiveRequests (by decide) rfl (by decide) (by decide)).2.1
     3 (.lit "u4") none 4 rfl (by decide),
   (fill_directory twoAgents fiveRequests (by decide) rfl (by decide) (by decide)).2.2.1
     4 (.lit "u5") none 5 rfl (by decide),
   (fill_directory twoAgents fiveRequests (by decide) rfl (by decide) (by decide)).2.2.2
     (by decide)⟩

/-! ## `createSession` for a user without an open session -/

/-- C8, what the code does: on the store left by `initializeDefaultAgents()` every user `U`
is without a non-ended session and `getLeastLoaded` returns an agent, the idle seed
`agent_001`; yet `createSession(U)` returns no session but throws
`agent.assignUser is not a function`: the session it stored is `'active'` with `agentId`
`undefined`, not the id of that agent, and the agent's active set stays empty, its load 0
instead of 1.  On two agents made by `InMemoryAgent.create` the same call returns an
`'active'` session of the first agent, whose load goes from 0 to 1. -/
theorem createSession_least_loaded_seed (U : Id) (t : Option String) (now : Nat) :
    InMemorySession.findActiveByUserId seeded U = none ∧
    (InMemoryAgent.getLeastLoaded seeded).map (fun a => (a.key, a.activeUsers)) =
      some (Id.lit "agent_001", []) ∧
    (SessionService.createSession seeded U t now).1 =
      .error "agent.assignUser is not a function" ∧
    (SessionService.createSession seeded U t now).2.sessions.map
        (fun s => (s.userId, s.status, s.agentId)) =
      [(U, Status.active, AgentRef.undefined)] ∧
    (SessionService.createSession seeded U t now).2.agents.map
        (fun a => (a.key, a.activeUsers)) =
      [(Id.lit "agent_001", []), (Id.lit "agent_002", []), (Id.lit "agent_003", [])] ∧
    (InMemoryAgent.getLeastLoaded twoAgents).map (fun a => (a.key, a.activeUsers)) =
      some (Id.uuid 0, []) ∧
    (SessionService.createSession twoAgents (.lit "u1") none 1).1 = .ok sessionU1 ∧
    (SessionService.createSession twoAgents (.lit "u1") none 1).2.agents.map
        (fun a => (a.key, a.activeUsers)) =
      [(Id.uuid 0, [Id.lit "u1"]), (Id.uuid 1, [])] :=
  ⟨rfl, rfl, rfl, rfl, rfl, rfl, rfl, rfl⟩

theorem mem_assignUser_of_lt (a : Agent) (U : Id) (now : Nat)
    (h : a.activeUsers.length < a.maxUsers) : U ∈ (a.assignUser U now).activeUsers := by
  by_cases hc : a.canAssign U = true
  · simp [Agent.assignUser, hc]
  · have hin : U ∈ a.activeUsers := by
      by_contra hn
      exact hc ((Agent.canAssign_iff a U).2 ⟨h, hn⟩)
    simpa [Agent.assignUser, hc] using hin

/-- On a well-formed store, for a user `U` without a non-ended session: if
`getLeastLoaded` returns an agent `A` that is an `InMemoryAgent` instance, `createSession(U)`
returns a new session (fresh id, appended to the map) of `U` with status `'active'` and
`agentId` the id of `A`; afterwards the entry of `A` is the result of `A.assignUser(U)`, which
holds `U` and has a load one higher when `U` was not in it before, and every other agent is
unchanged; if `getLeastLoaded` returns `null` the new session is `'waiting'` with
`agentId = null` and the directory is unchanged. -/
theorem createSession_assigns (st : Store) (U : Id) (t : Option String) (now : Nat)
    (hwf : st.WF) (hU : InMemorySession.findActiveByUserId st U = none) :
    (∀ a, InMemoryAgent.getLeastLoaded st = some a → a.isInstance = true →
      ∃ s k pre post,
        (SessionService.createSession st U t now).1 = .ok s ∧
        (∀ x ∈ st.sessions, x._id ≠ s._id) ∧
        (SessionService.createSession st U t now).2.sessions = st.sessions ++ [s] ∧
        s.userId = U ∧ s.status = Status.active ∧ s.agentId = AgentRef.id k ∧
        a.key = Id.uuid k ∧
        st.agents = pre ++ a :: post ∧
        (SessionService.createSession st U t now).2.agents =
          pre ++ a.assignUser U now :: post ∧
        U ∈ (a.assignUser U now).activeUsers ∧
        (U ∉ a.activeUsers →
          (a.assignUser U now).activeUsers.length = a.activeUsers.length + 1)) ∧
    (InMemoryAgent.getLeastLoaded st = none →
      ∃ s, (SessionService.createSession st U t now).1 = .ok s ∧
        (∀ x ∈ st.sessions, x._id ≠ s._id) ∧
        (SessionService.createSession st U t now).2.sessions = st.sessions ++ [s] ∧
        s.userId = U ∧ s.status = Status.waiting ∧ s.agentId = AgentRef.null ∧
        (SessionService.createSession st U t now).2.agents = st.agents) := by
  have hfresh : ∀ x ∈ st.sessions, x._id ≠ st.nextUuid := by
    intro x hx heq
    have := hwf.2.2.2.1 x._id (List.mem_map_of_mem _ hx)
    omega
  constructor
  · intro a hL hi
    obtain ⟨hav, pre, post, hs⟩ := getLeastLoaded_mem st a hL
    rw [createSession_assigned st hwf U t now hU a pre post hs hL hi]
    cases hk : a.key with
    | lit x => simp [Agent.isInstance, hk] at hi
    | uuid k =>
      refine ⟨_, k, pre, post, rfl, hfresh, rfl, rfl, rfl, ?_, rfl, hs, rfl,
        mem_assignUser_of_lt a U now hav.2, ?_⟩
      · simp [Session.assignAgent, Agent._id, hk]
      · intro hn
        have hc : a.canAssign U = true := (Agent.canAssign_iff a U).2 ⟨hav.2, hn⟩
        simp [Agent.assignUser, hc]
  · intro hL
    rw [createSession_waiting st hwf U t now hU hL]
    exact ⟨_, rfl, hfresh, rfl, rfl, rfl, rfl, rfl⟩

/-- The first request on two idle agents is assigned to the first agent, whose load goes
from 0 to 1. -/
theorem createSession_assigns_witness :
    (twoAgents.WF ∧ InMemorySession.findActiveByUserId twoAgents (.lit "u1") = none ∧
      (InMemoryAgent.create emptyStore "A" (some 2) 0).1.isInstance = true) ∧
    ∃ s k pre post,
      (SessionService.createSession twoAgents (.lit "u1") none 1).1 = .ok s ∧
      (∀ x ∈ twoAgents.sessions, x._id ≠ s._id) ∧
      (SessionService.createSession twoAgents (.lit "u1") none 1).2.sessions =
        twoAgents.sessions ++ [s] ∧
      s.userId = Id.lit "u1" ∧ s.status = Status.active ∧ s.agentId = AgentRef.id k ∧
      (InMemoryAgent.create emptyStore "A" (some 2) 0).1.key = Id.uuid k ∧
      twoAgents.agents = pre ++ (InMemoryAgent.create emptyStore "A" (some 2) 0).1 :: post ∧
      (SessionService.createSession twoAgents (.lit "u1") none 1).2.agents =
        pre ++ (InMemoryAgent.create emptyStore "A" (some 2) 0).1.assignUser (.lit "u1") 1 ::
          post ∧
      Id.lit "u1" ∈
        ((InMemoryAgent.create emptyStore "A" (some 2) 0).1.assignUser (.lit "u1") 1).activeUsers ∧
      (Id.lit "u1" ∉ (InMemoryAgent.create emptyStore "A" (some 2) 0).1.activeUsers →
        ((InMemoryAgent.create emptyStore "A" (some 2) 0).1.assignUser
          (.lit "u1") 1).activeUsers.length =
          (InMemoryAgent.create emptyStore "A" (some 2) 0).1.activeUsers.length + 1) :=
  ⟨⟨by decide, rfl, rfl⟩,
   (createSession_assigns twoAgents (.lit "u1") none 1 (by decide) rfl).1
     (InMemoryAgent.create emptyStore "A" (some 2) 0).1 rfl rfl⟩

/-! ## The seed agents -/

/-- C9, what the code does: after `initializeDefaultAgents()` on the empty store the
directory holds the three seed objects (online, capacity 2, idle), and
`initializeDefaultAgents()` on a non-empty directory changes nothing; but the seed objects
are plain object literals, so for every user `U` the following `createSession(U)` throws
`agent.assignUser is not a function`, leaving a stored session of `U` with status `'active'`
and `agentId` `undefined` (the seeds have no `_id`) and leaving every active set empty. -/
theorem seeded_createSession_throws (U : Id) (t : Option String) (now0 now : Nat) :
    (initializeDefaultAgents emptyStore now0).agents.map
        (fun a => (a.key, a.name, a.maxUsers, a.activeUsers, a.isOnline)) =
      [(Id.lit "agent_001", "Aatish Support", 2, [], true),
       (Id.lit "agent_002", "Sanjay Support", 2, [], true),
       (Id.lit "agent_003", "Ganesh Support", 2, [], true)] ∧
    (∀ (ss : List Session) (ms : List Message) (a : Agent) (ags : List Agent) (n : Nat),
      initializeDefaultAgents
          { sessions := ss, messages := ms, agents := a :: ags, nextUuid := n } now =
        { sessions := ss, messages := ms, agents := a :: ags, nextUuid := n }) ∧
    (SessionService.createSession (initializeDefaultAgents emptyStore now0) U t now).1 =
      .error "agent.assignUser is not a function" ∧
    (SessionService.createSession (initializeDefaultAgents emptyStore now0) U t now).2.sessions
      = [{ _id := 0, userId := U, userType := t.getD "user", agentId := AgentRef.undefined,
           status := Status.active, createdAt := now, updatedAt := now, endedAt := none,
           endReason := none }] ∧
    (SessionService.createSession (initializeDefaultAgents emptyStore now0) U t now).2.agents =
      (initializeDefaultAgents emptyStore now0).agents := by
  refine ⟨rfl, ?_, rfl, rfl, rfl⟩
  intro ss ms a ags n
  rfl

/-! ## `endSession` on a stored session -/

theorem mapGet_of_mem {α κ : Type} [DecidableEq κ] (key : α → κ) (m : List α) (e : α)
    (he : e ∈ m) (hn : (m.map key).Nodup) : mapGet key m (key e) = some e := by
  unfold mapGet
  rw [List.find?_eq_some]
  refine ⟨by simp, ?_⟩
  obtain ⟨as, bs, rfl⟩ := List.append_of_mem he
  refine ⟨as, bs, rfl, ?_⟩
  intro a ha
  rw [List.map_append, List.nodup_append] at hn
  have : key a ≠ key e := fun h =>
    hn.2.2 (List.mem_map_of_mem key ha)
      (by rw [h]; exact List.mem_map_of_mem key (List.mem_cons_self _ _))
  simp [this]

theorem not_mem_removeUser (b : Agent) (u : Id) (now : Nat) :
    u ∉ (b.removeUser u now).activeUsers := by
  simp [Agent.removeUser, List.mem_filter]

/-- C10: on a well-formed store, for every stored session `s` and every reason `r`,
`endSession(s.id, r)` returns `s` with `status = 'ended'`, `endReason = r`, `endedAt` (and
`updatedAt`) set to the current time and all other fields as before; in the store that
session is replaced by the returned one and every other session is as before; the messages
are as before; the agent stored under `s.agentId`, if there is one, is replaced by the result
of `removeUser(s.userId)`, so that `s.userId` is not in its active set, and every other
agent is as before. -/
theorem endSession_spec (st : Store) (s : Session) (r : String) (now : Nat)
    (hwf : st.WF) (hs : s ∈ st.sessions) :
    (SessionService.endSession st (.uuid s._id) (some r) now).1 =
      .ok { _id := s._id, userId := s.userId, userType := s.userType, agentId := s.agentId,
            status := Status.ended, createdAt := s.createdAt, updatedAt := now,
            endedAt := some now, endReason := some r } ∧
    (SessionService.endSession st (.uuid s._id) (some r) now).2.sessions =
      st.sessions.map (fun x => if x = s then
        { _id := s._id, userId := s.userId, userType := s.userType, agentId := s.agentId,
          status := Status.ended, createdAt := s.createdAt, updatedAt := now,
          endedAt := some now, endReason := some r } else x) ∧
    (SessionService.endSession st (.uuid s._id) (some r) now).2.messages = st.messages ∧
    (SessionService.endSession st (.uuid s._id) (some r) now).2.agents =
      st.agents.map (fun b =>
        if b.referredBy s.agentId = true then b.removeUser s.userId now else b) ∧
    (∀ b ∈ (SessionService.endSession st (.uuid s._id) (some r) now).2.agents,
      b.referredBy s.agentId = true → s.userId ∉ b.activeUsers) := by
  have hfind : InMemorySession.findById st (.uuid s._id) = some s :=
    mapGet_of_mem Session._id st.sessions s hs hwf.1
  rw [endSession_effect st hwf (.uuid s._id) (some r) now s hfind]
  refine ⟨rfl, ?_, rfl, rfl, ?_⟩
  · apply List.map_congr_left
    intro x hx
    by_cases hxs : x = s
    · simp [hxs, Session.endSession]
    · have hne : x._id ≠ s._id := fun h => hxs (List.inj_on_of_nodup_map hwf.1 hx hs h)
      simp [hxs, hne]
  · intro b hb href
    obtain ⟨c, _, hc⟩ := List.mem_map.1 hb
    by_cases hcr : c.referredBy s.agentId = true
    · simp only [hcr, if_true] at hc
      rw [← hc]
      exact not_mem_removeUser c s.userId now
    · simp only [hcr, if_false] at hc
      rw [← hc] at href
      exact absurd href hcr

/-- Witness of C10: the session of `u1` assigned to the first of two agents is ended with
the reason `'done'`. -/
theorem endSession_spec_witness :
    ((SessionService.createSession twoAgents (.lit "u1") none 1).2.WF ∧
      sessionU1 ∈ (SessionService.createSession twoAgents (.lit "u1") none 1).2.sessions) ∧
    (SessionService.endSession (SessionService.createSession twoAgents (.lit "u1") none 1).2
        (.uuid sessionU1._id) (some "done") 9).2.messages =
      (SessionService.createSession twoAgents (.lit "u1") none 1).2.messages ∧
    (∀ b ∈ (SessionService.endSession
        (SessionService.createSession twoAgents (.lit "u1") none 1).2
        (.uuid sessionU1._id) (some "done") 9).2.agents,
      b.referredBy sessionU1.agentId = true → sessionU1.userId ∉ b.activeUsers) :=
  ⟨⟨by decide, by decide⟩,
   (endSession_spec (SessionService.createSession twoAgents (.lit "u1") none 1).2 sessionU1
     "done" 9 (by decide) (by decide)).2.2.1,
   (endSession_spec (SessionService.createSession twoAgents (.lit "u1") none 1).2 sessionU1
     "done" 9 (by decide) (by decide)).2.2.2.2⟩

/-! ## `Session not found` -/

theorem findById_eq_none_iff (st : Store) (sid : Id) :
    InMemorySession.findById st sid = none ↔ ¬ ∃ s ∈ st.sessions, Id.uuid s._id = sid := by
  cases sid with
  | lit x => simp [InMemorySession.findById]
  | uuid n =>
    simp only [InMemorySession.findById, mapGet, List.find?_eq_none, decide_eq_true_eq,
      Id.uuid.injEq, not_exists, not_and]

theorem getSessionById_error_iff (st : Store) (sid : Id) (e : String) :
    SessionService.getSessionById st sid = .error e ↔
      (e = "Session not found" ∧ InMemorySession.findById st sid = none) := by
  unfold SessionService.getSessionById
  cases h : InMemorySession.findById st sid with
  | none =>
    simp only [Except.error.injEq, and_true]
    exact eq_comm
  | some s => simp

theorem endSession_found_ok (st : Store) (sid : Id) (r : Option String) (now : Nat)
    (s : Session) (h : InMemorySession.findById st sid = some s) :
    (SessionService.endSession st sid r now).1 =
      .ok (s.endSession (some (r.getD "Session ended")) now) := by
  simp only [SessionService.endSession, SessionService.getSessionById, h]
  split
  · split
    · rename_i agent hfind
      have hi : agent.isInstance = true := by
        cases hag : (s.endSession (some (r.getD "Session ended")) now).agentId with
        | null => rw [hag] at hfind; simp [InMemoryAgent.findById] at hfind
        | undefined => rw [hag] at hfind; simp [InMemoryAgent.findById] at hfind
        | id k =>
          rw [hag] at hfind
          simp only [InMemoryAgent.findById, mapGet] at hfind
          have := List.find?_some hfind
          simp only [decide_eq_true_eq] at this
          simp [Agent.isInstance, this]
      simp [hi]
    · rfl
  · rfl

theorem endSession_error_iff (st : Store) (sid : Id) (r : Option String) (now : Nat)
    (e : String) :
    (SessionService.endSession st sid r now).1 = .error e ↔
      (e = "Session not found" ∧ InMemorySession.findById st sid = none) := by
  cases h : InMemorySession.findById st sid with
  | none =>
    rw [endSession_notFound st sid r now h]
    simp only [Except.error.injEq, and_true]
    exact eq_comm
  | some s =>
    rw [endSession_found_ok st sid r now s h]
    simp

theorem addMessage_notFound (st : Store) (sid senderId : Id) (senderType body : String)
    (now : Nat) (h : InMemorySession.findById st sid = none) :
    SessionService.addMessage st sid senderId senderType body now =
      (.error "Session not found", st) := by
  simp only [SessionService.addMessage, SessionService.getSessionById, h]

theorem addMessage_found (st : Store) (sid senderId : Id) (senderType body : String)
    (now : Nat) (s : Session) (h : InMemorySession.findById st sid = some s) :
    SessionService.addMessage st sid senderId senderType body now =
      (.ok (s, (InMemoryMessage.new st.nextUuid sid senderId senderType body now).view),
        { sessions := st.sessions,
          messages := mapSet Message._id st.messages
            (InMemoryMessage.new st.nextUuid sid senderId senderType body now),
          agents := st.agents, nextUuid := st.nextUuid + 1 }) := by
  simp only [SessionService.addMessage, SessionService.getSessionById, h,
    InMemoryMessage.create, uuidv4]

theorem addMessage_error_iff (st : Store) (sid senderId : Id) (senderType body : String)
    (now : Nat) (e : String) :
    (SessionService.addMessage st sid senderId senderType body now).1 = .error e ↔
      (e = "Session not found" ∧ InMemorySession.findById st sid = none) := by
  cases h : InMemorySession.findById st sid with
  | none =>
    rw [addMessage_notFound st sid senderId senderType body now h]
    simp only [Except.error.injEq, and_true]
    exact eq_comm
  | some s =>
    rw [addMessage_found st sid senderId senderType body now s h]
    simp

/-- C12: each of `getSessionById(id)`, `endSession(id, r)` and `addMessage(id, sender, role,
body)` raises exactly when no session is stored under `id`; the error it raises is then
`'Session not found'` (it raises no other error), and the store it leaves, sessions,
messages and agents, is the store it found. -/
theorem session_not_found_iff (st : Store) (sid senderId : Id) (senderType body : String)
    (r : Option String) (now : Nat) :
    ((SessionService.getSessionById st sid = .error "Session not found" ↔
        ¬ ∃ s ∈ st.sessions, Id.uuid s._id = sid) ∧
      ∀ e, SessionService.getSessionById st sid = .error e → e = "Session not found") ∧
    (((SessionService.endSession st sid r now).1 = .error "Session not found" ↔
        ¬ ∃ s ∈ st.sessions, Id.uuid s._id = sid) ∧
      ∀ e, (SessionService.endSession st sid r now).1 = .error e →
        e = "Session not found" ∧ (SessionService.endSession st sid r now).2 = st) ∧
    (((SessionService.addMessage st sid senderId senderType body now).1 =
          .error "Session not found" ↔ ¬ ∃ s ∈ st.sessions, Id.uuid s._id = sid) ∧
      ∀ e, (SessionService.addMessage st sid senderId senderType body now).1 = .error e →
        e = "Session not found" ∧
          (SessionService.addMessage st sid senderId senderType body now).2 = st) := by
  refine ⟨⟨?_, ?_⟩, ⟨?_, ?_⟩, ⟨?_, ?_⟩⟩
  · rw [getSessionById_error_iff, findById_eq_none_iff]; simp
  · intro e he
    exact ((getSessionById_error_iff st sid e).1 he).1
  · rw [endSession_error_iff, findById_eq_none_iff]; simp
  · intro e he
    obtain ⟨h1, h2⟩ := (endSession_error_iff st sid r now e).1 he
    exact ⟨h1, by rw [endSession_notFound st sid r now h2]⟩
  · rw [addMessage_error_iff, findById_eq_none_iff]; simp
  · intro e he
    obtain ⟨h1, h2⟩ := (addMessage_error_iff st sid senderId senderType body now e).1 he
    exact ⟨h1, by rw [addMessage_notFound st sid senderId senderType body now h2]⟩

/-- Witness of C12: ending a session under an id that is not stored raises
`'Session not found'` and leaves the store as it was. -/
theorem session_not_found_iff_witness :
    (SessionService.endSession twoAgents (.lit "nope") none 3).1 =
        .error "Session not found" ∧
      ("Session not found" = "Session not found" ∧
        (SessionService.endSession twoAgents (.lit "nope") none 3).2 = twoAgents) :=
  ⟨rfl,
   (session_not_found_iff twoAgents (.lit "nope") (.lit "u1") "user" "hi" none 3).2.1.2
     "Session not found" rfl⟩

/-! ## Status transitions -/

theorem addMessage_WF (st : Store) (hwf : st.WF) (sid senderId : Id)
    (senderType body : String) (now : Nat) :
    (SessionService.addMessage st sid senderId senderType body now).2.WF := by
  cases h : InMemorySession.findById st sid with
  | none => rw [addMessage_notFound st sid senderId senderType body now h]; exact hwf
  | some s =>
    rw [addMessage_found st sid senderId senderType body now s h]
    have hfresh : ∀ e ∈ st.messages,
        e._id ≠ (InMemoryMessage.new st.nextUuid sid senderId senderType body now)._id := by
      intro e he heq
      have := hwf.2.2.2.2.2 e._id (List.mem_map_of_mem _ he)
      simp only [InMemoryMessage.new] at heq
      omega
    rw [mapSet_of_not_mem Message._id st.messages _ hfresh]
    refine ⟨hwf.1, hwf.2.1, ?_, ?_, ?_, ?_⟩
    · show ((st.messages ++ [_]).map Message._id).Nodup
      rw [List.map_append, List.nodup_append]
      refine ⟨hwf.2.2.1, by simp, ?_⟩
      intro k hk hk2
      simp only [List.map_cons, List.map_nil, List.mem_singleton, InMemoryMessage.new] at hk2
      have := hwf.2.2.2.2.2 k hk
      omega
    · intro k hk
      show k < st.nextUuid + 1
      have := hwf.2.2.2.1 k hk
      omega
    · intro k hk
      exact Id.below_succ k _ (hwf.2.2.2.2.1 k hk)
    · intro k hk
      show k < st.nextUuid + 1
      have hk2 : k ∈ (st.messages ++
          [InMemoryMessage.new st.nextUuid sid senderId senderType body now]).map
            Message._id := hk
      simp only [List.map_append, List.map_cons, List.map_nil, List.mem_append,
        List.mem_singleton, InMemoryMessage.new] at hk2
      rcases hk2 with hk2 | hk2
      · have := hwf.2.2.2.2.2 k hk2
        omega
      · omega

theorem RelayCall.relay_run_WF (st : Store) (hwf : st.WF) (c : RelayCall) :
    (c.run st).WF := by
  cases c with
  | createSession u t now => exact createSession_WF st hwf u t now
  | endSession i r now => exact endSession_WF st hwf i r now
  | addMessage i u t b now => exact addMessage_WF st hwf i u t b now

theorem RelayCall.foldl_WF (calls : List RelayCall) (st : Store) (hwf : st.WF) :
    (calls.foldl RelayCall.run st).WF := by
  induction calls generalizing st with
  | nil => exact hwf
  | cons c cs ih => exact ih (c.run st) (RelayCall.relay_run_WF st hwf c)

theorem Status.mayBecome_refl (a : Status) : a.mayBecome a := Or.inl rfl

theorem Status.mayBecome_ended (a : Status) : a.mayBecome Status.ended := by
  cases a <;> simp [Status.mayBecome]

theorem Status.mayBecome_trans (a b c : Status) (h1 : a.mayBecome b) (h2 : b.mayBecome c) :
    a.mayBecome c := by
  cases a <;> cases b <;> cases c <;> simp_all [Status.mayBecome]

/-- One call keeps every stored session under its id and changes its status, if at all,
along an allowed transition. -/
theorem RelayCall.step_status (st : Store) (hwf : st.WF) (c : RelayCall) (s : Session)
    (hs : s ∈ st.sessions) :
    ∃ s2 ∈ (c.run st).sessions, s2._id = s._id ∧ s.status.mayBecome s2.status := by
  cases c with
  | createSession u t now =>
    simp only [RelayCall.run]
    cases hU : InMemorySession.findActiveByUserId st u with
    | some e =>
      rw [createSession_existing st u t now e hU]
      exact ⟨s, hs, rfl, Status.mayBecome_refl _⟩
    | none =>
      obtain ⟨snew, ags, heq, _⟩ := createSession_shape st hwf u t now hU
      rw [heq]
      exact ⟨s, List.mem_append_left _ hs, rfl, Status.mayBecome_refl _⟩
  | endSession i r now =>
    simp only [RelayCall.run]
    cases h : InMemorySession.findById st i with
    | none =>
      rw [endSession_notFound st i r now h]
      exact ⟨s, hs, rfl, Status.mayBecome_refl _⟩
    | some s0 =>
      rw [endSession_effect st hwf i r now s0 h]
      by_cases hid : s._id = s0._id
      · refine ⟨s0.endSession (some (r.getD "Session ended")) now, ?_, ?_, ?_⟩
        · exact List.mem_map.2 ⟨s, hs, by simp [hid]⟩
        · simp [Session.endSession, hid]
        · exact Status.mayBecome_ended _
      · exact ⟨s, List.mem_map.2 ⟨s, hs, by simp [hid]⟩, rfl, Status.mayBecome_refl _⟩
  | addMessage i u t b now =>
    simp only [RelayCall.run]
    cases h : InMemorySession.findById st i with
    | none =>
      rw [addMessage_notFound st i u t b now h]
      exact ⟨s, hs, rfl, Status.mayBecome_refl _⟩
    | some s0 =>
      rw [addMessage_found st i u t b now s0 h]
      exact ⟨s, hs, rfl, Status.mayBecome_refl _⟩

theorem RelayCall.foldl_status (calls : List RelayCall) (st : Store) (hwf : st.WF)
    (s : Session) (hs : s ∈ st.sessions) :
    ∃ s2 ∈ (calls.foldl RelayCall.run st).sessions,
      s2._id = s._id ∧ s.status.mayBecome s2.status := by
  induction calls generalizing st s with
  | nil => exact ⟨s, hs, rfl, Status.mayBecome_refl _⟩
  | cons c cs ih =>
    obtain ⟨s1, hs1, hid1, hm1⟩ := RelayCall.step_status st hwf c s hs
    obtain ⟨s2, hs2, hid2, hm2⟩ := ih (c.run st) (RelayCall.relay_run_WF st hwf c) s1 hs1
    exact ⟨s2, hs2, by rw [hid2, hid1], Status.mayBecome_trans _ _ _ hm1 hm2⟩

/-- C13: from any well-formed store, after any finite sequence of `createSession`,
`endSession` and `addMessage` calls a session that was stored before is still stored under
its id, and its status is the earlier one or follows it by `waiting → active`,
`waiting → ended` or `active → ended`: an `'ended'` session is still `'ended'`, and an
`'active'` session is not `'waiting'`. -/
theorem status_monotone (st : Store) (calls : List RelayCall) (s : Session)
    (hwf : st.WF) (hs : s ∈ st.sessions) :
    (∃ s2 ∈ (calls.foldl RelayCall.run st).sessions, s2._id = s._id) ∧
    ∀ s2 ∈ (calls.foldl RelayCall.run st).sessions, s2._id = s._id →
      s.status.mayBecome s2.status ∧
      (s.status = Status.ended → s2.status = Status.ended) ∧
      (s.status = Status.active → s2.status ≠ Status.waiting) := by
  obtain ⟨s1, hs1, hid1, hm1⟩ := RelayCall.foldl_status calls st hwf s hs
  refine ⟨⟨s1, hs1, hid1⟩, ?_⟩
  intro s2 hs2 hid2
  have hwf2 := RelayCall.foldl_WF calls st hwf
  have heq : s2 = s1 := List.inj_on_of_nodup_map hwf2.1 hs2 hs1 (by rw [hid2, hid1])
  subst heq
  refine ⟨hm1, ?_, ?_⟩
  · intro h
    rw [h] at hm1
    cases hst : s2.status <;> simp_all [Status.mayBecome]
  · intro h
    rw [h] at hm1
    cases hst : s2.status <;> simp_all [Status.mayBecome]

/-! ## A user is served by at most one agent -/

theorem not_served_of_backed (st : Store) (hB : st.Backed) (U : Id)
    (hU : InMemorySession.findActiveByUserId st U = none) :
    ∀ b ∈ st.agents, U ∉ b.activeUsers := by
  intro b hb hin
  obtain ⟨s, hs, hne, hus, _⟩ := hB b hb U hin
  have := (List.find?_eq_none.1 hU) s hs
  simp [hus, hne] at this

theorem served_eq_zero (ags : List Agent) (U : Id) (h : ∀ b ∈ ags, U ∉ b.activeUsers) :
    (ags.map (fun a => a.activeUsers.count U)).sum = 0 := by
  induction ags with
  | nil => rfl
  | cons a as ih =>
    have ha : a.activeUsers.count U = 0 :=
      List.count_eq_zero.2 (h a (List.mem_cons_self _ _))
    have := ih (fun b hb => h b (List.mem_cons_of_mem _ hb))
    simp only [List.map_cons, List.sum_cons, ha, this]

theorem referredBy_assignUser (a : Agent) (U : Id) (now : Nat) (ref : AgentRef) :
    (a.assignUser U now).referredBy ref = a.referredBy ref := by
  cases ref <;> simp [Agent.referredBy, assignUser_key]

theorem referredBy_removeUser (a : Agent) (U : Id) (now : Nat) (ref : AgentRef) :
    (a.removeUser U now).referredBy ref = a.referredBy ref := by
  cases ref <;> simp [Agent.referredBy, Agent.removeUser]

theorem Backed.of_sessions_append (st : Store) (hB : st.Backed) (s : Session)
    (n : Nat) :
    Store.Backed { sessions := st.sessions ++ [s], messages := st.messages,
                   agents := st.agents, nextUuid := n } := by
  intro b hb V hV
  obtain ⟨w, hw, h1, h2, h3⟩ := hB b hb V hV
  exact ⟨w, List.mem_append_left _ hw, h1, h2, h3⟩

/-- The two invariants behind C14 are kept by `createSession`. -/
theorem createSession_served (st : Store) (hwf : st.WF) (hB : st.Backed)
    (hS : ∀ V, st.served V ≤ 1) (U : Id) (t : Option String) (now : Nat) :
    (SessionService.createSession st U t now).2.Backed ∧
      ∀ V, (SessionService.createSession st U t now).2.served V ≤ 1 := by
  cases hU : InMemorySession.findActiveByUserId st U with
  | some e => rw [createSession_existing st U t now e hU]; exact ⟨hB, hS⟩
  | none =>
    cases hL : InMemoryAgent.getLeastLoaded st with
    | none =>
      rw [createSession_waiting st hwf U t now hU hL]
      exact ⟨Backed.of_sessions_append st hB _ _, hS⟩
    | some a =>
      obtain ⟨hav, pre, post, hs⟩ := getLeastLoaded_mem st a hL
      cases hi : a.isInstance with
      | false =>
        rw [createSession_seed st hwf U t now hU a hL hi]
        exact ⟨Backed.of_sessions_append st hB _ _, hS⟩
      | true =>
        rw [createSession_assigned st hwf U t now hU a pre post hs hL hi]
        have hnone := not_served_of_backed st hB U hU
        have ha : a ∈ st.agents := by rw [hs]; simp
        have hcan : a.canAssign U = true :=
          (Agent.canAssign_iff a U).2 ⟨hav.2, hnone a ha⟩
        have hact : (a.assignUser U now).activeUsers = a.activeUsers ++ [U] := by
          simp [Agent.assignUser, hcan]
        have hold : ∀ c, c ∈ pre ∨ c ∈ post → c ∈ st.agents := by
          intro c hc; rw [hs]; simp only [List.mem_append, List.mem_cons]; tauto
        constructor
        · intro b hb V hV
          simp only [List.mem_append, List.mem_cons] at hb
          have keep : ∀ c, c ∈ st.agents → V ∈ c.activeUsers →
              ∃ s ∈ st.sessions ++
                  [(InMemorySession.new st.nextUuid U (some (t.getD "user")) now).assignAgent
                    a._id now],
                s.status ≠ Status.ended ∧ s.userId = V ∧ c.referredBy s.agentId = true := by
            intro c hc hVc
            obtain ⟨w, hw, h1, h2, h3⟩ := hB c hc V hVc
            exact ⟨w, List.mem_append_left _ hw, h1, h2, h3⟩
          rcases hb with hb | hb | hb
          · exact keep b (hold b (Or.inl hb)) hV
          · subst hb
            rw [hact] at hV
            rcases List.mem_append.1 hV with hV | hV
            · obtain ⟨w, hw, h1, h2, h3⟩ := keep a ha hV
              exact ⟨w, hw, h1, h2, by rw [referredBy_assignUser]; exact h3⟩
            · simp only [List.mem_singleton] at hV
              subst hV
              refine ⟨_, List.mem_append_right _ (List.mem_singleton_self _), ?_, rfl, ?_⟩
              · simp [Session.assignAgent]
              · rw [referredBy_assignUser]
                cases hk : a.key with
                | lit x => simp [Agent.isInstance, hk] at hi
                | uuid k => simp [Session.assignAgent, Agent._id, Agent.referredBy, hk]
          · exact keep b (hold b (Or.inr hb)) hV
        · intro V
          have hSV := hS V
          simp only [Store.served, hs, List.map_append, List.map_cons, List.sum_append,
            List.sum_cons, hact, List.count_append] at hSV ⊢
          by_cases hV : V = U
          · subst hV
            have h0 := served_eq_zero st.agents V hnone
            simp only [hs, List.map_append, List.map_cons, List.sum_append,
              List.sum_cons] at h0
            simp only [List.count_singleton_self]
            omega
          · have : List.count V [U] = 0 := by
              rw [List.count_eq_zero]; simpa using hV
            omega

theorem count_removeUser_le (a : Agent) (u V : Id) (now : Nat) :
    (a.removeUser u now).activeUsers.count V ≤ a.activeUsers.count V := by
  simp only [Agent.removeUser]
  exact (List.filter_sublist a.activeUsers).count_le V

/-- The two invariants behind C14 are kept by `endSession`. -/
theorem endSession_served (st : Store) (hwf : st.WF) (hB : st.Backed)
    (hS : ∀ V, st.served V ≤ 1) (sid : Id) (r : Option String) (now : Nat) :
    (SessionService.endSession st sid r now).2.Backed ∧
      ∀ V, (SessionService.endSession st sid r now).2.served V ≤ 1 := by
  cases h : InMemorySession.findById st sid with
  | none => rw [endSession_notFound st sid r now h]; exact ⟨hB, hS⟩
  | some s0 =>
    obtain ⟨_, hs0⟩ := findById_some st sid s0 h
    rw [endSession_effect st hwf sid r now s0 h]
    constructor
    · intro b2 hb2 V hV
      obtain ⟨b, hb, hbe⟩ := List.mem_map.1 hb2
      have hVb : V ∈ b.activeUsers ∧ (b.referredBy s0.agentId = true → V ≠ s0.userId) := by
        by_cases hr : b.referredBy s0.agentId = true
        · rw [if_pos hr] at hbe
          rw [← hbe] at hV
          simp only [Agent.removeUser, List.mem_filter, decide_eq_true_eq] at hV
          exact ⟨hV.1, fun _ => hV.2⟩
        · rw [if_neg hr] at hbe
          rw [← hbe] at hV
          exact ⟨hV, fun h2 => absurd h2 hr⟩
      obtain ⟨w, hw, h1, h2, h3⟩ := hB b hb V hVb.1
      have hkey : ∀ ref, b2.referredBy ref = b.referredBy ref := by
        intro ref
        by_cases hr : b.referredBy s0.agentId = true
        · rw [if_pos hr] at hbe
          rw [← hbe, referredBy_removeUser]
        · rw [if_neg hr] at hbe
          rw [← hbe]
      have hne : w._id ≠ s0._id := by
        intro hid
        have hws : w = s0 := List.inj_on_of_nodup_map hwf.1 hw hs0 hid
        rw [hws] at h2 h3
        exact hVb.2 h3 h2.symm
      refine ⟨w, List.mem_map.2 ⟨w, hw, by simp [hne]⟩, h1, h2, ?_⟩
      rw [hkey]; exact h3
    · intro V
      refine le_trans ?_ (hS V)
      simp only [Store.served, List.map_map]
      apply List.sum_le_sum
      intro b _
      simp only [Function.comp]
      split
      · exact count_removeUser_le b s0.userId V now
      · exact le_refl _

theorem foldl_served (calls : List ServiceCall) (st : Store) (hwf : st.WF)
    (hB : st.Backed) (hS : ∀ V, st.served V ≤ 1) :
    ∀ V, (calls.foldl ServiceCall.run st).served V ≤ 1 := by
  induction calls generalizing st with
  | nil => exact hS
  | cons c cs ih =>
    cases c with
    | createSession u t now =>
      obtain ⟨h1, h2⟩ := createSession_served st hwf hB hS u t now
      exact ih _ (createSession_WF st hwf u t now) h1 h2
    | endSession i r now =>
      obtain ⟨h1, h2⟩ := endSession_served st hwf hB hS i r now
      exact ih _ (endSession_WF st hwf i r now) h1 h2

/-- C14: in every store reached from a well-formed store whose agents all have empty active
sets by any finite sequence of `createSession` and `endSession` calls, the occurrences of a
user id in the active sets of all agents, counted with multiplicity, are at most one: the id
is in the active set of at most one agent, and at most once in it. -/
theorem served_by_at_most_one (st0 : Store) (calls : List ServiceCall) (U : Id)
    (hwf : st0.WF) (h0 : ∀ a ∈ st0.agents, a.activeUsers = []) :
    ((calls.foldl ServiceCall.run st0).agents.map
      (fun a => a.activeUsers.count U)).sum ≤ 1 := by
  have hB : st0.Backed := by
    intro b hb V hV
    rw [h0 b hb] at hV
    simp at hV
  have hS : ∀ V, st0.served V ≤ 1 := by
    intro V
    have : st0.served V = 0 :=
      served_eq_zero st0.agents V (fun b hb => by rw [h0 b hb]; simp)
    omega
  exact foldl_served calls st0 hwf hB hS U

/-! ## A freed agent is eligible again -/

theorem removeUser_available (A : Agent) (u : Id) (now : Nat) (hon : A.isOnline = true)
    (hin : u ∈ A.activeUsers) (hcap : A.activeUsers.length ≤ A.maxUsers) :
    (A.removeUser u now).available := by
  refine ⟨hon, ?_⟩
  have : (A.activeUsers.filter (fun id => decide (id ≠ u))).length < A.activeUsers.length :=
    List.length_filter_lt_length_iff_exists.2 ⟨u, hin, by simp⟩
  simp only [Agent.removeUser]
  omega

/-- C11: on a well-formed store in which session `s` is active and assigned to the online
agent `A`, with `s.userId` in `A`'s active set and `A` within its capacity: after
`endSession(s.id)` the entry of `A` (now `A.removeUser(s.userId)`) is a member of
`getAvailable()`; and if no other agent is available then, `createSession` for a user
without an open session returns an active session assigned to `A`, and `A`'s active set
holds that user. -/
theorem freed_agent_eligible (st : Store) (s : Session) (A : Agent) (k : Nat)
    (r : Option String) (now : Nat) (hwf : st.WF) (hs : s ∈ st.sessions)
    (_hst : s.status = Status.active) (hag : s.agentId = AgentRef.id k) (hA : A ∈ st.agents)
    (hk : A.key = Id.uuid k) (hon : A.isOnline = true) (hin : s.userId ∈ A.activeUsers)
    (hcap : A.activeUsers.length ≤ A.maxUsers) :
    A.removeUser s.userId now ∈
        InMemoryAgent.getAvailable (SessionService.endSession st (.uuid s._id) r now).2 ∧
    ∀ (U : Id) (t : Option String) (now2 : Nat),
      InMemorySession.findActiveByUserId
          (SessionService.endSession st (.uuid s._id) r now).2 U = none →
      (∀ b ∈ (SessionService.endSession st (.uuid s._id) r now).2.agents,
          b.key ≠ A.key → ¬ b.available) →
      ∃ s2, (SessionService.createSession
            (SessionService.endSession st (.uuid s._id) r now).2 U t now2).1 = .ok s2 ∧
        s2.userId = U ∧ s2.status = Status.active ∧ s2.agentId = AgentRef.id k ∧
        ∃ a2 ∈ (SessionService.createSession
            (SessionService.endSession st (.uuid s._id) r now).2 U t now2).2.agents,
          a2.key = A.key ∧ U ∈ a2.activeUsers := by
  have hfind : InMemorySession.findById st (.uuid s._id) = some s :=
    mapGet_of_mem Session._id st.sessions s hs hwf.1
  have hwf1 := endSession_WF st hwf (.uuid s._id) r now
  have hav := removeUser_available A s.userId now hon hin hcap
  have hags : (SessionService.endSession st (.uuid s._id) r now).2.agents =
      st.agents.map (fun b =>
        if b.referredBy s.agentId = true then b.removeUser s.userId now else b) := by
    rw [endSession_effect st hwf (.uuid s._id) r now s hfind]
  have hmem : A.removeUser s.userId now ∈
      (SessionService.endSession st (.uuid s._id) r now).2.agents := by
    rw [hags]
    exact List.mem_map.2 ⟨A, hA, by simp [Agent.referredBy, hag, hk]⟩
  generalize (SessionService.endSession st (.uuid s._id) r now).2 = st1 at hwf1 hmem ⊢
  refine ⟨?_, ?_⟩
  · simp only [InMemoryAgent.getAvailable, List.mem_filter, Bool.and_eq_true,
      decide_eq_true_eq]
    exact ⟨hmem, hav.1, hav.2⟩
  · intro U t now2 hU hothers
    cases hL : InMemoryAgent.getLeastLoaded st1 with
    | none =>
      exact absurd hav ((getLeastLoaded_eq_none_iff st1).1 hL _ hmem)
    | some a =>
      obtain ⟨haav, pre, post, hsplit⟩ := getLeastLoaded_mem st1 a hL
      have ha : a ∈ st1.agents := by rw [hsplit]; simp
      have hkey : a.key = A.key := by
        by_contra hne
        exact hothers a ha hne haav
      have hi : a.isInstance = true := by simp [Agent.isInstance, hkey, hk]
      rw [createSession_assigned st1 hwf1 U t now2 hU a pre post hsplit hL hi]
      refine ⟨_, rfl, rfl, rfl, ?_, a.assignUser U now2, ?_, ?_, ?_⟩
      · simp [Session.assignAgent, Agent._id, hkey, hk]
      · simp
      · rw [assignUser_key]; exact hkey
      · exact mem_assignUser_of_lt a U now2 haav.2

/-- Witness of C11: in the filled directory the session of `u1` is ended; its agent is
available again. -/
theorem freed_agent_eligible_witness :
    (filledStore.WF ∧ sessionU1 ∈ filledStore.sessions ∧
      sessionU1.status = Status.active ∧ sessionU1.agentId = AgentRef.id 0 ∧
      agentA ∈ filledStore.agents ∧ agentA.key = Id.uuid 0 ∧ agentA.isOnline = true ∧
      sessionU1.userId ∈ agentA.activeUsers ∧
      agentA.activeUsers.length ≤ agentA.maxUsers) ∧
    agentA.removeUser sessionU1.userId 9 ∈
      InMemoryAgent.getAvailable
        (SessionService.endSession filledStore (.uuid sessionU1._id) none 9).2 :=
  ⟨⟨by decide, by decide, rfl, rfl, by decide, rfl, rfl, by decide, by decide⟩,
   (freed_agent_eligible filledStore sessionU1 agentA 0 none 9 (by decide) (by decide) rfl
     rfl (by decide) rfl rfl (by decide) (by decide)).1⟩

/-- Witness of C13: the active session of `u1` is ended, then `u1` asks again and a message
is sent to the old session; the old session is still stored. -/
theorem status_monotone_witness :
    (filledStore.WF ∧ sessionU1 ∈ filledStore.sessions) ∧
    ∃ s2 ∈ (sampleRelayCalls.foldl RelayCall.run filledStore).sessions,
      s2._id = sessionU1._id :=
  ⟨⟨by decide, by decide⟩,
   (status_monotone filledStore sampleRelayCalls sessionU1 (by decide) (by decide)).1⟩

/-- Witness of C14: two idle agents and the sample calls of `u1` and `u2`. -/
theorem served_by_at_most_one_witness :
    (twoAgents.WF ∧ ∀ a ∈ twoAgents.agents, a.activeUsers = []) ∧
    ((sampleServiceCalls.foldl ServiceCall.run twoAgents).agents.map
      (fun a => a.activeUsers.count (Id.lit "u1"))).sum ≤ 1 :=
  ⟨⟨by decide, by decide⟩,
   served_by_at_most_one twoAgents sampleServiceCalls (.lit "u1") (by decide) (by decide)⟩

/-! ## Reading the message log -/

theorem getSessionMessages_memory (st : Store) (sid : Id) (limit offset : Nat) :
    SessionService.getSessionMessages .memory st sid limit offset =
      .error "InMemoryMessage.find(...).sort(...).skip(...).limit(...).lean is not a function" :=
  rfl

theorem getSessionMessages_durable (st : Store) (sid : Id) (limit offset : Nat) :
    SessionService.getSessionMessages .durable st sid limit offset =
      .ok ((MessageModel.findSortSkipLimit st sid offset limit).map Message.view) := rfl

theorem mem_sortAscending (l : List Message) (m : Message) :
    m ∈ sortAscending l ↔ m ∈ l := List.mem_insertionSort byTimestamp

theorem sorted_sortAscending (l : List Message) :
    (sortAscending l).Pairwise (fun a b => a.timestamp ≤ b.timestamp) :=
  List.sorted_insertionSort byTimestamp l

theorem length_sortAscending (l : List Message) : (sortAscending l).length = l.length :=
  List.length_insertionSort byTimestamp l

/-- Stability of the sort: the messages of one timestamp keep their order. -/
theorem filter_sortAscending (l : List Message) (t : Nat) :
    (sortAscending l).filter (fun m => decide (m.timestamp = t)) =
      l.filter (fun m => decide (m.timestamp = t)) := by
  have hsub : (l.filter (fun m => decide (m.timestamp = t))).Sublist (sortAscending l) := by
    apply List.sublist_insertionSort
    · rw [List.pairwise_iff_forall_sublist]
      intro a b hab
      have ha : a ∈ l.filter (fun m => decide (m.timestamp = t)) :=
        hab.subset (List.mem_cons_self _ _)
      have hb : b ∈ l.filter (fun m => decide (m.timestamp = t)) :=
        hab.subset (List.mem_cons_of_mem _ (List.mem_cons_self _ _))
      simp only [List.mem_filter, decide_eq_true_eq] at ha hb
      show a.timestamp ≤ b.timestamp
      omega
    · exact List.filter_sublist l
  have hsub2 := hsub.filter (fun m => decide (m.timestamp = t))
  rw [List.filter_filter] at hsub2
  simp only [Bool.and_self] at hsub2
  have hlen : ((sortAscending l).filter (fun m => decide (m.timestamp = t))).length =
      (l.filter (fun m => decide (m.timestamp = t))).length :=
    ((List.perm_insertionSort byTimestamp l).filter _).length_eq
  exact (hsub2.eq_of_length hlen.symm).symm

theorem slice_sublist {α : Type} (l : List α) (start stop : Nat) :
    (slice l start stop).Sublist l :=
  (List.take_sublist _ _).trans (List.drop_sublist _ _)

theorem find_sublist (st : Store) (sid : Id) (t : Nat) :
    ((InMemoryMessage.find st sid).filter (fun m => decide (m.timestamp = t))).Sublist
      st.messages := by
  unfold InMemoryMessage.find
  simp only
  rw [filter_sortAscending]
  split
  · exact (List.filter_sublist _).trans (List.filter_sublist _)
  · exact List.filter_sublist _

/-- C15, what the code does: in the in-memory store `getSessionMessages` throws a
`TypeError` for every session, limit and offset, because `.lean()` is called on the array
returned by `.limit()`.  At the failing input: `addMessage` on the stored session of `u1`
returns the message `hello`, the array computed by `find/sort/skip/limit` holds exactly that
message, and the following `getSessionMessages(S, 50, 0)` raises instead of returning it. -/
theorem memory_roundtrip_throws :
    (∀ (st : Store) (sid : Id) (limit offset : Nat),
      SessionService.getSessionMessages .memory st sid limit offset =
        .error
          "InMemoryMessage.find(...).sort(...).skip(...).limit(...).lean is not a function") ∧
    (SessionService.addMessage (SessionService.createSession twoAgents (.lit "u1") none 1).2
        (.uuid 2) (.lit "u1") "user" "hello" 8).1 =
      .ok (sessionU1, { id := 3, senderId := .lit "u1", senderType := "user",
                        message := "hello", timestamp := 8 }) ∧
    (InMemoryMessage.findSortSkipLimit
        (SessionService.addMessage (SessionService.createSession twoAgents (.lit "u1") none 1).2
          (.uuid 2) (.lit "u1") "user" "hello" 8).2 (.uuid 2) 0 50).map Message.view =
      [{ id := 3, senderId := .lit "u1", senderType := "user", message := "hello",
         timestamp := 8 }] ∧
    SessionService.getSessionMessages .memory
        (SessionService.addMessage (SessionService.createSession twoAgents (.lit "u1") none 1).2
          (.uuid 2) (.lit "u1") "user" "hello" 8).2 (.uuid 2) 50 0 =
      .error "InMemoryMessage.find(...).sort(...).skip(...).limit(...).lean is not a function" :=
  ⟨fun _ _ _ _ => rfl, rfl, by decide, rfl⟩

/-- C16, what the code does: for every session id, limit and offset the array that
`find/sort/skip/limit` computes holds only messages of that session, is non-decreasing in
timestamp and lists the messages of one timestamp in the order of `messages` (the order in
which they were appended); but `getSessionMessages` does not return it: the in-memory
branch throws a `TypeError` at `.lean()`. -/
theorem memory_page_ordered (st : Store) (n limit offset : Nat) :
    (∀ m ∈ InMemoryMessage.findSortSkipLimit st (.uuid n) offset limit,
      m.sessionId = Id.uuid n) ∧
    (InMemoryMessage.findSortSkipLimit st (.uuid n) offset limit).Pairwise
      (fun a b => a.timestamp ≤ b.timestamp) ∧
    (∀ t, ((InMemoryMessage.findSortSkipLimit st (.uuid n) offset limit).filter
      (fun m => decide (m.timestamp = t))).Sublist st.messages) ∧
    SessionService.getSessionMessages .memory st (.uuid n) limit offset =
      .error "InMemoryMessage.find(...).sort(...).skip(...).limit(...).lean is not a function" := by
  refine ⟨?_, ?_, ?_, rfl⟩
  · intro m hm
    have h1 := (slice_sublist _ _ _).subset hm
    rw [mem_sortAscending] at h1
    simp only [InMemoryMessage.find, Id.truthy, if_true] at h1
    rw [mem_sortAscending] at h1
    simpa using (List.mem_filter.1 h1).2
  · exact (sorted_sortAscending _).sublist (slice_sublist _ _ _)
  · intro t
    have h1 := (slice_sublist (sortAscending (InMemoryMessage.find st (.uuid n))) offset
      (offset + limit)).filter (fun m => decide (m.timestamp = t))
    rw [filter_sortAscending] at h1
    exact h1.trans (find_sublist st (.uuid n) t)

/-! ## `GET /chat/messages/:sessionId` -/

theorem getMessages_memory (st : Store) (sid : Id) (limit offset : Option Nat) :
    ChatController.getMessages .memory st sid limit offset =
      .next "InMemoryMessage.find(...).sort(...).skip(...).limit(...).lean is not a function" :=
  rfl

theorem getMessages_durable (st : Store) (sid : Id) (limit offset : Option Nat) :
    ChatController.getMessages .durable st sid limit offset =
      .ok { sessionId := sid,
            messages := (MessageModel.findSortSkipLimit st sid (offset.getD 0)
              (limit.getD 50)).map Message.view,
            total := ((MessageModel.findSortSkipLimit st sid 0 10000).map Message.view).length,
            limit := limit.getD 50, offset := offset.getD 0,
            hasMore := decide (offset.getD 0 + limit.getD 50 <
              ((MessageModel.findSortSkipLimit st sid 0 10000).map Message.view).length) } :=
  rfl

/-- C17, what the code does: `getSessionMessages` never looks the session up, so for no
backend, store, session id, limit or offset does it fail with `'Session not found'`, and
`getMessages` never takes its 404 branch.  For the id `'nope'` on the empty store the
in-memory branch hands a `TypeError` to the error middleware and the durable branch answers
with a success body holding an empty message list. -/
theorem unknown_session_not_404 (b : Backend) (st : Store) (sid : Id) (limit offset : Nat)
    (qlimit qoffset : Option Nat) :
    SessionService.getSessionMessages b st sid limit offset ≠ .error "Session not found" ∧
    ChatController.getMessages b st sid qlimit qoffset ≠ .notFound ∧
    InMemorySession.findById emptyStore (.lit "nope") = none ∧
    ChatController.getMessages .memory emptyStore (.lit "nope") none none =
      .next "InMemoryMessage.find(...).sort(...).skip(...).limit(...).lean is not a function" ∧
    ChatController.getMessages .durable emptyStore (.lit "nope") none none =
      .ok { sessionId := .lit "nope", messages := [], total := 0, limit := 50, offset := 0,
            hasMore := false } := by
  refine ⟨?_, ?_, rfl, rfl, rfl⟩
  · cases b with
    | memory =>
      rw [getSessionMessages_memory]
      intro h
      simp only [Except.error.injEq] at h
      exact absurd h (by decide)
    | durable =>
      rw [getSessionMessages_durable]
      intro h
      cases h
  · cases b with
    | memory =>
      rw [getMessages_memory]
      intro h
      cases h
    | durable =>
      rw [getMessages_durable]
      intro h
      cases h

theorem length_durable_all (st : Store) (sid : Id) :
    ((MessageModel.findSortSkipLimit st sid 0 10000).map Message.view).length =
      min (st.messages.filter (fun m => decide (m.sessionId = sid))).length 10000 := by
  simp only [MessageModel.findSortSkipLimit, List.drop_zero, List.length_map]
  rw [if_neg (by decide), List.length_take, length_sortAscending, Nat.min_comm]

/-- C18, what the code does: in the in-memory store `getMessages` hands a `TypeError` to the
error middleware for every session, limit and offset, so no page is returned; in the durable
branch a page is returned, but its `pagination.total` is the length of
`getSessionMessages(sessionId, 10000, 0)`, that is `min n 10000` for a session of `n`
messages. -/
theorem getMessages_no_page (st : Store) (sid : Id) (qlimit qoffset : Option Nat) :
    ChatController.getMessages .memory st sid qlimit qoffset =
      .next "InMemoryMessage.find(...).sort(...).skip(...).limit(...).lean is not a function" ∧
    ∃ page, ChatController.getMessages .durable st sid qlimit qoffset = .ok page ∧
      page.total =
        min (st.messages.filter (fun m => decide (m.sessionId = sid))).length 10000 := by
  refine ⟨rfl, _, getMessages_durable st sid qlimit qoffset, ?_⟩
  exact length_durable_all st sid

/-! ## `join_session` -/

theorem getSessionById_of_found (st : Store) (sid : Id) (s : Session)
    (h : InMemorySession.findById st sid = some s) :
    SessionService.getSessionById st sid = .ok s := by
  simp only [SessionService.getSessionById, h]

/-- C19: for every backend and store, every stored session `s` and every `join_session`
request for it: if `userType` (default `'user'`) is `'user'` and `userId` is not the owner
of `s`, or `userType` is `'agent'` and `userId` is not `s.agentId`, the connection is left as
it was (binding and rooms) and exactly one event is emitted, an `'error'` to the requesting
connection; so neither `'session_joined'` nor `'user_joined'` is emitted. -/
theorem join_refused (b : Backend) (st : Store) (socket : Socket) (s : Session)
    (userId : JsValue) (userType : Option String) (now : Nat)
    (hs : InMemorySession.findById st (.uuid s._id) = some s)
    (hbad : (userType.getD "user" = "user" ∧ userId ≠ JsValue.str s.userId) ∨
      (userType.getD "user" = "agent" ∧ userId ≠ s.agentId.toJs)) :
    ∃ message,
      joinSession b st socket
          { sessionId := .str (.uuid s._id), userId := userId, userType := userType } now =
        (socket, [⟨Target.self, Event.error message⟩]) := by
  simp only [joinSession, Id.truthy, Bool.not_true, Bool.false_eq_true, if_false,
    getSessionById_of_found st _ s hs]
  rcases hbad with ⟨h1, h2⟩ | ⟨h1, h2⟩
  · rw [if_pos ⟨h1, fun h => h2 h.symm⟩]
    exact ⟨_, rfl⟩
  · have hnu : ¬ (userType.getD "user" = "user" ∧ JsValue.str s.userId ≠ userId) := by
      intro h
      rw [h1] at h
      exact absurd h.1 (by decide)
    rw [if_neg hnu, if_pos ⟨h1, fun h => h2 h.symm⟩]
    exact ⟨_, rfl⟩

/-- Witness of C19: `u2` asks to join the session of `u1` as a user and is refused. -/
theorem join_refused_witness :
    (InMemorySession.findById storeU1 (.uuid sessionU1._id) = some sessionU1 ∧
      ((none : Option String).getD "user" = "user" ∧
        JsValue.str (.lit "u2") ≠ JsValue.str sessionU1.userId)) ∧
    ∃ message,
      joinSession .memory storeU1 freshSocket
          { sessionId := .str (.uuid sessionU1._id), userId := .str (.lit "u2"),
            userType := none } 5 =
        (freshSocket, [⟨Target.self, Event.error message⟩]) :=
  ⟨⟨rfl, rfl, by decide⟩,
   join_refused .memory storeU1 freshSocket sessionU1 (.str (.lit "u2")) none 5 rfl
     (Or.inl ⟨rfl, by decide⟩)⟩

set_option maxRecDepth 100000 in
/-- C20, the claim as stated fails: (1) with the durable backend and a session of 51
messages sent at the times 0 to 50, the owner's `join_session` gets a `session_joined`
whose history holds the messages of the times 0 to 49, the oldest 50, and not the newest
one; (2) with the in-memory backend no `session_joined` is emitted at all, the joining
connection gets `'error'` after the group has been notified. -/
theorem join_history_counterexample :
    ((longLog.messages.filter (fun m => decide (m.sessionId = Id.uuid 2))).map
        (fun m => m.timestamp) = List.range 51 ∧
      (joinSession .durable longLog freshSocket
          { sessionId := .str (.uuid 2), userId := .str (.lit "u1"), userType := none }
          99).2.map (fun e => (e.target, e.event.history.map (fun v => v.timestamp))) =
        [(Target.others (.uuid 2), []), (Target.self, List.range 50)]) ∧
    (joinSession .memory longLog freshSocket
        { sessionId := .str (.uuid 2), userId := .str (.lit "u1"), userType := none } 99).2 =
      [⟨Target.others (.uuid 2), Event.user_joined (.str (.lit "u1")) "user" 99⟩,
       ⟨Target.self, Event.error "Failed to join session"⟩] :=
  ⟨⟨by decide, by decide⟩, by decide⟩

/-- C20 as amended: with the durable backend, for every stored session `s` and every
authorized `join_session` for it, two events are emitted: `user_joined` to the other members
of the group and `session_joined` to the joining connection only, and the history it carries
is the first page of the log: the first `min n 50` messages of the session in ascending
order of timestamp, where `n` is the number of its stored messages. -/
theorem join_history_first_page (st : Store) (socket : Socket) (s : Session)
    (userId : JsValue) (userType : Option String) (now : Nat)
    (hs : InMemorySession.findById st (.uuid s._id) = some s)
    (hok : ¬ (userType.getD "user" = "user" ∧ userId ≠ JsValue.str s.userId) ∧
      ¬ (userType.getD "user" = "agent" ∧ userId ≠ s.agentId.toJs)) :
    (joinSession .durable st socket
        { sessionId := .str (.uuid s._id), userId := userId, userType := userType } now).2 =
      [⟨Target.others (.uuid s._id), Event.user_joined userId (userType.getD "user") now⟩,
       ⟨Target.self, Event.session_joined (.uuid s._id) s.status s.agentId
          (((sortAscending (st.messages.filter
            (fun m => decide (m.sessionId = Id.uuid s._id)))).take 50).map Message.view)⟩] ∧
    (((sortAscending (st.messages.filter
        (fun m => decide (m.sessionId = Id.uuid s._id)))).take 50).map Message.view).length =
      min (st.messages.filter (fun m => decide (m.sessionId = Id.uuid s._id))).length 50 := by
  constructor
  · have h1 : ¬ (userType.getD "user" = "user" ∧ JsValue.str s.userId ≠ userId) :=
      fun h => hok.1 ⟨h.1, fun h2 => h.2 h2.symm⟩
    have h2 : ¬ (userType.getD "user" = "agent" ∧ s.agentId.toJs ≠ userId) :=
      fun h => hok.2 ⟨h.1, fun h2 => h.2 h2.symm⟩
    simp only [joinSession, Id.truthy, Bool.not_true, Bool.false_eq_true, if_false,
      getSessionById_of_found st _ s hs, if_neg h1, if_neg h2, getSessionMessages_durable,
      MessageModel.findSortSkipLimit, List.drop_zero]
    rw [if_neg (by decide)]
  · rw [List.length_map, List.length_take, length_sortAscending, Nat.min_comm]

/-- Witness of C20 as amended: the owner joins `sessionU1`, which has no message yet. -/
theorem join_history_first_page_witness :
    (InMemorySession.findById storeU1 (.uuid sessionU1._id) = some sessionU1 ∧
      ¬ ((none : Option String).getD "user" = "user" ∧
        JsValue.str (.lit "u1") ≠ JsValue.str sessionU1.userId) ∧
      ¬ ((none : Option String).getD "user" = "agent" ∧
        JsValue.str (.lit "u1") ≠ sessionU1.agentId.toJs)) ∧
    (((sortAscending (storeU1.messages.filter
        (fun m => decide (m.sessionId = Id.uuid sessionU1._id)))).take 50).map
          Message.view).length =
      min (storeU1.messages.filter
        (fun m => decide (m.sessionId = Id.uuid sessionU1._id))).length 50 :=
  ⟨⟨rfl, by decide, by decide⟩,
   (join_history_first_page storeU1 freshSocket sessionU1 (.str (.lit "u1")) none 5 rfl
     ⟨by decide, by decide⟩).2⟩

/-! ## `send_message` -/

theorem sendMessageSocket_bound (st : Store) (rooms : List Id) (sid sender : Id)
    (role body : String) (now : Nat) (h1 : sid.truthy = true) (h2 : sender.truthy = true)
    (h3 : role ≠ "") (h4 : body ≠ "") :
    sendMessageSocket st
        { sessionId := .str sid, userId := .str sender, userType := some role,
          rooms := rooms }
        { sessionId := .str sid, message := some body } now =
      match SessionService.addMessage st sid sender role body now with
      | (.error _, st1) => (st1, [⟨.self, .error "Failed to send message"⟩])
      | (.ok result, st1) =>
        (st1, [⟨.room sid, .new_message
          { id := result.2.id, senderId := result.2.senderId,
            senderType := result.2.senderType, message := result.2.message,
            timestamp := result.2.timestamp }⟩]) := by
  simp [sendMessageSocket, JsValue.truthy, truthyString, h1, h2, h3, h4]

theorem truthy_of_found (st : Store) (sid : Id) (s : Session)
    (h : InMemorySession.findById st sid = some s) : sid.truthy = true := by
  rw [(findById_some st sid s h).1]
  rfl

/-- A well-formed store has not handed out `nextUuid` yet, so `Map.set` under it appends. -/
theorem mapSet_fresh_message (st : Store) (hwf : st.WF) (m : Message)
    (hm : m._id = st.nextUuid) : mapSet Message._id st.messages m = st.messages ++ [m] := by
  apply mapSet_of_not_mem
  intro e he heq
  have := hwf.2.2.2.2.2 e._id (List.mem_map_of_mem _ he)
  omega

/-- On a connection bound to a stored session, a request for that session with a non-empty
body is stored under the bound identity and broadcast to the room of the session. -/
theorem sendMessageSocket_stored (st : Store) (socket : Socket) (data : SendData) (now : Nat)
    (sid sender : Id) (role body : String) (s : Session)
    (hb : socket.sessionId = JsValue.str sid) (hd : data.sessionId = JsValue.str sid)
    (hu : socket.userId = JsValue.str sender) (hut : sender.truthy = true)
    (ht : socket.userType = some role) (hr : role ≠ "")
    (hm : data.message = some body) (hbody : body ≠ "")
    (hs : InMemorySession.findById st sid = some s) :
    sendMessageSocket st socket data now =
      ({ sessions := st.sessions,
         messages := mapSet Message._id st.messages
           { _id := st.nextUuid, sessionId := sid, senderId := sender, senderType := role,
             message := body, timestamp := now, createdAt := now, updatedAt := now },
         agents := st.agents, nextUuid := st.nextUuid + 1 },
       [⟨Target.room sid, Event.new_message
          { id := st.nextUuid, senderId := sender, senderType := role, message := body,
            timestamp := now }⟩]) := by
  obtain ⟨ssid, suid, sut, srooms⟩ := socket
  obtain ⟨dsid, dmsg⟩ := data
  simp only at hb hd hu ht hm
  subst hb hd hu ht hm
  rw [sendMessageSocket_bound st srooms sid sender role body now (truthy_of_found st sid s hs)
    hut hr hbody, addMessage_found st sid sender role body now s hs]
  rfl

/-- Every `send_message` request is either refused with one `'error'` to the sender and no
write, or it comes over a connection bound to the stored session it names, with a non-empty
body. -/
theorem sendMessageSocket_cases (st : Store) (socket : Socket) (data : SendData) (now : Nat) :
    ((sendMessageSocket st socket data now).1 = st ∧
      ∃ message, (sendMessageSocket st socket data now).2 =
        [⟨Target.self, Event.error message⟩]) ∨
    ∃ sid sender role body s,
      socket.sessionId = JsValue.str sid ∧ data.sessionId = JsValue.str sid ∧
      socket.userId = JsValue.str sender ∧ sender.truthy = true ∧
      socket.userType = some role ∧ role ≠ "" ∧
      data.message = some body ∧ body ≠ "" ∧
      InMemorySession.findById st sid = some s := by
  obtain ⟨ssid, suid, sut, srooms⟩ := socket
  obtain ⟨dsid, dmsg⟩ := data
  by_cases hc : (!dsid.truthy || !truthyString dmsg || !suid.truthy ||
      !truthyString sut) = true
  · left
    have hval : sendMessageSocket st ⟨ssid, suid, sut, srooms⟩ ⟨dsid, dmsg⟩ now =
        (st, [⟨Target.self, Event.error "Invalid message data"⟩]) := by
      simp only [sendMessageSocket]
      rw [if_pos hc]
    rw [hval]
    exact ⟨rfl, _, rfl⟩
  · by_cases hne : ssid ≠ dsid
    · left
      have hval : sendMessageSocket st ⟨ssid, suid, sut, srooms⟩ ⟨dsid, dmsg⟩ now =
          (st, [⟨Target.self, Event.error "Not authorized for this session"⟩]) := by
        simp only [sendMessageSocket]
        rw [if_neg hc, if_pos hne]
      rw [hval]
      exact ⟨rfl, _, rfl⟩
    · have heq : ssid = dsid := by
        by_contra h
        exact hne h
      subst heq
      simp only [Bool.or_eq_true, Bool.not_eq_true', not_or, Bool.not_eq_false] at hc
      obtain ⟨⟨⟨hc1, hc2⟩, hc3⟩, hc4⟩ := hc
      cases ssid with
      | undefined => simp [JsValue.truthy] at hc1
      | null => simp [JsValue.truthy] at hc1
      | str sid =>
        cases suid with
        | undefined => simp [JsValue.truthy] at hc3
        | null => simp [JsValue.truthy] at hc3
        | str sender =>
          cases sut with
          | none => simp [truthyString] at hc4
          | some role =>
            cases dmsg with
            | none => simp [truthyString] at hc2
            | some body =>
              simp only [JsValue.truthy] at hc1 hc3
              simp only [truthyString, decide_eq_true_eq] at hc2 hc4
              cases hf : InMemorySession.findById st sid with
              | none =>
                left
                rw [sendMessageSocket_bound st srooms sid sender role body now hc1 hc3 hc4
                  hc2, addMessage_notFound st sid sender role body now hf]
                exact ⟨rfl, _, rfl⟩
              | some s =>
                right
                exact ⟨sid, sender, role, body, s, rfl, rfl, rfl, hc3, rfl, hc4, rfl, hc2, hf⟩

/-- C21: for every store, connection and `send_message` request.  (1) If the connection is
bound (`socket.sessionId`, `socket.userId`, `socket.userType` are set), the request's
`sessionId` is the bound session id, that session is stored and the body is non-empty, the
handler writes exactly one message, whose `senderId` and `senderType` are the bound `userId`
and `userType`, and emits exactly one event, `'new_message'` with that message to the room
of the session; on a well-formed store the message is appended to the log.  (2) In every
other case the store is left as it is and exactly one event is emitted, an `'error'` to
the sender. -/
theorem send_message_safe (st : Store) (socket : Socket) (data : SendData) (now : Nat) :
    (∀ sid sender role body s,
      socket.sessionId = JsValue.str sid → data.sessionId = JsValue.str sid →
      socket.userId = JsValue.str sender → sender.truthy = true →
      socket.userType = some role → role ≠ "" →
      data.message = some body → body ≠ "" →
      InMemorySession.findById st sid = some s →
      sendMessageSocket st socket data now =
        ({ sessions := st.sessions,
           messages := mapSet Message._id st.messages
             { _id := st.nextUuid, sessionId := sid, senderId := sender, senderType := role,
               message := body, timestamp := now, createdAt := now, updatedAt := now },
           agents := st.agents, nextUuid := st.nextUuid + 1 },
         [⟨Target.room sid, Event.new_message
            { id := st.nextUuid, senderId := sender, senderType := role, message := body,
              timestamp := now }⟩]) ∧
      (st.WF → (sendMessageSocket st socket data now).1.messages =
        st.messages ++
          [{ _id := st.nextUuid, sessionId := sid, senderId := sender, senderType := role,
             message := body, timestamp := now, createdAt := now, updatedAt := now }])) ∧
    ((¬ ∃ sid sender role body s,
        socket.sessionId = JsValue.str sid ∧ data.sessionId = JsValue.str sid ∧
        socket.userId = JsValue.str sender ∧ sender.truthy = true ∧
        socket.userType = some role ∧ role ≠ "" ∧
        data.message = some body ∧ body ≠ "" ∧
        InMemorySession.findById st sid = some s) →
      (sendMessageSocket st socket data now).1 = st ∧
      ∃ message, (sendMessageSocket st socket data now).2 =
        [⟨Target.self, Event.error message⟩]) := by
  constructor
  · intro sid sender role body s hb hd hu hut ht hr hm hbody hs
    have hval := sendMessageSocket_stored st socket data now sid sender role body s hb hd hu
      hut ht hr hm hbody hs
    refine ⟨hval, fun hwf => ?_⟩
    rw [hval]
    exact mapSet_fresh_message st hwf _ rfl
  · intro hno
    rcases sendMessageSocket_cases st socket data now with h | h
    · exact h
    · exact absurd h hno

/-- Witness of C21: `u1`, bound to `sessionU1`, sends `hello`. -/
theorem send_message_safe_witness :
    (boundSocket.sessionId = JsValue.str (.uuid 2) ∧
      boundSocket.userId = JsValue.str (.lit "u1") ∧ (Id.lit "u1").truthy = true ∧
      boundSocket.userType = some "user" ∧ "user" ≠ "" ∧ "hello" ≠ "" ∧
      InMemorySession.findById storeU1 (.uuid 2) = some sessionU1 ∧ storeU1.WF) ∧
    sendMessageSocket storeU1 boundSocket
        { sessionId := .str (.uuid 2), message := some "hello" } 8 =
      ({ sessions := storeU1.sessions,
         messages := mapSet Message._id storeU1.messages
           { _id := storeU1.nextUuid, sessionId := .uuid 2, senderId := .lit "u1",
             senderType := "user", message := "hello", timestamp := 8, createdAt := 8,
             updatedAt := 8 },
         agents := storeU1.agents, nextUuid := storeU1.nextUuid + 1 },
       [⟨Target.room (.uuid 2), Event.new_message
          { id := storeU1.nextUuid, senderId := .lit "u1", senderType := "user",
            message := "hello", timestamp := 8 }⟩]) :=
  ⟨⟨rfl, rfl, rfl, rfl, by decide, by decide, rfl, by decide⟩,
   ((send_message_safe storeU1 boundSocket
      { sessionId := .str (.uuid 2), message := some "hello" } 8).1
      (.uuid 2) (.lit "u1") "user" "hello" sessionU1 rfl rfl rfl rfl rfl (by decide) rfl
      (by decide) rfl).1⟩

/-! ## The two entry points of a send -/

theorem sendMessage_found (st : Store) (io : Bool) (userId senderId : JsValue) (sid : Id)
    (message : String) (senderType : Option String) (now : Nat) (s : Session)
    (h : InMemorySession.findById st sid = some s) :
    ChatController.sendMessage st io userId sid message senderId senderType now =
      (.created st.nextUuid s._id
          { id := st.nextUuid, senderId := actualSenderId senderId userId,
            senderType := senderType.getD "user", message := message, timestamp := now }
          s.status,
        { sessions := st.sessions,
          messages := mapSet Message._id st.messages
            { _id := st.nextUuid, sessionId := sid,
              senderId := actualSenderId senderId userId,
              senderType := senderType.getD "user", message := message, timestamp := now,
              createdAt := now, updatedAt := now },
          agents := st.agents, nextUuid := st.nextUuid + 1 },
        if io then
          [⟨Target.room sid, Event.new_message
            { id := st.nextUuid, senderId := actualSenderId senderId userId,
              senderType := senderType.getD "user", message := message,
              timestamp := now }⟩]
        else []) := by
  simp only [ChatController.sendMessage]
  rw [addMessage_found st sid _ _ message now s h]
  rfl

/-- The value of `senderId || authenticatedUser.id || 'anonymous'`, case by case. -/
theorem actualSenderId_cases (senderId userId : JsValue) :
    (∀ x, senderId = JsValue.str x → x.truthy = true → actualSenderId senderId userId = x) ∧
    (senderId.truthy = false → ∀ u, userId = JsValue.str u → u.truthy = true →
      actualSenderId senderId userId = u) ∧
    (senderId.truthy = false → userId.truthy = false →
      actualSenderId senderId userId = Id.lit "anonymous") := by
  refine ⟨?_, ?_, ?_⟩
  · rintro x rfl hx
    cases userId <;> simp [actualSenderId, hx]
  · rintro hs u rfl hu
    cases senderId <;> simp_all [actualSenderId, JsValue.truthy]
  · intro hs hu
    cases senderId <;> cases userId <;> simp_all [actualSenderId, JsValue.truthy]

/-- C22: for every stored session the request/response entry point
(`ChatController.sendMessage`, with `io` set as `server.js` sets it, for every `senderId`,
`senderType`, authenticated user and body) and the event-stream entry point (the
`send_message` handler on a connection bound to the session) each append one message
through `SessionService.addMessage` and emit exactly one event: `'new_message'` to the room
named by the session id, with the payload `{id, senderId, senderType, message, timestamp}`
copied from the message `m` that `addMessage` returned on that path.  With the same sender,
role, body and time the two fan-outs are the same list. -/
theorem same_fan_out (st : Store) (sid : Id) (s : Session) (userId senderId : JsValue)
    (senderType : Option String) (message : String) (sender : Id) (role body : String)
    (rooms : List Id) (now : Nat)
    (hs : InMemorySession.findById st sid = some s) (h2 : sender.truthy = true)
    (h3 : role ≠ "") (h4 : body ≠ "") :
    (∃ m, (SessionService.addMessage st sid (actualSenderId senderId userId)
          (senderType.getD "user") message now).1 = .ok (s, m) ∧
        m = { id := st.nextUuid, senderId := actualSenderId senderId userId,
              senderType := senderType.getD "user", message := message,
              timestamp := now } ∧
        (ChatController.sendMessage st true userId sid message senderId senderType now).2.2 =
          [⟨Target.room sid, Event.new_message
            { id := m.id, senderId := m.senderId, senderType := m.senderType,
              message := m.message, timestamp := m.timestamp }⟩]) ∧
    (∃ m, (SessionService.addMessage st sid sender role body now).1 = .ok (s, m) ∧
        m = { id := st.nextUuid, senderId := sender, senderType := role, message := body,
              timestamp := now } ∧
        (sendMessageSocket st
            { sessionId := .str sid, userId := .str sender, userType := some role,
              rooms := rooms }
            { sessionId := .str sid, message := some body } now).2 =
          [⟨Target.room sid, Event.new_message
            { id := m.id, senderId := m.senderId, senderType := m.senderType,
              message := m.message, timestamp := m.timestamp }⟩]) ∧
    (ChatController.sendMessage st true userId sid body (.str sender) (some role) now).2.2 =
      (sendMessageSocket st
          { sessionId := .str sid, userId := .str sender, userType := some role,
            rooms := rooms }
          { sessionId := .str sid, message := some body } now).2 := by
  have hsock := sendMessageSocket_stored st
    { sessionId := .str sid, userId := .str sender, userType := some role, rooms := rooms }
    { sessionId := .str sid, message := some body } now sid sender role body s rfl rfl rfl h2
    rfl h3 rfl h4 hs
  have hact : actualSenderId (.str sender) userId = sender :=
    (actualSenderId_cases (.str sender) userId).1 sender rfl h2
  refine ⟨⟨_, ?_, rfl, ?_⟩, ⟨_, ?_, rfl, ?_⟩, ?_⟩
  · rw [addMessage_found st sid _ _ message now s hs]
    rfl
  · rw [sendMessage_found st true userId senderId sid message senderType now s hs]
    rfl
  · rw [addMessage_found st sid sender role body now s hs]
    rfl
  · rw [hsock]
  · rw [hsock, sendMessage_found st true userId (.str sender) sid body (some role) now s hs,
      hact]
    rfl

/-- Witness of C22: `u1` sends `hello` to `sessionU1` over either entry point. -/
theorem same_fan_out_witness :
    (InMemorySession.findById storeU1 (.uuid 2) = some sessionU1 ∧
      (Id.lit "u1").truthy = true ∧ "user" ≠ "" ∧ "hello" ≠ "") ∧
    (ChatController.sendMessage storeU1 true .undefined (.uuid 2) "hello"
        (.str (.lit "u1")) (some "user") 8).2.2 =
      (sendMessageSocket storeU1
        { sessionId := .str (.uuid 2), userId := .str (.lit "u1"), userType := some "user",
          rooms := [] }
        { sessionId := .str (.uuid 2), message := some "hello" } 8).2 ∧
    (sendMessageSocket storeU1
        { sessionId := .str (.uuid 2), userId := .str (.lit "u1"), userType := some "user",
          rooms := [] }
        { sessionId := .str (.uuid 2), message := some "hello" } 8).2 =
      [⟨Target.room (.uuid 2), Event.new_message
        { id := 3, senderId := .lit "u1", senderType := "user", message := "hello",
          timestamp := 8 }⟩] :=
  ⟨⟨rfl, rfl, by decide, by decide⟩,
   (same_fan_out storeU1 (.uuid 2) sessionU1 .undefined .undefined none "hello" (.lit "u1")
     "user" "hello" [] 8 rfl rfl (by decide) (by decide)).2.2,
   by decide⟩

/-- C27, the claim as stated fails: on `storeU1` the session of `u1` is assigned to agent 0;
a request to the request/response entry point with `senderType: 'user'` and
`senderId: 'u2'` (not the owner), and one with `senderType: 'agent'` and `senderId: 'x'`
(not the agent), are both answered `201`, store the message and broadcast
`'new_message'`. -/
theorem http_send_counterexample :
    (InMemorySession.findById storeU1 (.uuid 2) = some sessionU1 ∧
      sessionU1.userId ≠ Id.lit "u2" ∧ sessionU1.agentId.toJs ≠ JsValue.str (.lit "x")) ∧
    postSendMessage jsTrim storeU1 true .undefined (.uuid 2)
        { message := some "hi", senderId := .str (.lit "u2"), senderType := some "user" } 8 =
      (.created 3 2 { id := 3, senderId := .lit "u2", senderType := "user", message := "hi",
                      timestamp := 8 } Status.active,
        { sessions := storeU1.sessions,
          messages := [{ _id := 3, sessionId := .uuid 2, senderId := .lit "u2",
                         senderType := "user", message := "hi", timestamp := 8,
                         createdAt := 8, updatedAt := 8 }],
          agents := storeU1.agents, nextUuid := 4 },
        [⟨Target.room (.uuid 2), Event.new_message
          { id := 3, senderId := .lit "u2", senderType := "user", message := "hi",
            timestamp := 8 }⟩]) ∧
    postSendMessage jsTrim storeU1 true .undefined (.uuid 2)
        { message := some "hi", senderId := .str (.lit "x"), senderType := some "agent" } 8 =
      (.created 3 2 { id := 3, senderId := .lit "x", senderType := "agent", message := "hi",
                      timestamp := 8 } Status.active,
        { sessions := storeU1.sessions,
          messages := [{ _id := 3, sessionId := .uuid 2, senderId := .lit "x",
                         senderType := "agent", message := "hi", timestamp := 8,
                         createdAt := 8, updatedAt := 8 }],
          agents := storeU1.agents, nextUuid := 4 },
        [⟨Target.room (.uuid 2), Event.new_message
          { id := 3, senderId := .lit "x", senderType := "agent", message := "hi",
            timestamp := 8 }⟩]) :=
  ⟨⟨rfl, by decide, by decide⟩, by decide, by decide⟩

/-- C27 as amended: for every stored session `s`, a send through the request/response entry
point is not compared with `s.userId` or `s.agentId`: whatever `senderId` and `senderType`
the validated request carries, the response is `201` with the message, exactly one message
is stored, with the sender `senderId || req.user.id || 'anonymous'` and the role
`senderType` (default `'user'`), and exactly one event is emitted, `'new_message'` with that
message to the room of the session.  The sender is the `senderId` of the body when that is
truthy, else `req.user.id` when that is truthy, else `'anonymous'`. -/
theorem http_send_unchecked (st : Store) (sid : Id) (s : Session) (message : String)
    (userId senderId : JsValue) (senderType : Option String) (now : Nat)
    (hs : InMemorySession.findById st sid = some s) :
    ChatController.sendMessage st true userId sid message senderId senderType now =
      (.created st.nextUuid s._id
          { id := st.nextUuid, senderId := actualSenderId senderId userId,
            senderType := senderType.getD "user", message := message, timestamp := now }
          s.status,
        { sessions := st.sessions,
          messages := mapSet Message._id st.messages
            { _id := st.nextUuid, sessionId := sid,
              senderId := actualSenderId senderId userId,
              senderType := senderType.getD "user", message := message, timestamp := now,
              createdAt := now, updatedAt := now },
          agents := st.agents, nextUuid := st.nextUuid + 1 },
        [⟨Target.room sid, Event.new_message
          { id := st.nextUuid, senderId := actualSenderId senderId userId,
            senderType := senderType.getD "user", message := message,
            timestamp := now }⟩]) ∧
    (st.WF →
      (ChatController.sendMessage st true userId sid message senderId senderType
          now).2.1.messages =
        st.messages ++
          [{ _id := st.nextUuid, sessionId := sid,
             senderId := actualSenderId senderId userId,
             senderType := senderType.getD "user", message := message, timestamp := now,
             createdAt := now, updatedAt := now }]) ∧
    (∀ x, senderId = JsValue.str x → x.truthy = true → actualSenderId senderId userId = x) ∧
    (senderId.truthy = false → ∀ u, userId = JsValue.str u → u.truthy = true →
      actualSenderId senderId userId = u) ∧
    (senderId.truthy = false → userId.truthy = false →
      actualSenderId senderId userId = Id.lit "anonymous") := by
  have hval := sendMessage_found st true userId senderId sid message senderType now s hs
  rw [if_pos rfl] at hval
  refine ⟨hval, fun hwf => ?_, actualSenderId_cases senderId userId⟩
  rw [hval]
  exact mapSet_fresh_message st hwf _ rfl

/-- Witness of C27 as amended: `u2` sends to the session of `u1`, who owns it. -/
theorem http_send_unchecked_witness :
    (InMemorySession.findById storeU1 (.uuid 2) = some sessionU1 ∧
      sessionU1.userId = Id.lit "u1") ∧
    ChatController.sendMessage storeU1 true .undefined (.uuid 2) "hi" (.str (.lit "u2"))
        (some "user") 8 =
      (.created 3 2 { id := 3, senderId := .lit "u2", senderType := "user", message := "hi",
                      timestamp := 8 } Status.active,
        { sessions := storeU1.sessions,
          messages := [{ _id := 3, sessionId := .uuid 2, senderId := .lit "u2",
                         senderType := "user", message := "hi", timestamp := 8,
                         createdAt := 8, updatedAt := 8 }],
          agents := storeU1.agents, nextUuid := 4 },
        [⟨Target.room (.uuid 2), Event.new_message
          { id := 3, senderId := .lit "u2", senderType := "user", message := "hi",
            timestamp := 8 }⟩]) :=
  ⟨⟨rfl, rfl⟩,
   (http_send_unchecked storeU1 (.uuid 2) sessionU1 "hi" .undefined (.str (.lit "u2"))
     (some "user") 8 rfl).1⟩

/-! ## The length of a message body -/

theorem validateMessage_too_long (trim : String → String) (body : SendBody)
    (message : String) (hm : body.message = some message) (hl : 1000 < jsLength message) :
    ∃ code, validateMessage trim body = .error (.badRequest code) := by
  simp only [validateMessage, hm]
  by_cases h1 : message = "" ∨ jsLength (trim message) = 0
  · rw [if_pos h1]; exact ⟨_, rfl⟩
  · rw [if_neg h1, if_pos hl]; exact ⟨_, rfl⟩

set_option maxRecDepth 100000 in
/-- C24, what the code does: for a body of 1001 characters the HTTP path answers
`400 MESSAGE_TOO_LONG` in `validateMessage` and stores nothing; the `send_message` handler
has no length check, so on the in-memory store (whose `InMemoryMessage` has no validation
either) the same body sent over a bound connection is stored and broadcast. -/
theorem long_body_stored :
    jsLength longBody = 1001 ∧
    postSendMessage jsTrim storeU1 true .undefined (.uuid 2)
        { message := some longBody, senderId := .undefined, senderType := none } 8 =
      (.badRequest "MESSAGE_TOO_LONG", storeU1, []) ∧
    (sendMessageSocket storeU1 boundSocket
        { sessionId := .str (.uuid 2), message := some longBody } 8).1.messages.map
      (fun m => jsLength m.message) = [1001] ∧
    (sendMessageSocket storeU1 boundSocket
        { sessionId := .str (.uuid 2), message := some longBody } 8).2.map
      (fun e => e.target) = [Target.room (.uuid 2)] :=
  ⟨by decide, by decide, by decide, by decide⟩

/-! ## authenticateToken -/

/-- C25, the claim as stated fails: a request whose only credential is the wrong API key
`'wrong'` (the configured key is `'secret'`) is answered 401, not 403. -/
theorem wrong_api_key_counterexample :
    authenticateToken (some "secret") (fun _ => none)
        { authorization := none, xApiKey := some "wrong" } = AuthResult.unauthorized ∧
      authenticateToken (some "secret") (fun _ => none)
        { authorization := none, xApiKey := some "wrong" } ≠ AuthResult.forbidden :=
  ⟨by decide, by decide⟩

/-- C25 as amended: `authenticateToken` passes the request on exactly when it carries a
non-empty `x-api-key` equal to the configured key or a token that verifies; otherwise a
request with a token (which then fails verification) is answered 403, and a request without
a token is answered 401, whether its `x-api-key` is missing or wrong. -/
theorem authenticateToken_spec (envApiKey : Option String)
    (verify : String → Option TokenUser) (req : AuthRequest) :
    ((∃ user, authenticateToken envApiKey verify req = .next user) ↔
      (req.apiKeyOk envApiKey = true ∨ ∃ t user, req.token = some t ∧ verify t = some user)) ∧
    (authenticateToken envApiKey verify req = .forbidden ↔
      (req.apiKeyOk envApiKey = false ∧ ∃ t, req.token = some t ∧ verify t = none)) ∧
    (authenticateToken envApiKey verify req = .unauthorized ↔
      (req.apiKeyOk envApiKey = false ∧ req.token = none)) := by
  unfold authenticateToken
  cases ha : req.apiKeyOk envApiKey with
  | true => simp
  | false =>
    cases ht : req.token with
    | none => simp
    | some t => cases hv : verify t <;> simp [hv]

/-- Witness of C25 as amended: a request with the configured key passes, one with a token
that fails verification gets 403. -/
theorem authenticateToken_spec_witness :
    (∃ user, authenticateToken (some "secret") (fun _ => none)
        { authorization := none, xApiKey := some "secret" } = .next user) ∧
    authenticateToken (some "secret") (fun _ => none)
        { authorization := some "Bearer abc", xApiKey := none } = .forbidden :=
  ⟨(authenticateToken_spec (some "secret") (fun _ => none)
      { authorization := none, xApiKey := some "secret" }).1.2 (Or.inl (by decide)),
   (authenticateToken_spec (some "secret") (fun _ => none)
      { authorization := some "Bearer abc", xApiKey := none }).2.1.2
        ⟨by decide, "abc", by decide, rfl⟩⟩

/-! ## Agent statistics -/

/-- C26, what the code does: in in-memory mode `getAgentStats` returns the empty list for
every directory, because `InMemoryAgent.find()` is called without its `query` argument,
reading `query.isOnline` throws and the `catch` returns `[]`; the durable branch returns one
entry per agent, in directory order.  On the two-agent directory the in-memory result has
no entry. -/
theorem memory_stats_empty (rate : Nat → Nat → String) (st : Store) :
    InMemoryAgent.find st none =
      .error "Cannot read properties of undefined (reading 'isOnline')" ∧
    AgentService.getAgentStats rate .memory st = [] ∧
    AgentService.getAgentStats rate .durable st = st.agents.map (Agent.docStat rate) ∧
    (AgentService.getAgentStats rate .durable st).map (fun e => e.activeUsers) =
      st.agents.map (fun a => a.activeUsers.length) ∧
    twoAgents.agents.length = 2 ∧
    (AgentService.getAgentStats rate .memory twoAgents).length = 0 := by
  refine ⟨rfl, rfl, rfl, ?_, rfl, rfl⟩
  simp only [AgentService.getAgentStats, List.map_map]
  rfl

/-! ## The two backends -/

theorem toDoc_assignUser (a : Agent) (u : Id) (now : Nat) :
    (a.assignUser u now).toDoc = a.toDoc.assignUser u := by
  have hc : a.toDoc.canAssign u = a.canAssign u := rfl
  unfold Agent.assignUser AgentDoc.assignUser
  rw [hc]
  split <;> rfl

theorem toDoc_removeUser (a : Agent) (u : Id) (now : Nat) :
    (a.removeUser u now).toDoc = a.toDoc.removeUser u := rfl

/-- C23, what the code does: `assignUser` and `removeUser` of the two models agree on the
shared fields, but `getSessionMessages` differs between the backends for every store,
session, limit and offset (the in-memory branch throws, the durable branch returns a list),
and so does `getAgentStats` on the two-agent directory (the in-memory branch returns `[]`,
the durable branch two entries). -/
theorem backends_differ (rate : Nat → Nat → String) (st : Store) (sid : Id)
    (limit offset : Nat) (a : Agent) (u : Id) (now : Nat) :
    (a.assignUser u now).toDoc = a.toDoc.assignUser u ∧
    (a.removeUser u now).toDoc = a.toDoc.removeUser u ∧
    SessionService.getSessionMessages .memory st sid limit offset ≠
      SessionService.getSessionMessages .durable st sid limit offset ∧
    AgentService.getAgentStats rate .memory twoAgents ≠
      AgentService.getAgentStats rate .durable twoAgents := by
  refine ⟨toDoc_assignUser a u now, toDoc_removeUser a u now, ?_, ?_⟩
  · rw [getSessionMessages_memory, getSessionMessages_durable]
    intro h
    cases h
  · intro h
    have hm : (AgentService.getAgentStats rate .memory twoAgents).length = 0 := rfl
    have hd : (AgentService.getAgentStats rate .durable twoAgents).length = 2 := rfl
    rw [h, hd] at hm
    exact absurd hm (by decide)

/-! ## Ending a session twice -/

/-- C28, what the code does: on a directory of one agent of capacity 1 the session of `u1`
is created and ended, `u1` gets a second session on the agent, and `endSession` on the first,
already ended session releases `u1` from the agent again; the next request, by `u2`, is then
assigned to the same agent.  The agent ends with two non-ended sessions, while its active
set has one member and its capacity is 1. -/
theorem double_end_overbooks :
    oneAgent.agents.map (fun a => (a.key, a.activeUsers, a.maxUsers)) =
      [(Id.uuid 0, [], 1)] ∧
    (doubleEnd.foldl ServiceCall.run oneAgent).sessions.map
        (fun s => (s._id, s.userId, s.status, s.agentId)) =
      [(1, Id.lit "u1", Status.ended, AgentRef.id 0),
       (2, Id.lit "u1", Status.active, AgentRef.id 0),
       (3, Id.lit "u2", Status.active, AgentRef.id 0)] ∧
    ((doubleEnd.foldl ServiceCall.run oneAgent).sessions.filter
        (fun s => decide (s.status ≠ Status.ended) && decide (s.agentId = AgentRef.id 0))).length
      = 2 ∧
    (doubleEnd.foldl ServiceCall.run oneAgent).agents.map
        (fun a => (a.key, a.activeUsers, a.maxUsers)) =
      [(Id.uuid 0, [Id.lit "u2"], 1)] :=
  ⟨by decide, by decide, by decide, by decide⟩

/-! ## Joining under another role -/

/-- A `join_session` request for a stored session whose `userType` is neither `'user'` nor
`'agent'` passes both identity checks: the connection is bound with the claimed identity,
joins the room and the others are notified; what the requester receives is decided by
`getSessionMessages`. -/
theorem joinSession_other_role (b : Backend) (st : Store) (socket : Socket) (s : Session)
    (userId : JsValue) (t : String) (now : Nat)
    (hs : InMemorySession.findById st (.uuid s._id) = some s)
    (hu : t ≠ "user") (ha : t ≠ "agent") :
    joinSession b st socket
        { sessionId := .str (.uuid s._id), userId := userId, userType := some t } now =
      ({ sessionId := .str (.uuid s._id), userId := userId, userType := some t,
         rooms := (socket.join (.uuid s._id)).rooms },
       [⟨Target.others (.uuid s._id), Event.user_joined userId t now⟩,
        match SessionService.getSessionMessages b st (.uuid s._id) 50 0 with
        | .error _ => ⟨Target.self, Event.error "Failed to join session"⟩
        | .ok messages =>
          ⟨Target.self, Event.session_joined (.uuid s._id) s.status s.agentId messages⟩]) := by
  simp only [joinSession, Id.truthy, Bool.not_true, Bool.false_eq_true, if_false,
    getSessionById_of_found st _ s hs, Option.getD_some]
  rw [if_neg (fun h => hu h.1), if_neg (fun h => ha h.1)]
  cases b
  · rw [getSessionMessages_memory]
  · rw [getSessionMessages_durable]

/-- C29, what the code does: on the store holding the session of `u1` with one message, a
`join_session` request with `userType` `'system'` is accepted for every `userId` and every
connection, with no comparison against the owner or the agent of the session: the
connection is bound with the claimed identity, joins the room and the others are notified,
in both backends.  With the durable backend the requester receives `'session_joined'` with
the history; with the in-memory backend the history query throws and the requester receives
`'error'` `'Failed to join session'` instead, so no history is delivered. -/
theorem join_as_system (socket : Socket) (userId : JsValue) (now : Nat) :
    InMemorySession.findById storeHello (.uuid 2) = some sessionU1 ∧
    storeHello.messages.map Message.view =
      [{ id := 3, senderId := .lit "u1", senderType := "user", message := "hello",
         timestamp := 8 }] ∧
    joinSession .durable storeHello socket
        { sessionId := .str (.uuid 2), userId := userId, userType := some "system" } now =
      ({ sessionId := .str (.uuid 2), userId := userId, userType := some "system",
         rooms := (socket.join (.uuid 2)).rooms },
       [⟨Target.others (.uuid 2), Event.user_joined userId "system" now⟩,
        ⟨Target.self, Event.session_joined (.uuid 2) .active (.id 0)
          (storeHello.messages.map Message.view)⟩]) ∧
    joinSession .memory storeHello socket
        { sessionId := .str (.uuid 2), userId := userId, userType := some "system" } now =
      ({ sessionId := .str (.uuid 2), userId := userId, userType := some "system",
         rooms := (socket.join (.uuid 2)).rooms },
       [⟨Target.others (.uuid 2), Event.user_joined userId "system" now⟩,
        ⟨Target.self, Event.error "Failed to join session"⟩]) := by
  have hs : InMemorySession.findById storeHello (.uuid sessionU1._id) = some sessionU1 := rfl
  refine ⟨rfl, rfl, ?_, ?_⟩
  · exact joinSession_other_role .durable storeHello socket sessionU1 userId "system" now hs
      (by decide) (by decide)
  · exact joinSession_other_role .memory storeHello socket sessionU1 userId "system" now hs
      (by decide) (by decide)

/-! ## `createSession` on a directory whose active sets are backed by sessions -/

/-- On a well-formed store whose active sets are backed by open sessions (every store
reached through the service from idle agents), for a user `U` without a non-ended session:
if `getLeastLoaded` returns an `InMemoryAgent` instance `A`, then `U` is not in
`A.activeUsers` before `createSession(U)` and the load of `A` is exactly one higher
afterwards. -/
theorem createSession_load_one_higher (st : Store) (U : Id) (t : Option String) (now : Nat)
    (hwf : st.WF) (hB : st.Backed) (hU : InMemorySession.findActiveByUserId st U = none)
    (a : Agent) (hL : InMemoryAgent.getLeastLoaded st = some a) (hi : a.isInstance = true) :
    ∃ pre post, st.agents = pre ++ a :: post ∧
      (SessionService.createSession st U t now).2.agents =
        pre ++ a.assignUser U now :: post ∧
      U ∉ a.activeUsers ∧
      (a.assignUser U now).activeUsers = a.activeUsers ++ [U] ∧
      (a.assignUser U now).activeUsers.length = a.activeUsers.length + 1 := by
  obtain ⟨hav, pre, post, hs⟩ := getLeastLoaded_mem st a hL
  have hmem : a ∈ st.agents := by rw [hs]; simp
  have hn : U ∉ a.activeUsers := not_served_of_backed st hB U hU a hmem
  have hc : a.canAssign U = true := (Agent.canAssign_iff a U).2 ⟨hav.2, hn⟩
  refine ⟨pre, post, hs, ?_, hn, ?_, ?_⟩
  · rw [createSession_assigned st hwf U t now hU a pre post hs hL hi]
  · simp [Agent.assignUser, hc]
  · simp [Agent.assignUser, hc]

end ChatSupport
